import Mathlib

/-!
F-AI dashboard client: real-time channel and task reconciliation.

A shallow embedding of the message handling of the dashboard client
(`src/providers/WebSocketProvider.jsx`, `src/components/ChatInterface.jsx`,
`src/components/TaskOrchestrator.jsx`), of its notifications, logger and REST
error interceptor (`src/providers/NotificationProvider.jsx`,
`src/services/logger.js`, `src/services/api.js`) and of the view selection and
the smaller views (`src/App.jsx`, `src/components/LoggingDashboard.jsx`,
`src/components/ProviderManagement.jsx`), together with the small part of the
JavaScript value semantics that this code relies on.

Conventions of the embedding.

* A JavaScript value that can reach the handlers (decoded JSON, or `undefined`
  for an absent property) is a `JsVal`.  Numbers are integers: the code only
  tests numbers for truthiness and prints them, and fractional literals are
  outside the fragment modelled here.
* An operation that can throw returns `Except JsErr _`.
* `JSON.parse` is a builtin of the host, not code of the repository; every
  handler takes it as the parameter `parse`.  `JSON.read` is a reference
  reader for the integer fragment of JSON, used to evaluate concrete frames.
* React state is passed explicitly: a handler maps the state before the event
  to the state after it.
* A property read with a computed name on an object literal (`views[hash]`,
  `logLevels[level]`) also finds the members inherited from
  `Object.prototype`; `objectPrototypeNames` lists their names.
-/

namespace FAI

/-! ## JavaScript values -/

/-- A JavaScript value as seen by the handlers: decoded JSON plus `undefined`.
An object lists its own properties in enumeration order, without repeated
keys. -/
inductive JsVal where
  | undefined
  | null
  | bool (b : Bool)
  | num (n : Int)
  | str (s : String)
  | arr (xs : List JsVal)
  | obj (kvs : List (String × JsVal))
deriving Repr, Inhabited

/-- The exceptions the handlers can meet. -/
inductive JsErr where
  | typeErr
  | parseErr
deriving Repr, DecidableEq, Inhabited

deriving instance DecidableEq for Except

namespace JsVal

mutual
/-- Decidable equality of values, by structural comparison. -/
def decEq : (a b : JsVal) → Decidable (a = b)
  | undefined, undefined => isTrue rfl
  | undefined, null => isFalse (fun e => JsVal.noConfusion e)
  | undefined, bool _ => isFalse (fun e => JsVal.noConfusion e)
  | undefined, num _ => isFalse (fun e => JsVal.noConfusion e)
  | undefined, str _ => isFalse (fun e => JsVal.noConfusion e)
  | undefined, arr _ => isFalse (fun e => JsVal.noConfusion e)
  | undefined, obj _ => isFalse (fun e => JsVal.noConfusion e)
  | null, undefined => isFalse (fun e => JsVal.noConfusion e)
  | null, null => isTrue rfl
  | null, bool _ => isFalse (fun e => JsVal.noConfusion e)
  | null, num _ => isFalse (fun e => JsVal.noConfusion e)
  | null, str _ => isFalse (fun e => JsVal.noConfusion e)
  | null, arr _ => isFalse (fun e => JsVal.noConfusion e)
  | null, obj _ => isFalse (fun e => JsVal.noConfusion e)
  | bool _, undefined => isFalse (fun e => JsVal.noConfusion e)
  | bool _, null => isFalse (fun e => JsVal.noConfusion e)
  | bool x, bool y =>
    if h : x = y then isTrue (congrArg bool h) else isFalse (fun e => h (bool.inj e))
  | bool _, num _ => isFalse (fun e => JsVal.noConfusion e)
  | bool _, str _ => isFalse (fun e => JsVal.noConfusion e)
  | bool _, arr _ => isFalse (fun e => JsVal.noConfusion e)
  | bool _, obj _ => isFalse (fun e => JsVal.noConfusion e)
  | num _, undefined => isFalse (fun e => JsVal.noConfusion e)
  | num _, null => isFalse (fun e => JsVal.noConfusion e)
  | num _, bool _ => isFalse (fun e => JsVal.noConfusion e)
  | num x, num y =>
    if h : x = y then isTrue (congrArg num h) else isFalse (fun e => h (num.inj e))
  | num _, str _ => isFalse (fun e => JsVal.noConfusion e)
  | num _, arr _ => isFalse (fun e => JsVal.noConfusion e)
  | num _, obj _ => isFalse (fun e => JsVal.noConfusion e)
  | str _, undefined => isFalse (fun e => JsVal.noConfusion e)
  | str _, null => isFalse (fun e => JsVal.noConfusion e)
  | str _, bool _ => isFalse (fun e => JsVal.noConfusion e)
  | str _, num _ => isFalse (fun e => JsVal.noConfusion e)
  | str x, str y =>
    if h : x = y then isTrue (congrArg str h) else isFalse (fun e => h (str.inj e))
  | str _, arr _ => isFalse (fun e => JsVal.noConfusion e)
  | str _, obj _ => isFalse (fun e => JsVal.noConfusion e)
  | arr _, undefined => isFalse (fun e => JsVal.noConfusion e)
  | arr _, null => isFalse (fun e => JsVal.noConfusion e)
  | arr _, bool _ => isFalse (fun e => JsVal.noConfusion e)
  | arr _, num _ => isFalse (fun e => JsVal.noConfusion e)
  | arr _, str _ => isFalse (fun e => JsVal.noConfusion e)
  | arr x, arr y =>
    match decEqList x y with
    | isTrue h => isTrue (congrArg arr h)
    | isFalse h => isFalse (fun e => h (arr.inj e))
  | arr _, obj _ => isFalse (fun e => JsVal.noConfusion e)
  | obj _, undefined => isFalse (fun e => JsVal.noConfusion e)
  | obj _, null => isFalse (fun e => JsVal.noConfusion e)
  | obj _, bool _ => isFalse (fun e => JsVal.noConfusion e)
  | obj _, num _ => isFalse (fun e => JsVal.noConfusion e)
  | obj _, str _ => isFalse (fun e => JsVal.noConfusion e)
  | obj _, arr _ => isFalse (fun e => JsVal.noConfusion e)
  | obj x, obj y =>
    match decEqProps x y with
    | isTrue h => isTrue (congrArg obj h)
    | isFalse h => isFalse (fun e => h (obj.inj e))
termination_by structural a => a
/-- Decidable equality of arrays. -/
def decEqList : (xs ys : List JsVal) → Decidable (xs = ys)
  | [], [] => isTrue rfl
  | [], _ :: _ => isFalse (fun e => List.noConfusion e)
  | _ :: _, [] => isFalse (fun e => List.noConfusion e)
  | x :: xs, y :: ys =>
    match decEq x y, decEqList xs ys with
    | isTrue h, isTrue t => isTrue (congrArg₂ List.cons h t)
    | isFalse h, _ => isFalse (fun e => h (List.cons.inj e).1)
    | _, isFalse t => isFalse (fun e => t (List.cons.inj e).2)
termination_by structural xs => xs
/-- Decidable equality of property lists. -/
def decEqProps : (xs ys : List (String × JsVal)) → Decidable (xs = ys)
  | [], [] => isTrue rfl
  | [], _ :: _ => isFalse (fun e => List.noConfusion e)
  | _ :: _, [] => isFalse (fun e => List.noConfusion e)
  | (k, x) :: xs, (l, y) :: ys =>
    if hk : k = l then
      match decEq x y, decEqProps xs ys with
      | isTrue h, isTrue t => isTrue (by rw [hk, h, t])
      | isFalse h, _ => isFalse (fun e => h (Prod.mk.inj (List.cons.inj e).1).2)
      | _, isFalse t => isFalse (fun e => t (List.cons.inj e).2)
    else isFalse (fun e => hk (Prod.mk.inj (List.cons.inj e).1).1)
termination_by structural xs => xs
end

instance : DecidableEq JsVal := decEq

/-- JavaScript `ToBoolean`. -/
def truthy : JsVal → Bool
  | undefined => false
  | null => false
  | bool b => b
  | num n => n != 0
  | str s => s.data != []
  | arr _ => true
  | obj _ => true

/-- The operator `a || b`. -/
def or (a b : JsVal) : JsVal := if a.truthy then a else b

/-- The operator `a && b`. -/
def and (a b : JsVal) : JsVal := if a.truthy then b else a

/-- The operator `a === b`.  Primitive values are compared by value.  Arrays and
objects are compared by identity in JavaScript; two composite values decoded
from different frames are never the same object, so they compare unequal. -/
def strictEq : JsVal → JsVal → Bool
  | undefined, undefined => true
  | null, null => true
  | bool a, bool b => a == b
  | num a, num b => a == b
  | str a, str b => a == b
  | _, _ => false

/-- Number of UTF-16 code units of a string (the `length` of a JS string). -/
def utf16Length (s : String) : Nat :=
  (s.data.map fun c => if c.toNat < 65536 then 1 else 2).sum

/-- Own-property lookup in a property list. -/
def lookup (k : String) : List (String × JsVal) → JsVal
  | [] => undefined
  | (k', v) :: rest => if k' = k then v else lookup k rest

/-- Property read `v.k` for the property names this program reads (`type`,
`task_id`, `message`, `length`, ...): own properties of objects, `length` of
arrays and strings, `undefined` otherwise; reading a property of `null` or
`undefined` throws a `TypeError`. -/
def get (v : JsVal) (k : String) : Except JsErr JsVal :=
  match v with
  | undefined => .error .typeErr
  | null => .error .typeErr
  | obj kvs => .ok (lookup k kvs)
  | arr xs => .ok (if k = "length" then num xs.length else undefined)
  | str s => .ok (if k = "length" then num (utf16Length s) else undefined)
  | _ => .ok undefined

/-- Optional chaining `v?.k`. -/
def getOpt (v : JsVal) (k : String) : JsVal :=
  match v with
  | obj kvs => lookup k kvs
  | arr xs => if k = "length" then num xs.length else undefined
  | str s => if k = "length" then num (utf16Length s) else undefined
  | _ => undefined

/-- The test `typeof v === 'object'`. -/
def typeofObject : JsVal → Bool
  | null => true
  | arr _ => true
  | obj _ => true
  | _ => false

/-- The test `Array.isArray(v)`. -/
def isArray : JsVal → Bool
  | arr _ => true
  | _ => false

/-- The indexed read `v[0]`: the first element of an array, the first
character of a string, the property `0` of an object, `undefined` when there
is none; reading from `null` or `undefined` throws a `TypeError`.  (For a
string whose first character lies outside the Basic Multilingual Plane the
host gives half of a surrogate pair, which is no character; statements about
`v[0]` on strings are made for first characters below `U+10000`.) -/
def index0 : JsVal → Except JsErr JsVal
  | undefined => .error .typeErr
  | null => .error .typeErr
  | arr [] => .ok undefined
  | arr (x :: _) => .ok x
  | str t =>
    match t.data with
    | [] => .ok undefined
    | c :: _ => .ok (str (String.mk [c]))
  | obj kvs => .ok (lookup "0" kvs)
  | _ => .ok undefined

mutual
/-- JavaScript `ToString` (template literals, string concatenation). -/
def toStr : JsVal → String
  | undefined => "undefined"
  | null => "null"
  | bool b => if b then "true" else "false"
  | num n => toString n
  | str s => s
  | arr xs => joinElems xs
  | obj _ => "[object Object]"
termination_by structural v => v
/-- The comma join of `Array.prototype.toString`: `null` and `undefined`
elements print as the empty string. -/
def joinElems : List JsVal → String
  | [] => ""
  | x :: rest =>
    (match x with
      | undefined => ""
      | null => ""
      | v => toStr v) ++ (match rest with | [] => "" | _ => ",") ++ joinElems rest
termination_by structural xs => xs
end

end JsVal

/-! ## JSON text -/

namespace JSON

/-- JSON insignificant whitespace. -/
def isWs (c : Char) : Bool :=
  c.toNat == 32 || c.toNat == 9 || c.toNat == 10 || c.toNat == 13

def skipWs : List Char → List Char
  | [] => []
  | c :: cs => if isWs c then skipWs cs else c :: cs

def isDigit (c : Char) : Bool := 48 ≤ c.toNat && c.toNat ≤ 57

def hexVal (c : Char) : Option Nat :=
  if 48 ≤ c.toNat && c.toNat ≤ 57 then some (c.toNat - 48)
  else if 97 ≤ c.toNat && c.toNat ≤ 102 then some (c.toNat - 87)
  else if 65 ≤ c.toNat && c.toNat ≤ 70 then some (c.toNat - 55)
  else none

/-- The code point of a four-digit escape; surrogate halves are outside the
modelled fragment. -/
def hex4 (a b c d : Char) : Option Char :=
  match hexVal a, hexVal b, hexVal c, hexVal d with
  | some x, some y, some z, some w =>
    let n := ((x * 16 + y) * 16 + z) * 16 + w
    if 55296 ≤ n && n ≤ 57343 then none else some (Char.ofNat n)
  | _, _, _, _ => none

/-- Reads the body of a string literal, after its opening quote. -/
def readString : List Char → List Char → Option (String × List Char)
  | _, [] => none
  | acc, c :: cs =>
    if c = '"' then some (String.mk acc.reverse, cs)
    else if c = '\\' then
      match cs with
      | [] => none
      | e :: rest =>
        if e = '"' then readString ('"' :: acc) rest
        else if e = '\\' then readString ('\\' :: acc) rest
        else if e = '/' then readString ('/' :: acc) rest
        else if e = 'b' then readString (Char.ofNat 8 :: acc) rest
        else if e = 'f' then readString (Char.ofNat 12 :: acc) rest
        else if e = 'n' then readString ('\n' :: acc) rest
        else if e = 'r' then readString ('\r' :: acc) rest
        else if e = 't' then readString ('\t' :: acc) rest
        else if e = 'u' then
          match rest with
          | a :: b :: c2 :: d :: rest2 =>
            match hex4 a b c2 d with
            | some ch => readString (ch :: acc) rest2
            | none => none
          | _ => none
        else none
    else if c.toNat < 32 then none
    else readString (c :: acc) cs

def readDigits : Nat → List Char → Nat × List Char
  | acc, [] => (acc, [])
  | acc, c :: cs =>
    if isDigit c then readDigits (acc * 10 + (c.toNat - 48)) cs else (acc, c :: cs)

/-- Reads an integer literal `0 | [1-9][0-9]*` (the sign is read by the caller).
A literal continued by a fraction or an exponent is outside the modelled
fragment. -/
def readInt (cs : List Char) : Option (Nat × List Char) :=
  match cs with
  | [] => none
  | c :: rest =>
    if !isDigit c then none
    else
      let r := if c = '0' then (0, rest) else readDigits 0 (c :: rest)
      match r.2 with
      | d :: _ => if isDigit d || d = '.' || d = 'e' || d = 'E' then none else some r
      | [] => some r

/-- A property name that is an array index (`0`, `1`, ... below `2^32 - 1`). -/
def indexKey (k : String) : Option Nat :=
  match k.data with
  | [] => none
  | c :: rest =>
    if (c :: rest).all isDigit && (c != '0' || rest.isEmpty) then
      let n := (readDigits 0 (c :: rest)).1
      if n < 4294967295 then some n else none
    else none

/-- Defines property `k` on a property list: an existing key keeps its place
and takes the new value; a new index key goes among the index keys in
ascending order, before all other keys; any other new key goes last. -/
def setProp (k : String) (v : JsVal) : List (String × JsVal) → List (String × JsVal)
  | [] => [(k, v)]
  | (k', v') :: rest =>
    if k' = k then (k, v) :: rest
    else
      match indexKey k, indexKey k' with
      | some n, some m =>
        if n < m && (rest.all fun p => p.1 != k) then (k, v) :: (k', v') :: rest
        else (k', v') :: setProp k v rest
      | some _, none =>
        if rest.all fun p => p.1 != k then (k, v) :: (k', v') :: rest
        else (k', v') :: setProp k v rest
      | none, _ => (k', v') :: setProp k v rest

mutual
/-- Reads one JSON value; `none` when the text is not JSON. -/
def readValue : Nat → List Char → Option (JsVal × List Char)
  | 0, _ => none
  | fuel + 1, cs =>
    match skipWs cs with
    | 'n' :: 'u' :: 'l' :: 'l' :: rest => some (.null, rest)
    | 't' :: 'r' :: 'u' :: 'e' :: rest => some (.bool true, rest)
    | 'f' :: 'a' :: 'l' :: 's' :: 'e' :: rest => some (.bool false, rest)
    | '"' :: rest =>
      match readString [] rest with
      | some (s, r) => some (.str s, r)
      | none => none
    | '[' :: rest =>
      match skipWs rest with
      | ']' :: r => some (.arr [], r)
      | _ => readElems fuel rest []
    | '\x7b' :: rest =>
      match skipWs rest with
      | '\x7d' :: r => some (.obj [], r)
      | _ => readMembers fuel rest []
    | '-' :: rest =>
      match readInt rest with
      | some (n, r) => some (.num (-(n : Int)), r)
      | none => none
    | c :: rest =>
      match readInt (c :: rest) with
      | some (n, r) => some (.num (n : Int), r)
      | none => none
    | [] => none
/-- Reads the elements of an array up to the closing bracket. -/
def readElems : Nat → List Char → List JsVal → Option (JsVal × List Char)
  | 0, _, _ => none
  | fuel + 1, cs, acc =>
    match readValue fuel cs with
    | none => none
    | some (v, r) =>
      match skipWs r with
      | ',' :: r2 => readElems fuel r2 (v :: acc)
      | ']' :: r2 => some (.arr (v :: acc).reverse, r2)
      | _ => none
/-- Reads the members of an object up to the closing brace. -/
def readMembers : Nat → List Char → List (String × JsVal) → Option (JsVal × List Char)
  | 0, _, _ => none
  | fuel + 1, cs, acc =>
    match skipWs cs with
    | '"' :: rest =>
      match readString [] rest with
      | none => none
      | some (k, r) =>
        match skipWs r with
        | ':' :: r1 =>
          match readValue fuel r1 with
          | none => none
          | some (v, r2) =>
            match skipWs r2 with
            | ',' :: r3 => readMembers fuel r3 (setProp k v acc)
            | '\x7d' :: r3 => some (.obj (setProp k v acc), r3)
            | _ => none
        | _ => none
    | _ => none
end

/-- Reference reader for JSON text (integer fragment): the decoded value, or
`none` when the text is not JSON. -/
def read (s : String) : Option JsVal :=
  match readValue (s.data.length + 1) s.data with
  | some (v, r) => if (skipWs r).isEmpty then some v else none
  | none => none

/-- Lower-case hexadecimal digit. -/
def hexDigit (n : Nat) : Char :=
  if n < 10 then Char.ofNat (48 + n) else Char.ofNat (87 + n)

/-- The escape of one character inside a quoted JSON string
(`QuoteJSONString`). -/
def escapeChar (c : Char) : List Char :=
  if c = '"' then ['\\', '"']
  else if c = '\\' then ['\\', '\\']
  else if c.toNat = 8 then ['\\', 'b']
  else if c.toNat = 12 then ['\\', 'f']
  else if c = '\n' then ['\\', 'n']
  else if c = '\r' then ['\\', 'r']
  else if c = '\t' then ['\\', 't']
  else if c.toNat < 32 then ['\\', 'u', '0', '0', hexDigit (c.toNat / 16), hexDigit (c.toNat % 16)]
  else [c]

/-- A string as a quoted JSON string. -/
def quote (s : String) : String :=
  String.mk ('"' :: (s.data.flatMap escapeChar ++ ['"']))

mutual
/-- The text of `JSON.stringify(v, null, 2)` for a value at indentation `ind`;
`none` for `undefined`, which has no JSON text. -/
def render (ind : String) : JsVal → Option String
  | .undefined => none
  | .null => some "null"
  | .bool b => some (if b then "true" else "false")
  | .num n => some (toString n)
  | .str s => some (quote s)
  | .arr xs =>
    match xs with
    | [] => some "[]"
    | _ :: _ =>
      some ("[\n" ++ ind ++ "  " ++ String.intercalate (",\n" ++ ind ++ "  ")
        (renderElems (ind ++ "  ") xs) ++ "\n" ++ ind ++ "]")
  | .obj kvs =>
    match renderProps (ind ++ "  ") kvs with
    | [] => some "\x7b\x7d"
    | p :: ps =>
      some ("\x7b\n" ++ ind ++ "  " ++ String.intercalate (",\n" ++ ind ++ "  ") (p :: ps)
        ++ "\n" ++ ind ++ "\x7d")
termination_by structural v => v
/-- Array elements; an `undefined` element prints as `null`. -/
def renderElems (ind : String) : List JsVal → List String
  | [] => []
  | x :: rest =>
    (match render ind x with
      | some t => t
      | none => "null") :: renderElems ind rest
termination_by structural xs => xs
/-- Object members `"key": value`; a member whose value is `undefined` is
left out. -/
def renderProps (ind : String) : List (String × JsVal) → List String
  | [] => []
  | (k, x) :: rest =>
    match render ind x with
    | some t => (quote k ++ ": " ++ t) :: renderProps ind rest
    | none => renderProps ind rest
termination_by structural kvs => kvs
end

/-- The expression `JSON.stringify(v, null, 2)`: a string, or `undefined` when
`v` is `undefined`. -/
def stringify2 (v : JsVal) : JsVal :=
  match render "" v with
  | some t => .str t
  | none => .undefined

end JSON

/-! ## String operations of the host -/

namespace JsStr

/-- Characters matched by `\s` and removed by `trim` (white space and line
terminators). -/
def isSpace (c : Char) : Bool :=
  let n := c.toNat
  (9 ≤ n && n ≤ 13) || n == 32 || n == 160 || n == 5760 || (8192 ≤ n && n ≤ 8202)
    || n == 8232 || n == 8233 || n == 8239 || n == 8287 || n == 12288 || n == 65279

/-- Line terminators: a multi-line `^` matches right after one of them. -/
def isLineTerm (c : Char) : Bool :=
  let n := c.toNat
  n == 10 || n == 13 || n == 8232 || n == 8233

/-- The method `String.prototype.trim`. -/
def trim (l : List Char) : List Char :=
  ((l.dropWhile isSpace).reverse.dropWhile isSpace).reverse

/-- Whether `needle` starts `hay`. -/
def startsWith : List Char → List Char → Bool
  | _, [] => true
  | [], _ :: _ => false
  | h :: hay, n :: needle => h == n && startsWith hay needle

/-- The method `String.prototype.includes`: `needle` occurs in `hay`. -/
def includes : List Char → List Char → Bool
  | [], needle => needle.isEmpty
  | c :: cs, needle => startsWith (c :: cs) needle || includes cs needle

/-- Whether the last character of a match is a line terminator. -/
def endsLine (l : List Char) : Bool :=
  match l.getLast? with
  | some c => isLineTerm c
  | none => false

/-- Global multi-line replacement by the empty string of the pattern
`^m{least,}\s*`: scanning from the left, wherever a line starts (at the start of
the text or right after a line terminator) with at least `least` characters
`m`, the whole run of `m` and all white space after it are removed and the scan
goes on behind the removed text; every other character is kept.  `atStart`
says whether the scan stands at a line start. -/
def stripRuns (m : Char) (least : Nat) : Nat → Bool → List Char → List Char
  | 0, _, l => l
  | _ + 1, _, [] => []
  | fuel + 1, atStart, c :: cs =>
    let run := (c :: cs).takeWhile (· == m)
    if atStart && decide (least ≤ run.length) && decide (0 < run.length) then
      let afterRun := (c :: cs).dropWhile (· == m)
      let ws := afterRun.takeWhile isSpace
      stripRuns m least fuel (endsLine (run ++ ws)) (afterRun.dropWhile isSpace)
    else c :: stripRuns m least fuel (isLineTerm c) cs

/-- The expression
`explanation.replace(/^#+\s*/gm, '').replace(/^--+\s*/gm, '').trim()`. -/
def cleanExplanation (e : String) : String :=
  let a := stripRuns '#' 1 e.data.length true e.data
  let b := stripRuns '-' 2 a.length true a
  String.mk (trim b)

end JsStr

/-- The call `JSON.parse(v)`: the argument is converted to a string, then
decoded by the host's `parse`; text that is not JSON throws a `SyntaxError`. -/
def jsonParse (parse : String → Option JsVal) (v : JsVal) : Except JsErr JsVal :=
  match parse v.toStr with
  | some r => .ok r
  | none => .error .parseErr

/-- The comparison `v > 0` on the value of a `length` property.  Strings count
as the decimal integer they spell (other numeric spellings are outside the
modelled fragment); composite values compare through their string form. -/
def gtZero (v : JsVal) : Bool :=
  let spelled (t : String) : Bool :=
    let l := JsStr.trim t.data
    let d := match l with
      | '+' :: r => r
      | r => r
    !d.isEmpty && d.all JSON.isDigit && d.any (· != '0')
  match v with
  | .undefined => false
  | .null => false
  | .bool b => b
  | .num n => decide (0 < n)
  | .str t => spelled t
  | .arr xs => spelled (JsVal.arr xs).toStr
  | .obj _ => false

/-- Mapping a function that may throw over an array: elements are visited in
order and the first exception aborts the whole call. -/
def mapE {α β : Type} (f : α → Except JsErr β) : List α → Except JsErr (List β)
  | [] => .ok []
  | a :: rest =>
    match f a with
    | .error e => .error e
    | .ok b =>
      match mapE f rest with
      | .error e => .error e
      | .ok bs => .ok (b :: bs)

/-- Filtering with a test that may throw. -/
def filterE {α : Type} (f : α → Except JsErr Bool) : List α → Except JsErr (List α)
  | [] => .ok []
  | a :: rest =>
    match f a with
    | .error e => .error e
    | .ok keep =>
      match filterE f rest with
      | .error e => .error e
      | .ok bs => .ok (if keep then a :: bs else bs)

/-! ## WebSocketProvider.jsx -/

namespace WebSocketProvider

/-- The body of the `try` block of `ws.current.onmessage`: decode the frame,
read `data.type` for the log entry, append the decoded value. -/
def onmessageTry (parse : String → Option JsVal) (messages : List JsVal) (data : String) :
    Except JsErr (List JsVal) := do
  let decoded ← jsonParse parse (.str data)
  let _ ← decoded.get "type"
  pure (messages ++ [decoded])

/-- The handler `ws.current.onmessage` as a function from the message list
before the frame to the list after it; `data` is the text of the frame.  An
exception raised in the `try` block is caught and logged, and the list stays
as it was. -/
def onmessage (parse : String → Option JsVal) (messages : List JsVal) (data : String) :
    Except JsErr (List JsVal) :=
  match onmessageTry parse messages data with
  | .ok ms => .ok ms
  | .error _ => .ok messages

end WebSocketProvider

/-! ## ChatInterface.jsx -/

namespace ChatInterface

/-- A conversation turn.  A property the turn does not carry reads as
`undefined`. -/
structure Turn where
  role : String
  content : JsVal
  timestamp : Nat
  taskId : JsVal := .undefined
  isStreaming : JsVal := .undefined
  structuredOutput : JsVal := .undefined
deriving DecidableEq, Repr

/-- The local state of the chat view that the handlers read and write. -/
structure ChatState where
  messages : List Turn
  taskId : JsVal
  isLoading : Bool
  input : String
deriving DecidableEq, Repr

/-- The selection of the structured payload:
`Array.isArray(outputData) && outputData.length > 0 ? outputData[0] : outputData`. -/
def selectStructured (outputData : JsVal) : Except JsErr JsVal :=
  if outputData.isArray && gtZero (outputData.getOpt "length") then outputData.index0
  else .ok outputData

/-- The structured payload in the words of the specification: the first
element of a non-empty array, the decoded value itself in every other case. -/
def specPayload : JsVal → JsVal
  | .arr (first :: _) => first
  | v => v

/-- The call `content.includes(x)`: substring test on a string, membership
test on an array, a `TypeError` on any other value. -/
def contentIncludes (content x : JsVal) : Except JsErr Bool :=
  match content with
  | .str t => .ok (JsStr.includes t.data x.toStr.data)
  | .arr xs => .ok (xs.any fun y => y.strictEq x)
  | _ => .error .typeErr

/-- The filter test
`file.language !== 'text' && !content.includes(file.filename)`. -/
def keepFile (content file : JsVal) : Except JsErr Bool := do
  let language ← file.get "language"
  if language.strictEq (.str "text") then pure false
  else
    let filename ← file.get "filename"
    let found ← contentIncludes content filename
    pure (!found)

/-- The text appended for one delivered file: a fenced block labelled by file
name and language. -/
def fileBlock (file : JsVal) : Except JsErr String := do
  let filename ← file.get "filename"
  let language ← file.get "language"
  let body ← file.get "content"
  pure (filename.toStr ++ " (" ++ language.toStr ++ "):\n```" ++ language.toStr ++ "\n"
    ++ body.toStr ++ "\n```\n")

/-- The `file_delivery` step, with the summary as `content`: when the list is
present and non-empty, the files that pass `keepFile` are appended under a
heading, in list order. -/
def appendFiles (content fileDelivery : JsVal) : Except JsErr JsVal :=
  if fileDelivery.truthy && gtZero (fileDelivery.getOpt "length") then
    match fileDelivery with
    | .arr files => do
      let additionalFiles ← filterE (keepFile content) files
      if additionalFiles.isEmpty then pure content
      else
        let blocks ← mapE fileBlock additionalFiles
        pure (.str (content.toStr ++ "\n\nGenerated Files:\n" ++ String.join blocks))
    | _ => .error .typeErr
  else .ok content

/-- The display value taken from the structured payload (the `if` on
`structuredOutput && typeof structuredOutput === 'object'`); `content` is the
value kept when the payload is not an object. -/
def extractStructured (structuredOutput content : JsVal) : Except JsErr JsVal :=
  if structuredOutput.truthy && structuredOutput.typeofObject then do
    let error ← structuredOutput.get "error"
    if error.truthy then pure error
    else
      let summary ← structuredOutput.get "explanatory_summary"
      if summary.truthy then do
        let fileDelivery ← structuredOutput.get "file_delivery"
        appendFiles summary fileDelivery
      else
        let response ← structuredOutput.get "response"
        if response.truthy then pure response
        else pure (JSON.stringify2 structuredOutput)
  else pure content

/-- The values of the variables `content` and `structuredOutput` after the
`try`/`catch` of the output branch. -/
structure Extracted where
  content : JsVal
  structuredOutput : JsVal
deriving DecidableEq, Repr

/-- The `try`/`catch` of the output branch: decode `latestMessage.message`,
select the structured payload and take the display value from it; on any
exception fall back to the raw `latestMessage.message`. -/
def extractContent (parse : String → Option JsVal) (latestMessage : JsVal) :
    Except JsErr Extracted := do
  let message ← latestMessage.get "message"
  match jsonParse parse message with
  | .error _ => pure { content := message, structuredOutput := .null }
  | .ok outputData =>
    match selectStructured outputData with
    | .error _ => pure { content := message, structuredOutput := .null }
    | .ok structuredOutput =>
      match extractStructured structuredOutput (message.or (.str "")) with
      | .ok content => pure { content := content, structuredOutput := structuredOutput }
      | .error _ => pure { content := message, structuredOutput := structuredOutput }

/-- The numbered list built from `run_steps`. -/
def runStepLines (steps : List JsVal) : List String :=
  steps.enum.map fun p => toString (p.1 + 1) ++ ". `" ++ p.2.toStr ++ "`"

/-- The statements after the `try`/`catch`: the preview `content.substring`
(which needs a string), then the explanation and run-steps suffixes. -/
def finishContent (latestMessage content : JsVal) : Except JsErr JsVal :=
  match content with
  | .str c => do
    let explanation ← latestMessage.get "explanation"
    let c1 ←
      if explanation.truthy then
        match explanation with
        | .str e => pure (c ++ "\n\n" ++ JsStr.cleanExplanation e)
        | _ => throw JsErr.typeErr
      else pure c
    let runSteps ← latestMessage.get "run_steps"
    if runSteps.truthy && gtZero (runSteps.getOpt "length") then
      match runSteps with
      | .arr steps =>
        pure (.str (c1 ++ "\n\n**Run Steps:**\n" ++ String.intercalate "\n" (runStepLines steps)))
      | _ => throw JsErr.typeErr
    else pure (.str c1)
  | _ => .error .typeErr

/-- The updater applied to each turn by the output branch. -/
def updateTurn (parse : String → Option JsVal) (latestMessage messageTaskId : JsVal)
    (msg : Turn) : Except JsErr Turn :=
  if msg.taskId.strictEq messageTaskId && msg.isStreaming.truthy then do
    let ex ← extractContent parse latestMessage
    let content ← finishContent latestMessage ex.content
    pure { msg with
      content := content, structuredOutput := ex.structuredOutput, isStreaming := .bool false }
  else pure msg

/-- The result of the updater of the output branch on a turn, for given final
values of `content` and `structuredOutput`: a streaming turn with the
message's task id takes them and stops streaming, any other turn is returned
as it is. -/
def settle (content structuredOutput : JsVal) (messageTaskId : JsVal) (msg : Turn) : Turn :=
  if msg.taskId.strictEq messageTaskId && msg.isStreaming.truthy then
    { msg with
      content := content, structuredOutput := structuredOutput, isStreaming := .bool false }
  else msg

/-- The updater applied to each turn by the `task_created` branch. -/
def backfillTurn (taskId : JsVal) (msg : Turn) : Turn :=
  if msg.isStreaming.truthy && !msg.taskId.truthy then { msg with taskId := taskId } else msg

/-- The body of the WebSocket effect for the latest channel message. -/
def handleLatest (parse : String → Option JsVal) (st : ChatState) (latestMessage : JsVal) :
    Except JsErr ChatState := do
  let type ← latestMessage.get "type"
  let taskId ← latestMessage.get "task_id"
  if type.strictEq (.str "task_created") then
    if !st.taskId.truthy && taskId.truthy then
      pure { st with taskId := taskId, messages := st.messages.map (backfillTurn taskId) }
    else pure st
  else if type.strictEq (.str "output") && (taskId.or st.taskId).truthy then do
    let messages ← mapE (updateTurn parse latestMessage (taskId.or st.taskId)) st.messages
    pure { st with messages := messages, isLoading := false }
  else
    let status ← latestMessage.get "status"
    if type.strictEq (.str "status") && status.strictEq (.str "completed") then
      pure { st with isLoading := false }
    else pure st

/-- The WebSocket effect: nothing on an empty message list, otherwise the last
message of the list is handled. -/
def wsEffect (parse : String → Option JsVal) (st : ChatState) (wsMessages : List JsVal) :
    Except JsErr ChatState :=
  match wsMessages.getLast? with
  | none => .ok st
  | some latestMessage => handleLatest parse st latestMessage

/-- The part of `handleSubmit` before the REST call: `none` when the handler
returns at its guard, otherwise the state with the user turn appended, the
input cleared and the loading flag set. -/
def handleSubmitStart (now : Nat) (st : ChatState) : Option ChatState :=
  let messageContent := JsStr.trim st.input.data
  if messageContent.isEmpty || st.isLoading then none
  else
    some { st with
      messages := st.messages ++
        [{ role := "user", content := .str (String.mk messageContent), timestamp := now }]
      input := ""
      isLoading := true }

/-- The part of `handleSubmit` after the REST call resolved with body `data`:
the new state and the frames handed to `sendMessage`. -/
def handleSubmitResolved (now : Nat) (data : JsVal) (st : ChatState) :
    ChatState × List JsVal :=
  let extractedTaskId := (data.getOpt "task_id").or (data.getOpt "id")
  if ((data.getOpt "response").and (data.getOpt "type")).truthy then
    ({ st with
        taskId := extractedTaskId
        messages := st.messages ++
          [{ role := "assistant", content := data.getOpt "response", timestamp := now,
             taskId := extractedTaskId, isStreaming := .bool false }]
        isLoading := false }, [])
  else
    ({ st with
        taskId := extractedTaskId
        messages := st.messages ++
          [{ role := "assistant", content := .str "", timestamp := now,
             taskId := extractedTaskId, isStreaming := .bool true }] },
      if extractedTaskId.truthy then
        [.obj [("type", .str "subscribe_task"), ("taskId", extractedTaskId)]]
      else [])

/-- The `catch` part of `handleSubmit`, after the REST call was rejected: a
streaming placeholder with `taskId: null` is appended. -/
def handleSubmitRejected (now : Nat) (st : ChatState) : ChatState :=
  { st with
    messages := st.messages ++
      [{ role := "assistant", content := .str "", timestamp := now,
         taskId := .null, isStreaming := .bool true }] }

/-- The effect run on a sequence of channel messages, one after the other. -/
def handleAll (parse : String → Option JsVal) : ChatState → List JsVal →
    Except JsErr ChatState
  | st, [] => .ok st
  | st, latestMessage :: later =>
    match handleLatest parse st latestMessage with
    | .ok st1 => handleAll parse st1 later
    | .error e => .error e

/-- A turn that is not streaming is kept as it is: the relation between a
turn before and after channel messages that the effect maintains. -/
def Kept (t t1 : Turn) : Prop := t.isStreaming.truthy = false → t1 = t

/-! ### Runs of the chat view -/

/-- The events that drive the chat view: typing into the input box, a submit,
the answer or the failure of a pending task-creation call, and a channel
message handled by the WebSocket effect. -/
inductive Event where
  | typing (text : String)
  | submit (now : Nat)
  | resolved (now : Nat) (data : JsVal)
  | rejected (now : Nat)
  | channel (latestMessage : JsVal)
deriving DecidableEq, Repr

/-- The chat view together with the number of task-creation calls in flight
and the channel message received last (the last element of `wsMessages`;
`none` while nothing was received). -/
structure View where
  chat : ChatState
  pending : Nat
  latest : Option JsVal
deriving DecidableEq, Repr

/-- The view right after mounting with nothing stored and nothing received:
the empty chat. -/
def emptyChat : View :=
  { chat := { messages := [], taskId := .null, isLoading := false, input := "" }, pending := 0,
    latest := none }

/-- Whether the effect, handling `latestMessage` in the state `st`, adopts the
task id of the message: the tests `latestMessage.type === 'task_created'` and
`!taskId && latestMessage.task_id`. -/
def adopts (st : ChatState) (latestMessage : JsVal) : Bool :=
  (latestMessage.getOpt "type").strictEq (.str "task_created") && !st.taskId.truthy
    && (latestMessage.getOpt "task_id").truthy

/-- The WebSocket effect when the channel delivered `latestMessage`: the effect
handles the message; when that run adopted a task id, the state `taskId`, a
dependency of the effect, has changed, so the effect handles the same message
once more (the task id is truthy then, and no further run follows). -/
def onChannel (parse : String → Option JsVal) (st : ChatState) (latestMessage : JsVal) :
    Except JsErr ChatState := do
  let st1 ← handleLatest parse st latestMessage
  if adopts st latestMessage then handleLatest parse st1 latestMessage else pure st1

/-- Whether `setTaskId(next)` changes the state `taskId`: React compares the
values with `Object.is`. -/
def taskIdChanges (taskId next : JsVal) : Bool := !next.strictEq taskId

/-- The task id of an answer to task creation:
`response.data?.task_id || response.data?.id`. -/
def answerId (data : JsVal) : JsVal := (data.getOpt "task_id").or (data.getOpt "id")

/-- The chat after the REST call resolved with body `data`: the rest of
`handleSubmit`, and, when `setTaskId` changed the state `taskId` and a channel
message was received before, the WebSocket effect on that last message, which
runs again because `taskId` is one of its dependencies. -/
def onResolved (parse : String → Option JsVal) (now : Nat) (data : JsVal)
    (latest : Option JsVal) (st : ChatState) : Except JsErr ChatState :=
  match latest with
  | some latestMessage =>
    if taskIdChanges st.taskId (handleSubmitResolved now data st).1.taskId then
      onChannel parse (handleSubmitResolved now data st).1 latestMessage
    else .ok (handleSubmitResolved now data st).1
  | none => .ok (handleSubmitResolved now data st).1

/-- One event.  The input box is disabled while the loading flag is set; a
submit that stops at the guard of `handleSubmit` leaves the view as it is; an
answer or failure needs a call in flight; `none` when the event cannot happen
or the effect throws. -/
def step (parse : String → Option JsVal) (v : View) : Event → Option View
  | .typing text =>
    if v.chat.isLoading then none
    else some { v with chat := { v.chat with input := text } }
  | .submit now =>
    match handleSubmitStart now v.chat with
    | some chat => some { v with chat := chat, pending := v.pending + 1 }
    | none => some v
  | .resolved now data =>
    if v.pending = 0 then none
    else
      match onResolved parse now data v.latest v.chat with
      | .ok chat => some { v with chat := chat, pending := v.pending - 1 }
      | .error _ => none
  | .rejected now =>
    if v.pending = 0 then none
    else some { v with chat := handleSubmitRejected now v.chat, pending := v.pending - 1 }
  | .channel latestMessage =>
    match onChannel parse v.chat latestMessage with
    | .ok chat => some { v with chat := chat, latest := some latestMessage }
    | .error _ => none

/-- A run: the events applied from left to right. -/
def run (parse : String → Option JsVal) : View → List Event → Option View
  | v, [] => some v
  | v, e :: es =>
    match step parse v e with
    | some v1 => run parse v1 es
    | none => none

/-- The turns that are streaming. -/
def streaming (turns : List Turn) : List Turn :=
  turns.filter fun t => t.isStreaming.truthy

/-- The turns that are streaming with task id `id`. -/
def streamingWith (id : JsVal) (turns : List Turn) : List Turn :=
  turns.filter fun t => t.isStreaming.truthy && decide (t.taskId = id)

/-- The task ids of the streaming turns, in list order. -/
def streamingIds (turns : List Turn) : List JsVal :=
  (streaming turns).map fun t => t.taskId

/-- The streaming turns carry pairwise different task ids, each of them `null`
or truthy. -/
def distinctIds (turns : List Turn) : Prop :=
  (streamingIds turns).Nodup ∧ ∀ id ∈ streamingIds turns, id = .null ∨ id.truthy = true

/-- An event that gives no task id to a second streaming turn: an answer to
task creation carries a truthy task id which, unless the answer is a direct
response, no streaming turn carries; a task-creation call fails only while no
streaming turn is without task id; and a `task_created` message that the view
adopts carries an id that no streaming turn carries. -/
def orderly (v : View) : Event → Bool
  | .resolved _ data =>
    (answerId data).truthy &&
      (((data.getOpt "response").and (data.getOpt "type")).truthy ||
        (streamingWith (answerId data) v.chat.messages).isEmpty)
  | .rejected _ => v.chat.messages.all fun t => !(t.isStreaming.truthy && !t.taskId.truthy)
  | .channel latestMessage =>
    !adopts v.chat latestMessage ||
      (streamingWith (latestMessage.getOpt "task_id") v.chat.messages).isEmpty
  | _ => true

/-- The task ids of the answers to task creation among the events, in
order. -/
def answerIds : List Event → List JsVal
  | [] => []
  | .resolved _ data :: rest => answerId data :: answerIds rest
  | _ :: rest => answerIds rest

/-- Whether a task-creation call fails among the events. -/
def anyRejected : List Event → Bool
  | [] => false
  | .rejected _ :: _ => true
  | _ :: rest => anyRejected rest

/-- A run all of whose events are orderly in the state they meet. -/
def runOrderly (parse : String → Option JsVal) : View → List Event → Option View
  | v, [] => some v
  | v, e :: es =>
    if orderly v e then
      match step parse v e with
      | some v1 => runOrderly parse v1 es
      | none => none
    else none

/-! ### The states and frames of the end-to-end scenarios -/

/-- The chat after scenario A: the user turn `hello` and the streaming
placeholder of task `abc`. -/
def scenarioA : ChatState :=
  { messages :=
      [{ role := "user", content := .str "hello", timestamp := 1 },
       { role := "assistant", content := .str "", timestamp := 2, taskId := .str "abc",
         isStreaming := .bool true }]
    taskId := .str "abc"
    isLoading := true
    input := "" }

/-- The chat after scenario B: the placeholder of task `abc` has taken the
error text `boom` and stopped streaming. -/
def scenarioB : ChatState :=
  { messages :=
      [{ role := "user", content := .str "hello", timestamp := 1 },
       { role := "assistant", content := .str "boom", timestamp := 2, taskId := .str "abc",
         isStreaming := .bool false, structuredOutput := .obj [("error", .str "boom")] }]
    taskId := .str "abc"
    isLoading := false
    input := "" }

/-- The chat after a submit whose task-creation call failed: the user turn and
a streaming placeholder whose `taskId` is still `null`. -/
def failedSubmit : ChatState :=
  { messages :=
      [{ role := "user", content := .str "hello", timestamp := 1 },
       { role := "assistant", content := .str "", timestamp := 2, taskId := .null,
         isStreaming := .bool true }]
    taskId := .null
    isLoading := true
    input := "" }

/-- The chat after two submits whose task-creation calls both failed, the
loading flag having been cleared by a completed status in between: two
streaming placeholders whose `taskId` is still `null`. -/
def failedTwice : ChatState :=
  { messages :=
      [{ role := "user", content := .str "hello", timestamp := 1 },
       { role := "assistant", content := .str "", timestamp := 2, taskId := .null,
         isStreaming := .bool true },
       { role := "user", content := .str "again", timestamp := 3 },
       { role := "assistant", content := .str "", timestamp := 4, taskId := .null,
         isStreaming := .bool true }]
    taskId := .null
    isLoading := true
    input := "" }

/-- The events that lead from the empty chat to `failedTwice`. -/
def failedTwiceEvents : List Event :=
  [.typing "hello", .submit 1, .rejected 2,
   .channel (.obj [("type", .str "status"), ("status", .str "completed")]),
   .typing "again", .submit 3, .rejected 4]

/-- The chat after scenario B and a second submit, answered with task id
`def`: the settled turn of task `abc` and a streaming placeholder of `def`. -/
def secondExchange : ChatState :=
  { messages := scenarioB.messages ++
      [{ role := "user", content := .str "again", timestamp := 3 },
       { role := "assistant", content := .str "", timestamp := 4, taskId := .str "def",
         isStreaming := .bool true }]
    taskId := .str "def"
    isLoading := true
    input := "" }

/-- The chat `secondExchange` after the output `second` of task `def`. -/
def secondExchangeDone : ChatState :=
  { messages := scenarioB.messages ++
      [{ role := "user", content := .str "again", timestamp := 3 },
       { role := "assistant", content := .str "second", timestamp := 4, taskId := .str "def",
         isStreaming := .bool false, structuredOutput := .null }]
    taskId := .str "def"
    isLoading := false
    input := "" }

/-- Three exchanges: a submit whose task-creation call fails and whose
placeholder is identified by `task_created` and settled by the output of task
`abc`, then two submits answered with the task ids `def` and `ghi`, the second
of them while the placeholder of `def` is still streaming, and a completed
status at the end. -/
def threeExchanges : List Event :=
  [.typing "hello", .submit 1, .rejected 2,
   .channel (.obj [("type", .str "task_created"), ("task_id", .str "abc")]),
   .channel (.obj [("type", .str "output"), ("task_id", .str "abc"), ("message", .str "done")]),
   .typing "again", .submit 3, .resolved 4 (.obj [("task_id", .str "def")]),
   .typing "more", .submit 5, .resolved 6 (.obj [("task_id", .str "ghi")]),
   .channel (.obj [("type", .str "status"), ("status", .str "completed")])]

/-- Two exchanges on the success path: the first answered with task id `abc`
and settled by the output `{"error":"boom"}`, the second answered with task
id `def`. -/
def twoExchanges : List Event :=
  [.typing "hello", .submit 1, .resolved 2 (.obj [("task_id", .str "abc")]),
   .channel (.obj [("type", .str "output"), ("task_id", .str "abc"),
     ("message", .str "\x7b\"error\":\"boom\"\x7d")]),
   .typing "again", .submit 3, .resolved 4 (.obj [("task_id", .str "def")])]

/-- The view after `threeExchanges`. -/
def threeExchangesView : View :=
  { chat :=
      { messages :=
          [{ role := "user", content := .str "hello", timestamp := 1 },
           { role := "assistant", content := .str "done", timestamp := 2, taskId := .str "abc",
             isStreaming := .bool false, structuredOutput := .null },
           { role := "user", content := .str "again", timestamp := 3 },
           { role := "assistant", content := .str "", timestamp := 4, taskId := .str "def",
             isStreaming := .bool true },
           { role := "user", content := .str "more", timestamp := 5 },
           { role := "assistant", content := .str "", timestamp := 6, taskId := .str "ghi",
             isStreaming := .bool true }]
        taskId := .str "ghi"
        isLoading := false
        input := "" }
    pending := 0
    latest := some (.obj [("type", .str "status"), ("status", .str "completed")]) }

/-- The channel message `{type: "output", task_id: "abc", message: text}`. -/
def outputFrame (text : String) : JsVal :=
  .obj [("type", .str "output"), ("task_id", .str "abc"), ("message", .str text)]

end ChatInterface

/-! ## TaskOrchestrator.jsx -/

namespace TaskOrchestrator

/-- The own enumerable properties copied by an object spread `{...v}`: the
properties of an object, the indexed elements of an array, the indexed
characters of a string, nothing for the other values. -/
def spreadProps : JsVal → List (String × JsVal)
  | .obj kvs => kvs
  | .arr xs => xs.enum.map fun p => (toString p.1, p.2)
  | .str t => t.data.enum.map fun p => (toString p.1, .str (String.mk [p.2]))
  | _ => []

/-- The object literal `{ ...task, status: newStatus, progress: progress }`. -/
def patchStatus (newStatus progress task : JsVal) : JsVal :=
  .obj (JSON.setProp "progress" progress (JSON.setProp "status" newStatus (spreadProps task)))

/-- The object literal `{ ...task, subtasks: subtasks }`. -/
def patchSubtasks (subtasks task : JsVal) : JsVal :=
  .obj (JSON.setProp "subtasks" subtasks (spreadProps task))

/-- The local state of the task view that the WebSocket effect reads and
writes. -/
structure State where
  tasks : List JsVal
  selectedTask : JsVal
  taskOutputs : List (String × JsVal)
deriving DecidableEq, Repr

/-- The updater of the task list: the task whose `id` is `selectedTask?.id` is
replaced by `patch task`. -/
def patchTasks (patch : JsVal → JsVal) (selectedTask : JsVal) (tasks : List JsVal) :
    Except JsErr (List JsVal) :=
  mapE (fun task => do
    let id ← task.get "id"
    pure (if id.strictEq (selectedTask.getOpt "id") then patch task else task)) tasks

/-- The `status` branch of the WebSocket effect. -/
def applyStatus (st : State) (latestMessage : JsVal) : Except JsErr State := do
  let newStatus ← latestMessage.get "status"
  let progress ← latestMessage.get "progress"
  let tasks ← patchTasks (patchStatus newStatus progress) st.selectedTask st.tasks
  pure { st with
    tasks := tasks
    selectedTask :=
      if st.selectedTask.truthy then patchStatus newStatus progress st.selectedTask
      else st.selectedTask }

/-- The `subtasks` branch of the WebSocket effect. -/
def applySubtasks (st : State) (latestMessage : JsVal) : Except JsErr State := do
  let subtasks ← latestMessage.get "subtasks"
  let tasks ← patchTasks (patchSubtasks subtasks) st.selectedTask st.tasks
  pure { st with
    tasks := tasks
    selectedTask :=
      if st.selectedTask.truthy then patchSubtasks subtasks st.selectedTask
      else st.selectedTask }

/-- The `output` branch of the WebSocket effect: the first element of the
decoded message is stored under the message's task id; when decoding throws,
an error object is stored instead.  `errorText` is the host's message of the
decoding exception.  The updater that reads `outputData[0]` runs outside the
`try` block. -/
def storeOutput (parse : String → Option JsVal) (errorText : String → String) (st : State)
    (latestMessage : JsVal) : Except JsErr State := do
  let message ← latestMessage.get "message"
  let taskId ← latestMessage.get "task_id"
  match jsonParse parse message with
  | .ok outputData => do
    let first ← outputData.index0
    pure { st with taskOutputs := JSON.setProp taskId.toStr first st.taskOutputs }
  | .error _ =>
    pure { st with
      taskOutputs := JSON.setProp taskId.toStr
        (.obj [("error", .str ("Failed to parse task output: " ++ errorText message.toStr))])
        st.taskOutputs }

/-- The body of the WebSocket effect for the latest channel message.  The
`task_created` branch only starts a reload of the task list over REST, which
changes no state at this point. -/
def handleLatest (parse : String → Option JsVal) (errorText : String → String) (st : State)
    (latestMessage : JsVal) : Except JsErr State := do
  let type ← latestMessage.get "type"
  if type.strictEq (.str "task_created") then pure st
  else if type.strictEq (.str "status") then applyStatus st latestMessage
  else if type.strictEq (.str "subtasks") then applySubtasks st latestMessage
  else if type.strictEq (.str "output") then storeOutput parse errorText st latestMessage
  else pure st

/-- The task record `{id, status, progress}`. -/
def taskRecord (id status : String) (progress : Int) : JsVal :=
  .obj [("id", .str id), ("status", .str status), ("progress", .num progress)]

/-- A task view with the tasks `A` (pending) and `B` (running), `A` being the
selected task. -/
def twoTasks : State :=
  { tasks := [taskRecord "A" "pending" 0, taskRecord "B" "running" 50]
    selectedTask := taskRecord "A" "pending" 0
    taskOutputs := [] }

end TaskOrchestrator

/-! ## JSON.stringify without indentation -/

namespace JSON

mutual
/-- The text of `JSON.stringify(v)`; `none` for `undefined`, which has no JSON
text. -/
def renderCompact : JsVal → Option String
  | .undefined => none
  | .null => some "null"
  | .bool b => some (if b then "true" else "false")
  | .num n => some (toString n)
  | .str s => some (quote s)
  | .arr xs => some ("[" ++ String.intercalate "," (renderCompactElems xs) ++ "]")
  | .obj kvs => some ("\x7b" ++ String.intercalate "," (renderCompactProps kvs) ++ "\x7d")
termination_by structural v => v
/-- Array elements; an `undefined` element prints as `null`. -/
def renderCompactElems : List JsVal → List String
  | [] => []
  | x :: rest =>
    (match renderCompact x with
      | some t => t
      | none => "null") :: renderCompactElems rest
termination_by structural xs => xs
/-- Object members `"key":value`; a member whose value is `undefined` is left
out. -/
def renderCompactProps : List (String × JsVal) → List String
  | [] => []
  | (k, x) :: rest =>
    match renderCompact x with
    | some t => (quote k ++ ":" ++ t) :: renderCompactProps rest
    | none => renderCompactProps rest
termination_by structural kvs => kvs
end

/-- The expression `JSON.stringify(v)`: a string, or `undefined` when `v` is
`undefined`. -/
def stringify (v : JsVal) : JsVal :=
  match renderCompact v with
  | some t => .str t
  | none => .undefined

end JSON

/-! ## WebSocketProvider.jsx: sending and connection state -/

namespace WebSocketProvider

/-- The socket held in `ws.current`, as far as the provider reads it: its
`readyState` (0 connecting, 1 open, 2 closing, 3 closed). -/
structure Socket where
  readyState : Nat
deriving DecidableEq, Repr

/-- The constant `WebSocket.OPEN`. -/
def OPEN : Nat := 1

/-- The function `sendMessage`, as the list of the arguments of the calls
`ws.current.send(...)` it makes; `ws` is `ws.current` (`none` for `null`).
Whatever reaches the transport, to be transmitted or held back, goes through
these calls.  Both branches read `message.type` for the log entry, and the
first one the `length` of the serialization. -/
def sendMessage (ws : Option Socket) (message : JsVal) : Except JsErr (List JsVal) :=
  match ws with
  | some socket =>
    if socket.readyState = OPEN then do
      let _ ← message.get "type"
      let _ ← (JSON.stringify message).get "length"
      pure [JSON.stringify message]
    else do
      let _ ← message.get "type"
      pure []
  | none => do
    let _ ← message.get "type"
    pure []

/-- The state the provider exposes: the connection flag and the received
messages. -/
structure Channel where
  isConnected : Bool
  messages : List JsVal
deriving DecidableEq, Repr

/-- The state on mount: `useState(false)` and `useState([])`. -/
def initialChannel : Channel := { isConnected := false, messages := [] }

/-- The events of the transport: the connection opened, it closed, a frame
arrived, or an error occurred. -/
inductive SocketEvent where
  | opened
  | closed
  | frame (data : String)
  | errored
deriving DecidableEq, Repr

/-- The handler `onopen`: logs and sets the connection flag. -/
def onopen (ch : Channel) : Channel := { ch with isConnected := true }

/-- The handler `onclose`: logs and clears the connection flag. -/
def onclose (ch : Channel) : Channel := { ch with isConnected := false }

/-- The handler `onerror`: only logs. -/
def onerror (ch : Channel) : Channel := ch

/-- The handlers that the transport runs on an event.  The transport is a
`ReconnectingWebSocket`: on an error of the connection it first disconnects,
which runs `onclose`, and then runs `onerror`, before it tries to connect
again. -/
def handleEvent (parse : String → Option JsVal) (ch : Channel) :
    SocketEvent → Except JsErr Channel
  | .opened => .ok (onopen ch)
  | .closed => .ok (onclose ch)
  | .frame data =>
    match onmessage parse ch.messages data with
    | .ok messages => .ok { ch with messages := messages }
    | .error e => .error e
  | .errored => .ok (onerror (onclose ch))

/-- The events of a list handled from left to right. -/
def handleEvents (parse : String → Option JsVal) : Channel → List SocketEvent →
    Except JsErr Channel
  | ch, [] => .ok ch
  | ch, e :: later =>
    match handleEvent parse ch e with
    | .ok ch1 => handleEvents parse ch1 later
    | .error err => .error err

end WebSocketProvider

/-! ## ChatInterface.jsx: the saved chats -/

namespace ChatInterface

/-- An entry of `savedChats`: `{id, title, messages, timestamp}`.  The ids are
the strings made by `Date.now().toString()`. -/
structure SavedChat where
  id : String
  title : JsVal
  messages : List Turn
  timestamp : String
deriving DecidableEq, Repr

/-- The state of the chat history: `savedChats` and `currentChatId` (`none`
for `null`). -/
structure History where
  savedChats : List SavedChat
  currentChatId : Option String
deriving DecidableEq, Repr

/-- The expression `messages[0]?.content?.slice(0, 50) || 'New Chat'`: the first
50 characters of a string content (characters outside the basic plane are
outside the modelled fragment), the first 50 elements of an array content,
`'New Chat'` for an empty or absent content; calling `slice` on any other
content throws a `TypeError`. -/
def chatTitle (messages : List Turn) : Except JsErr JsVal :=
  match messages with
  | [] => .ok (.str "New Chat")
  | first :: _ =>
    match first.content with
    | .undefined => .ok (.str "New Chat")
    | .null => .ok (.str "New Chat")
    | .str c => .ok ((JsVal.str (String.mk (c.data.take 50))).or (.str "New Chat"))
    | .arr xs => .ok ((JsVal.arr (xs.take 50)).or (.str "New Chat"))
    | _ => .error .typeErr

/-- The expression `currentChatId || Date.now().toString()`. -/
def chatIdFor (now : Nat) (currentChatId : Option String) : String :=
  match currentChatId with
  | some id => if id.data.isEmpty then toString now else id
  | none => toString now

/-- What `saveCurrentChat` leaves behind: the history state and the
notification it raises (severity and text), if any. -/
structure Saved where
  history : History
  notification : Option (String × String)
deriving DecidableEq, Repr

/-- The function `saveCurrentChat`.  `now` is `Date.now()`, `iso` the text of
`new Date().toISOString()`, and `stored` tells whether writing the list to
local storage succeeded; the write changes no state of the view. -/
def saveCurrentChat (now : Nat) (iso : String) (stored : Bool) (messages : List Turn)
    (h : History) : Except JsErr Saved :=
  if messages.length = 0 then .ok { history := h, notification := none }
  else do
    let chatTitle ← chatTitle messages
    let chatId := chatIdFor now h.currentChatId
    let chatData : SavedChat :=
      { id := chatId, title := chatTitle, messages := messages, timestamp := iso }
    let filtered := h.savedChats.filter fun chat => chat.id != chatId
    let unshifted := chatData :: filtered
    let updatedChats := if unshifted.length > 50 then unshifted.take 50 else unshifted
    pure
      { history := { savedChats := updatedChats, currentChatId := some chatId }
        notification :=
          if stored then some ("success", "Chat saved to history")
          else some ("error", "Failed to save chat") }

/-- What `loadChat` leaves behind: the turn list, the history state and the
notification it raises, if any. -/
structure Loaded where
  messages : List Turn
  history : History
  notification : Option (String × String)
deriving DecidableEq, Repr

/-- The function `loadChat`: the first saved chat with the given id, when
there is one, replaces the turn list and becomes the current chat. -/
def loadChat (chatId : String) (messages : List Turn) (h : History) : Loaded :=
  match h.savedChats.find? fun c => c.id == chatId with
  | some chat =>
    { messages := chat.messages
      history := { h with currentChatId := some chat.id }
      notification := some ("success", "Chat loaded") }
  | none => { messages := messages, history := h, notification := none }

end ChatInterface

namespace ChatInterface

/-- A saved chat with the given id, holding the chat of scenario B. -/
def savedScenario (id : String) : SavedChat :=
  { id := id, title := .str "hello", messages := scenarioB.messages,
    timestamp := "2026-11-05T00:00:00.000Z" }

/-- A full history: fifty saved chats, an older copy of the current chat
`1000` in second place. -/
def fullHistory : History :=
  { savedChats := savedScenario "900" :: savedScenario "1000" ::
      List.replicate 48 (savedScenario "800")
    currentChatId := some "1000" }

/-- The result of saving the chat `secondExchangeDone` into `fullHistory` at
time 2000. -/
def fullHistorySaved : Saved :=
  { history :=
      { savedChats :=
          { id := "1000", title := .str "hello", messages := secondExchangeDone.messages,
            timestamp := "2026-11-06T00:00:00.000Z" } ::
          savedScenario "900" :: List.replicate 48 (savedScenario "800")
        currentChatId := some "1000" }
    notification := some ("success", "Chat saved to history") }

end ChatInterface

/-! ## NotificationProvider.jsx -/

namespace NotificationProvider

/-- A notification `{id, message, type, duration}`; the id is the value of
`Date.now()` at creation. -/
structure Notification where
  id : Int
  message : JsVal
  type : JsVal
  duration : JsVal
deriving DecidableEq, Repr

/-- The function `removeNotification`: `prev.filter(n => n.id !== id)`. -/
def removeNotification (id : JsVal) (notifications : List Notification) : List Notification :=
  notifications.filter fun n => !(JsVal.num n.id).strictEq id

/-- What `addNotification` leaves behind: the notification list, the id it
returns and the timer it starts, if any (the delay handed to `setTimeout` and
the id whose removal the timer will call). -/
structure Added where
  notifications : List Notification
  id : Int
  timer : Option (JsVal × Int)
deriving DecidableEq, Repr

/-- The function `addNotification(message, type = 'info', duration = 5000)`;
`now` is the value of `Date.now()`, and an argument left out is `undefined`.
The timer is started when `duration > 0`. -/
def addNotification (now : Int) (message type duration : JsVal)
    (notifications : List Notification) : Added :=
  let type := if type = .undefined then .str "info" else type
  let duration := if duration = .undefined then .num 5000 else duration
  { notifications :=
      notifications ++ [{ id := now, message := message, type := type, duration := duration }]
    id := now
    timer := if gtZero duration then some (duration, now) else none }

/-- The function `showSuccess`. -/
def showSuccess (now : Int) (message duration : JsVal) (notifications : List Notification) :
    Added :=
  addNotification now message (.str "success") duration notifications

/-- The function `showError`. -/
def showError (now : Int) (message duration : JsVal) (notifications : List Notification) :
    Added :=
  addNotification now message (.str "error") duration notifications

/-- The function `showWarning`. -/
def showWarning (now : Int) (message duration : JsVal) (notifications : List Notification) :
    Added :=
  addNotification now message (.str "warning") duration notifications

/-- The function `showInfo`. -/
def showInfo (now : Int) (message duration : JsVal) (notifications : List Notification) :
    Added :=
  addNotification now message (.str "info") duration notifications

end NotificationProvider

/-! ## logger.js: the log buffer -/

namespace Logger

/-- A log entry `{timestamp, level, message, data, userAgent, url, sessionId}`. -/
structure LogEntry where
  timestamp : String
  level : String
  message : JsVal
  data : JsVal
  userAgent : String
  url : String
  sessionId : String
deriving DecidableEq, Repr

/-- A value read from the object `logLevels` under some name: the rank of one
of the four levels, or a member that every object literal inherits from
`Object.prototype` (a function or an object). -/
inductive LevelValue where
  | rank (n : Nat)
  | inherited (name : String)
deriving DecidableEq, Repr

/-- The fields of the `Logger` object: the buffer, its cap and the current
level (a value read from `logLevels`). -/
structure State where
  logs : List LogEntry
  maxLogs : Nat
  currentLevel : LevelValue
deriving DecidableEq, Repr

/-- The logger made by the constructor: an empty buffer, `maxLogs = 1000` and
the level INFO (rank 1). -/
def initial : State := { logs := [], maxLogs := 1000, currentLevel := .rank 1 }

/-- The values of the host that `_createLogEntry` reads: the clock, the user
agent, the page URL and the session id. -/
structure Host where
  timestamp : String
  userAgent : String
  url : String
  sessionId : String
deriving DecidableEq, Repr

/-- The entry built by `_createLogEntry`. -/
def entryOf (host : Host) (level : String) (message data : JsVal) : LogEntry :=
  { timestamp := host.timestamp, level := level, message := message, data := data,
    userAgent := host.userAgent, url := host.url, sessionId := host.sessionId }

/-- The buffer after `this.logs.push(entry)` followed by
`if (this.logs.length > this.maxLogs) this.logs.shift()`. -/
def pushCapped (maxLogs : Nat) (logs : List LogEntry) (entry : LogEntry) : List LogEntry :=
  if (logs ++ [entry]).length > maxLogs then (logs ++ [entry]).tail else logs ++ [entry]

/-- The method `_createLogEntry`: the logger afterwards and the entry it
returns. -/
def createLogEntry (host : Host) (level : String) (message data : JsVal) (lg : State) :
    State × LogEntry :=
  ({ lg with logs := pushCapped lg.maxLogs lg.logs (entryOf host level message data) },
    entryOf host level message data)

/-- An accepted record: the arguments of one call of `_createLogEntry` and the
host values at that time. -/
structure Record where
  host : Host
  level : String
  message : JsVal
  data : JsVal
deriving DecidableEq, Repr

/-- The entry of a record. -/
def Record.entry (r : Record) : LogEntry := entryOf r.host r.level r.message r.data

/-- The logger after the records of a list, in order. -/
def recordAll : State → List Record → State
  | lg, [] => lg
  | lg, r :: later => recordAll (createLogEntry r.host r.level r.message r.data lg).1 later

/-- The last `n` elements of a list, in order. -/
def lastN (n : Nat) (l : List LogEntry) : List LogEntry := l.drop (l.length - n)

end Logger

namespace Logger

/-- The host values used in the examples. -/
def sampleHost : Host :=
  { timestamp := "2026-11-05T00:00:00.000Z", userAgent := "agent", url := "http://localhost/",
    sessionId := "s1" }

/-- The `i`-th record of the examples: an INFO record whose message is the
number `i`. -/
def numbered (i : Nat) : Record :=
  { host := sampleHost, level := "INFO", message := .num i, data := .obj [] }

end Logger

namespace JsStr

/-- Characters that the clean-up of an explanation can remove: the markers `#`
and `-` and white space. -/
def removable (c : Char) : Bool := c == '#' || c == '-' || isSpace c

/-- A marker in front of a line of an explanation: no marker, a heading marker
of `hashes + 1` characters `#`, or a rule marker of `dashes + 2` characters
`-`; a marker is followed by `pad` spaces. -/
inductive Marker where
  | none
  | heading (hashes pad : Nat)
  | rule (dashes pad : Nat)
deriving DecidableEq, Repr

/-- The text of a marker. -/
def Marker.text : Marker → List Char
  | .none => []
  | .heading hashes pad => List.replicate (hashes + 1) '#' ++ List.replicate pad ' '
  | .rule dashes pad => List.replicate (dashes + 2) '-' ++ List.replicate pad ' '

/-- The text of a marker once the heading markers are removed. -/
def Marker.ruleText : Marker → List Char
  | .rule dashes pad => List.replicate (dashes + 2) '-' ++ List.replicate pad ' '
  | _ => []

/-- A line body behind a marker: it is not empty, has no line terminator, starts
with a character that is neither white space nor `#` nor `-`, and does not end
with white space. -/
def plainBody (body : List Char) : Bool :=
  match body.head?, body.getLast? with
  | some c, some d =>
    !isSpace c && c != '#' && c != '-' && !isSpace d && body.all fun x => !isLineTerm x
  | _, _ => false

/-- Lines joined by line feeds. -/
def joinLines : List (List Char) → List Char
  | [] => []
  | line :: rest => line ++ (if rest.isEmpty then [] else '\n' :: joinLines rest)

/-- The method `String.prototype.toUpperCase` on ASCII text: the letters `a` to
`z` are replaced by `A` to `Z` (the letters of other alphabets are outside the
modelled fragment). -/
def toUpperCase (s : String) : String :=
  String.mk (s.data.map fun c =>
    if 97 ≤ c.toNat ∧ c.toNat ≤ 122 then Char.ofNat (c.toNat - 32) else c)

end JsStr

/-! ## Members inherited from Object.prototype -/

/-- The names under which every object literal answers with a member inherited
from `Object.prototype` (a function, or the prototype object itself for
`__proto__`): a property read `o[name]` with one of these names gives a truthy
value that is not `undefined`, also when `o` has no own property of that
name. -/
def objectPrototypeNames : List String :=
  ["constructor", "hasOwnProperty", "isPrototypeOf", "propertyIsEnumerable", "toLocaleString",
   "toString", "valueOf", "__proto__", "__defineGetter__", "__defineSetter__",
   "__lookupGetter__", "__lookupSetter__"]

/-! ## Numeric comparison -/

namespace JsVal

/-- The integer spelled by a string under `ToNumber`: white space around it is
ignored, the empty string counts as `0`, a sign may precede the digits; `none`
stands for `NaN` (other numeric spellings, such as fractions, are outside the
modelled fragment). -/
def spelledInt (t : String) : Option Int :=
  match JsStr.trim t.data with
  | [] => some 0
  | '-' :: d =>
    if !d.isEmpty && d.all JSON.isDigit then some (-((JSON.readDigits 0 d).1 : Int)) else none
  | '+' :: d =>
    if !d.isEmpty && d.all JSON.isDigit then some ((JSON.readDigits 0 d).1 : Int) else none
  | d => if d.all JSON.isDigit then some ((JSON.readDigits 0 d).1 : Int) else none

/-- JavaScript `ToNumber` on the integer fragment; `none` stands for `NaN`. -/
def toNumber : JsVal → Option Int
  | undefined => none
  | null => some 0
  | bool b => some (if b then 1 else 0)
  | num n => some n
  | str t => spelledInt t
  | arr xs => spelledInt (toStr (arr xs))
  | obj _ => none

/-- The comparison `v >= n` with a number `n`: `v` is converted by `ToNumber`,
and a comparison with `NaN` is false. -/
def geNum (v : JsVal) (n : Int) : Bool :=
  match v.toNumber with
  | some m => decide (n ≤ m)
  | none => false

end JsVal

/-! ## logger.js: levels and log calls -/

namespace Logger

/-- The property read `this.logLevels[level]` on the object
`{ DEBUG: 0, INFO: 1, WARN: 2, ERROR: 3 }`: the rank of an own property, the
inherited member for a name of `Object.prototype`, `none` (that is
`undefined`) for every other name. -/
def logLevels (level : String) : Option LevelValue :=
  if level = "DEBUG" then some (.rank 0)
  else if level = "INFO" then some (.rank 1)
  else if level = "WARN" then some (.rank 2)
  else if level = "ERROR" then some (.rank 3)
  else if level ∈ objectPrototypeNames then some (.inherited level)
  else none

/-- The comparison `a >= b` of two values read from a level table, of which
the program always takes at least one from a level name (a number): numbers
compare as numbers, and a side that is `undefined` or an inherited member
counts as `NaN`, which makes the comparison false.  (Two inherited members
would compare by their string forms; the program never compares two such
values, and that case is outside the modelled fragment.) -/
def geLevel : Option LevelValue → Option LevelValue → Bool
  | some (.rank a), some (.rank b) => decide (b ≤ a)
  | _, _ => false

/-- The method `setLevel`: the current level becomes `this.logLevels[level]`
when that value `!== undefined`. -/
def setLevel (level : String) (lg : State) : State :=
  match logLevels level with
  | some value => { lg with currentLevel := value }
  | none => lg

/-- The method `_shouldLog`: `this.logLevels[level] >= this.currentLevel`. -/
def shouldLog (level : String) (lg : State) : Bool :=
  geLevel (logLevels level) (some lg.currentLevel)

/-- What a log call leaves behind: the logger and the entries handed to
`_sendToBackend`, which posts them to the backend log endpoint. -/
structure Logged where
  logger : State
  uploaded : List LogEntry
deriving DecidableEq, Repr

/-- The method `_output`, as the entries it hands to `_sendToBackend`: the
entry itself when its level is ERROR or WARN, nothing otherwise (the console
line is not modelled). -/
def output (entry : LogEntry) : List LogEntry :=
  if entry.level = "ERROR" ∨ entry.level = "WARN" then [entry] else []

/-- The common body of the methods `debug`, `info`, `warn` and `error` for
their level name: when `_shouldLog(level)` holds, the entry is created (and
buffered) and put out; `data` left out is `{}`. -/
def logAt (level : String) (host : Host) (message data : JsVal) (lg : State) : Logged :=
  let data := if data = .undefined then .obj [] else data
  if shouldLog level lg then
    let created := createLogEntry host level message data lg
    { logger := created.1, uploaded := output created.2 }
  else { logger := lg, uploaded := [] }

/-- The method `debug`. -/
def debug (host : Host) (message data : JsVal) (lg : State) : Logged :=
  logAt "DEBUG" host message data lg

/-- The method `info`. -/
def info (host : Host) (message data : JsVal) (lg : State) : Logged :=
  logAt "INFO" host message data lg

/-- The method `warn`. -/
def warn (host : Host) (message data : JsVal) (lg : State) : Logged :=
  logAt "WARN" host message data lg

/-- The method `error`. -/
def error (host : Host) (message data : JsVal) (lg : State) : Logged :=
  logAt "ERROR" host message data lg

/-- The object literal `{ method, url, status, duration, ...data }`. -/
def apiLogData (method url status duration data : JsVal) : JsVal :=
  .obj ((TaskOrchestrator.spreadProps data).foldl (fun acc p => JSON.setProp p.1 p.2 acc)
    [("method", method), ("url", url), ("status", status), ("duration", duration)])

/-- The level chosen by `logApiCall`:
`status >= 400 ? 'ERROR' : status >= 300 ? 'WARN' : 'INFO'`. -/
def apiLevel (status : JsVal) : String :=
  if status.geNum 400 then "ERROR" else if status.geNum 300 then "WARN" else "INFO"

/-- The method `logApiCall(method, url, status, duration, data = {})`. -/
def logApiCall (host : Host) (method url status duration data : JsVal) (lg : State) : Logged :=
  let data := if data = .undefined then .obj [] else data
  let level := apiLevel status
  let message := JsVal.str ("API " ++ method.toStr ++ " " ++ url.toStr ++ " - " ++ status.toStr
    ++ " (" ++ duration.toStr ++ "ms)")
  let logData := apiLogData method url status duration data
  if level = "ERROR" then error host message logData lg
  else if level = "WARN" then warn host message logData lg
  else info host message logData lg

/-- The call `list.slice(start)`: a negative `start` counts from the end (and
stops at the first element), any other `start` from the beginning. -/
def sliceFrom {α : Type} (start : Int) (l : List α) : List α :=
  if start < 0 then l.drop (l.length - start.natAbs) else l.drop start.toNat

/-- The method `getLogs(limit)`: `this.logs.slice(-limit)` (a call without
argument takes `limit = 100`). -/
def getLogs (limit : Int) (lg : State) : List LogEntry := sliceFrom (-limit) lg.logs

/-- A logger that took one ERROR record and then 200 INFO records. -/
def crowded : State :=
  recordAll initial
    ({ numbered 0 with level := "ERROR" } :: (List.range 200).map fun i => numbered (i + 1))

end Logger

/-! ## api.js: the response error interceptor -/

namespace Api

/-- The request configuration kept on an error: the start time stamped by the
request interceptor, the URL and the method. -/
structure RequestConfig where
  startTime : Int
  url : String
  method : String
deriving DecidableEq, Repr

/-- The HTTP response kept on an error, when the server answered. -/
structure ErrorResponse where
  status : Int
  data : JsVal
deriving DecidableEq, Repr

/-- The error a REST call is rejected with: `response` is missing when no HTTP
response arrived (network failure or timeout). -/
structure RestError where
  message : JsVal
  config : Option RequestConfig
  response : Option ErrorResponse
deriving DecidableEq, Repr

/-- The response error interceptor, as its log call (it then rejects with the
same error); `now` is the value of `Date.now()`. -/
def responseError (now : Int) (host : Logger.Host) (error : RestError) (lg : Logger.State) :
    Logger.Logged :=
  let duration : Int :=
    match error.config with
    | some config => if config.startTime ≠ 0 then now - config.startTime else 0
    | none => 0
  let status : JsVal :=
    match error.response with
    | some response => (JsVal.num response.status).or (.str "NETWORK_ERROR")
    | none => .str "NETWORK_ERROR"
  let url : JsVal :=
    match error.config with
    | some config => (JsVal.str config.url).or (.str "unknown")
    | none => .str "unknown"
  let method : JsVal :=
    match error.config with
    | some config => (JsVal.str (JsStr.toUpperCase config.method)).or (.str "UNKNOWN")
    | none => .str "UNKNOWN"
  Logger.logApiCall host method url status (.num duration)
    (.obj [("error", error.message),
      ("responseData", match error.response with
        | some response => response.data
        | none => .undefined)]) lg

/-- A request to `/providers` that ran into the 30 s timeout: no response. -/
def timedOut : RestError :=
  { message := .str "timeout of 30000ms exceeded"
    config := some { startTime := 1000, url := "/providers", method := "get" }
    response := none }

end Api

/-! ## LoggingDashboard.jsx -/

namespace LoggingDashboard

/-- The object literal `levels` of the filter, `{ DEBUG: 0, INFO: 1, WARN: 2,
ERROR: 3 }`: the same table as `logLevels`. -/
def levels (level : String) : Option Logger.LevelValue := Logger.logLevels level

/-- The function `updateLogs`, as the value it gives to the state `logs`:
`logger.getLogs(200)`. -/
def updateLogs (lg : Logger.State) : List Logger.LogEntry := Logger.getLogs 200 lg

/-- The filter effect, as the value it gives to the state `filteredLogs`:
`logs.filter(log => levels[log.level] >= levels[logLevel])`. -/
def filterLogs (logLevel : String) (logs : List Logger.LogEntry) : List Logger.LogEntry :=
  logs.filter fun log => Logger.geLevel (levels log.level) (levels logLevel)

/-- The entries the dashboard shows for the threshold `logLevel` after a
refresh from the logger `lg`. -/
def filteredLogs (logLevel : String) (lg : Logger.State) : List Logger.LogEntry :=
  filterLogs logLevel (updateLogs lg)

end LoggingDashboard

/-! ## App.jsx -/

namespace App

/-- The object `views`: the thirteen view names and their components. -/
def views : List (String × String) :=
  [("chat", "ChatInterface"), ("agents", "AgentStatusDashboard"),
   ("providers", "ProviderManagement"), ("workspace", "Workspace"),
   ("orchestrator", "TaskOrchestrator"), ("projects", "ProjectManagement"),
   ("repositories", "RepositoryManagement"), ("observability", "ObservabilityDashboard"),
   ("security", "SecurityInterface"), ("prompts", "PromptEngineeringStudio"),
   ("intelligence", "CodeIntelligenceTools"), ("integrations", "IntegrationConnectors"),
   ("logging", "LoggingDashboard")]

/-- A value read from `views` under some name: a registered component, a
member inherited from `Object.prototype`, or `undefined`. -/
inductive Member where
  | component (name : String)
  | inherited (name : String)
  | undefined
deriving DecidableEq, Repr

/-- The property read `views[key]`. -/
def viewsAt (key : String) : Member :=
  match views.lookup key with
  | some component => .component component
  | none => if key ∈ objectPrototypeNames then .inherited key else .undefined

/-- JavaScript `ToBoolean` on a value read from `views`: components and
inherited members are functions or objects, hence truthy. -/
def Member.truthy : Member → Bool
  | .undefined => false
  | _ => true

/-- The expression `window.location.hash.slice(1)`; the hash is empty or
starts with the character `#`. -/
def hashName (locationHash : String) : String := String.mk (locationHash.data.drop 1)

/-- The function `getInitialView`: `hash && views[hash] ? hash : 'chat'`. -/
def getInitialView (locationHash : String) : String :=
  let hash := hashName locationHash
  if (JsVal.str hash).truthy && (viewsAt hash).truthy then hash else "chat"

/-- The listener `handleHashChange`, as the value of `currentView` after it. -/
def handleHashChange (locationHash : String) (currentView : String) : String :=
  let hash := hashName locationHash
  if (JsVal.str hash).truthy && (viewsAt hash).truthy then hash else currentView

/-- The value `CurrentViewComponent = views[currentView]` that is rendered. -/
def currentViewComponent (currentView : String) : Member := viewsAt currentView

end App

/-! ## ProviderManagement.jsx -/

namespace ProviderManagement

/-- The state `loadProviders` works on: the provider list of the component,
and the notifications and removal timers of the notification provider. -/
structure State where
  providers : JsVal
  notifications : List NotificationProvider.Notification
  timers : List (JsVal × Int)
deriving DecidableEq, Repr

/-- The state on first load: `useState([])` and no notification. -/
def initial : State := { providers := .arr [], notifications := [], timers := [] }

/-- The function `loadProviders`, after the REST call `providerAPI.list()`
settled with `outcome` (the response, or the reason of the rejection): the
`try` block stores `response.data`; any exception of the `try` block, the
rejection included, is caught and answered by
`showError('Failed to load providers')`.  The result is what the function
leaves, `.error` standing for an exception that leaves it. -/
def loadProviders (now : Int) (outcome : Except JsVal JsVal) (st : State) :
    Except JsVal State :=
  let attempt : Except JsVal State :=
    match outcome with
    | .error reason => .error reason
    | .ok response =>
      match response.get "data" with
      | .ok data => .ok { st with providers := data }
      | .error _ => .error (.str "TypeError")
  match attempt with
  | .ok st1 => .ok st1
  | .error _ =>
    let added := NotificationProvider.showError now (.str "Failed to load providers") .undefined
      st.notifications
    .ok { st with
      notifications := added.notifications
      timers := st.timers ++ added.timer.toList }

end ProviderManagement

/-! ## ChatInterface.jsx: the file list, on object entries -/

namespace ChatInterface

/-- The filter test of the `file_delivery` step on an entry that is an object
`file` and a summary that is a string:
`file.language !== 'text' && !summary.includes(file.filename)`. -/
def keptEntry (summary : String) (file : List (String × JsVal)) : Bool :=
  !(JsVal.lookup "language" file).strictEq (.str "text") &&
    !JsStr.includes summary.data (JsVal.lookup "filename" file).toStr.data

/-- The fenced block of an entry that is an object. -/
def entryBlock (file : List (String × JsVal)) : String :=
  (JsVal.lookup "filename" file).toStr ++ " (" ++ (JsVal.lookup "language" file).toStr
    ++ "):\n```" ++ (JsVal.lookup "language" file).toStr ++ "\n"
    ++ (JsVal.lookup "content" file).toStr ++ "\n```\n"

/-- The summary followed by the heading and the blocks of the kept entries, in
list order; the summary alone when no entry is kept. -/
def withFiles (summary : String) (files : List (List (String × JsVal))) : String :=
  if (files.filter (keptEntry summary)).isEmpty then summary
  else summary ++ "\n\nGenerated Files:\n"
    ++ String.join ((files.filter (keptEntry summary)).map entryBlock)

end ChatInterface


/-! ## Auxiliary lemmas -/

theorem JsVal.get_eq_ok (v : JsVal) (k : String) (h1 : v ≠ .null) (h2 : v ≠ .undefined) :
    ∃ r, v.get k = .ok r := by
  cases v <;> simp [JsVal.get] at *

/-! ## C1: the received-message list -/

namespace WebSocketProvider

/-- C1 (as stated, refuted): the frame `null` is valid JSON and decodes to
`null`, yet the handler leaves the received-message list unchanged instead of
appending the decoded value. -/
theorem onmessage_null_frame_dropped :
    JSON.read "null" = some JsVal.null ∧
    onmessage JSON.read [] "null" = .ok [] ∧
    onmessage JSON.read [] "null" ≠ .ok ([] ++ [JsVal.null]) := by
  decide

/-- C1 (amended): for every frame whose data decodes to a JSON value other than
`null`, the received-message list after the frame is the list before it with
the decoded value appended at the end; for every frame that decodes to `null`
or is not valid JSON the list is unchanged; in every case the handler returns
without throwing. -/
theorem onmessage_appends_decoded (parse : String → Option JsVal) (messages : List JsVal)
    (data : String) :
    (∀ v, parse data = some v → v ≠ .null → v ≠ .undefined →
      onmessage parse messages data = .ok (messages ++ [v])) ∧
    (parse data = some .null → onmessage parse messages data = .ok messages) ∧
    (parse data = none → onmessage parse messages data = .ok messages) ∧
    (∃ ms, onmessage parse messages data = .ok ms) := by
  refine ⟨?_, ?_, ?_, ?_⟩
  · intro v hv h1 h2
    obtain ⟨r, hr⟩ := JsVal.get_eq_ok v "type" h1 h2
    simp [onmessage, onmessageTry, jsonParse, JsVal.toStr, hv, hr, bind, Except.bind, pure,
      Except.pure]
  · intro hv
    simp [onmessage, onmessageTry, jsonParse, JsVal.toStr, hv, JsVal.get, bind, Except.bind]
  · intro hv
    simp [onmessage, onmessageTry, jsonParse, JsVal.toStr, hv, bind, Except.bind]
  · unfold onmessage
    cases onmessageTry parse messages data <;> simp

/-- Witness for C1 (amended): two identical `output` frames are both appended,
in arrival order, and a malformed frame in between changes nothing. -/
theorem onmessage_appends_decoded_witness :
    onmessage JSON.read [] "\x7b\"type\":\"output\"\x7d"
      = .ok [.obj [("type", .str "output")]] ∧
    onmessage JSON.read [.obj [("type", .str "output")]] "\x7b\"type\":"
      = .ok [.obj [("type", .str "output")]] ∧
    onmessage JSON.read [.obj [("type", .str "output")]] "\x7b\"type\":\"output\"\x7d"
      = .ok [.obj [("type", .str "output")], .obj [("type", .str "output")]] :=
  ⟨(onmessage_appends_decoded JSON.read [] "\x7b\"type\":\"output\"\x7d").1
      (.obj [("type", .str "output")]) (by decide) (by decide) (by decide),
   (onmessage_appends_decoded JSON.read [.obj [("type", .str "output")]] "\x7b\"type\":").2.2.1
      (by decide),
   (onmessage_appends_decoded JSON.read [.obj [("type", .str "output")]]
      "\x7b\"type\":\"output\"\x7d").1
      (.obj [("type", .str "output")]) (by decide) (by decide) (by decide)⟩

end WebSocketProvider

/-! ## Auxiliary lemmas on the chat effect -/

theorem mapE_eq_map {α β : Type} {f : α → Except JsErr β} {g : α → β} (l : List α)
    (h : ∀ a ∈ l, f a = .ok (g a)) : mapE f l = .ok (l.map g) := by
  induction l with
  | nil => rfl
  | cons a rest ih =>
    have ha := h a (List.mem_cons_self a rest)
    have hr := ih (fun b hb => h b (List.mem_cons_of_mem a hb))
    simp [mapE, ha, hr]

theorem mapE_ok_getElem? {α β : Type} {f : α → Except JsErr β} :
    ∀ (l : List α) (l1 : List β), mapE f l = .ok l1 →
      l1.length = l.length ∧
      ∀ (i : Nat) (a : α), l[i]? = some a → ∃ b, l1[i]? = some b ∧ f a = .ok b := by
  intro l
  induction l with
  | nil =>
    intro l1 h
    simp [mapE] at h
    subst h
    simp
  | cons a rest ih =>
    intro l1 h
    unfold mapE at h
    cases hfa : f a with
    | error e => simp [hfa] at h
    | ok b =>
      cases hm : mapE f rest with
      | error e => simp [hfa, hm] at h
      | ok bs =>
        simp [hfa, hm] at h
        subst h
        obtain ⟨hlen, hget⟩ := ih bs hm
        refine ⟨by simp [hlen], ?_⟩
        intro i x hx
        cases i with
        | zero =>
          simp at hx
          subst hx
          exact ⟨b, by simp, hfa⟩
        | succ j =>
          simp at hx
          obtain ⟨y, hy, hfy⟩ := hget j x hx
          exact ⟨y, by simpa using hy, hfy⟩

theorem String.data_ne_nil {s : String} (h : s ≠ "") : s.data ≠ [] := by
  intro hd
  apply h
  cases s
  simp_all

theorem JsVal.truthy_str {s : String} (h : s ≠ "") : (JsVal.str s).truthy = true := by
  simp [JsVal.truthy, String.data_ne_nil h]

namespace ChatInterface

/-- The output branch of the effect, once its guard holds. -/
theorem handleLatest_output (parse : String → Option JsVal) (st : ChatState)
    (latestMessage tid : JsVal)
    (htype : latestMessage.get "type" = .ok (.str "output"))
    (hid : latestMessage.get "task_id" = .ok tid)
    (hguard : (tid.or st.taskId).truthy = true) :
    handleLatest parse st latestMessage =
      match mapE (updateTurn parse latestMessage (tid.or st.taskId)) st.messages with
      | .ok messages => .ok { st with messages := messages, isLoading := false }
      | .error e => .error e := by
  simp only [handleLatest, htype, hid, bind, Except.bind, pure, Except.pure]
  have h1 : (JsVal.str "output").strictEq (.str "task_created") = false := by decide
  have h2 : (JsVal.str "output").strictEq (.str "output") = true := by decide
  simp only [h1, h2, hguard]
  cases mapE (updateTurn parse latestMessage (tid.or st.taskId)) st.messages <;> simp

end ChatInterface

/-! ## C2: a summary output settles the streaming turn, once -/

namespace ChatInterface

theorem settle_settle (content structuredOutput messageTaskId : JsVal) (msg : Turn) :
    settle content structuredOutput messageTaskId
      (settle content structuredOutput messageTaskId msg)
      = settle content structuredOutput messageTaskId msg := by
  by_cases h : (msg.taskId.strictEq messageTaskId && msg.isStreaming.truthy) = true
  · have h2 : settle content structuredOutput messageTaskId msg = { msg with
        content := content, structuredOutput := structuredOutput, isStreaming := .bool false } := by
      simp only [settle, h, if_true]
    rw [h2]
    simp [settle, JsVal.truthy]
  · have h2 : settle content structuredOutput messageTaskId msg = msg := by
      simp only [settle, h, if_false, Bool.false_eq_true]
    rw [h2, h2]

/-- When extraction and finishing succeed, the updater is `settle`. -/
theorem updateTurn_eq_settle (parse : String → Option JsVal)
    (latestMessage messageTaskId : JsVal) (ex : Extracted) (content : JsVal)
    (hex : extractContent parse latestMessage = .ok ex)
    (hfin : finishContent latestMessage ex.content = .ok content) (msg : Turn) :
    updateTurn parse latestMessage messageTaskId msg
      = .ok (settle content ex.structuredOutput messageTaskId msg) := by
  unfold updateTurn settle
  by_cases h : (msg.taskId.strictEq messageTaskId && msg.isStreaming.truthy) = true
  · simp [h, hex, hfin, bind, Except.bind, pure, Except.pure]
  · simp [h, pure, Except.pure]

/-- C2: for every turn list that holds, at position `i`, a turn with
`isStreaming = true` and `taskId = T` (`T` a task identifier, that is a
non-empty string), processing an `output` message with `task_id = T` whose
message decodes to the object with the single property `explanatory_summary`
equal to the non-empty string `s` (and which carries neither explanation nor
run steps) sets that turn's content to `s` and its `isStreaming` to false, and
processing the same message a second time leaves the turn list unchanged. -/
theorem output_summary_settles_once (parse : String → Option JsVal) (st : ChatState)
    (latestMessage : JsVal) (T m s : String) (i : Nat) (t : Turn)
    (hT : T ≠ "") (hs : s ≠ "")
    (htype : latestMessage.get "type" = .ok (.str "output"))
    (hid : latestMessage.get "task_id" = .ok (.str T))
    (hmsg : latestMessage.get "message" = .ok (.str m))
    (hexp : latestMessage.get "explanation" = .ok .undefined)
    (hrun : latestMessage.get "run_steps" = .ok .undefined)
    (hparse : parse m = some (.obj [("explanatory_summary", .str s)]))
    (hi : st.messages[i]? = some t)
    (htid : t.taskId = .str T) (hstr : t.isStreaming = .bool true) :
    ∃ st1, handleLatest parse st latestMessage = .ok st1 ∧
      st1.messages[i]? = some { t with
        content := .str s
        structuredOutput := .obj [("explanatory_summary", .str s)]
        isStreaming := .bool false } ∧
      ∃ st2, handleLatest parse st1 latestMessage = .ok st2 ∧ st2.messages = st1.messages := by
  have hsd := String.data_ne_nil hs
  have hex : extractContent parse latestMessage
      = .ok { content := .str s, structuredOutput := .obj [("explanatory_summary", .str s)] } := by
    have hsel : selectStructured (.obj [("explanatory_summary", .str s)])
        = .ok (.obj [("explanatory_summary", .str s)]) := by
      simp [selectStructured, JsVal.isArray]
    have hstruct : ∀ c, extractStructured (.obj [("explanatory_summary", .str s)]) c
        = .ok (.str s) := by
      intro c
      simp [extractStructured, JsVal.truthy, JsVal.typeofObject, JsVal.get, JsVal.lookup,
        appendFiles, hsd, bind, Except.bind, pure, Except.pure]
    simp only [extractContent, hmsg, jsonParse, JsVal.toStr, hparse, hsel, hstruct, bind,
      Except.bind, pure, Except.pure]
  have hfin : finishContent latestMessage (.str s) = .ok (.str s) := by
    simp [finishContent, hexp, hrun, JsVal.truthy, bind, Except.bind, pure, Except.pure]
  have hor : ∀ x : JsVal, (JsVal.str T).or x = .str T := by
    intro x
    simp [JsVal.or, JsVal.truthy_str hT]
  have hguard : ∀ x : JsVal, ((JsVal.str T).or x).truthy = true := by
    intro x
    rw [hor x]
    exact JsVal.truthy_str hT
  have hmap : ∀ l : List Turn,
      mapE (updateTurn parse latestMessage (.str T)) l
        = .ok (l.map (settle (.str s) (.obj [("explanatory_summary", .str s)]) (.str T))) :=
    fun l => mapE_eq_map l
      (fun a _ => updateTurn_eq_settle parse latestMessage (.str T) _ (.str s) hex hfin a)
  refine ⟨{ st with
      messages := st.messages.map (settle (.str s) (.obj [("explanatory_summary", .str s)]) (.str T))
      isLoading := false }, ?_, ?_, ?_⟩
  · rw [handleLatest_output parse st latestMessage (.str T) htype hid (hguard _), hor, hmap]
  · have hmatch : (t.taskId.strictEq (.str T) && t.isStreaming.truthy) = true := by
      simp [htid, hstr, JsVal.strictEq, JsVal.truthy]
    simp [List.getElem?_map, hi, settle, hmatch]
  · refine ⟨{ st with
      messages := st.messages.map (settle (.str s) (.obj [("explanatory_summary", .str s)]) (.str T))
      isLoading := false }, ?_, rfl⟩
    rw [handleLatest_output parse _ latestMessage (.str T) htype hid (hguard _), hor, hmap]
    simp [List.map_map, Function.comp_def, settle_settle]

end ChatInterface

namespace ChatInterface

/-- Witness for C2: the message of the specification, with summary `done`, on
the state of scenario A. -/
theorem output_summary_settles_once_witness :
    JSON.read "\x7b\"explanatory_summary\":\"done\"\x7d"
      = some (.obj [("explanatory_summary", .str "done")]) ∧
    ∃ st1, handleLatest JSON.read scenarioA
        (outputFrame "\x7b\"explanatory_summary\":\"done\"\x7d") = .ok st1 ∧
      st1.messages[1]? = some
        { role := "assistant", content := .str "done", timestamp := 2, taskId := .str "abc",
          isStreaming := .bool false,
          structuredOutput := .obj [("explanatory_summary", .str "done")] } ∧
      ∃ st2, handleLatest JSON.read st1
        (outputFrame "\x7b\"explanatory_summary\":\"done\"\x7d") = .ok st2 ∧
        st2.messages = st1.messages :=
  ⟨by decide,
   output_summary_settles_once JSON.read scenarioA
    (outputFrame "\x7b\"explanatory_summary\":\"done\"\x7d") "abc"
    "\x7b\"explanatory_summary\":\"done\"\x7d" "done" 1
    { role := "assistant", content := .str "", timestamp := 2, taskId := .str "abc",
      isStreaming := .bool true }
    (by decide) (by decide) rfl rfl rfl rfl rfl (by decide) rfl rfl rfl⟩

end ChatInterface

/-! ## Auxiliary lemmas on the file step -/

namespace ChatInterface

theorem keepFile_obj (s : String) (file : List (String × JsVal)) :
    keepFile (.str s) (.obj file) = .ok (keptEntry s file) := by
  by_cases h : (JsVal.lookup "language" file).strictEq (.str "text") = true
  · simp [keepFile, keptEntry, JsVal.get, h, bind, Except.bind, pure, Except.pure]
  · simp [keepFile, keptEntry, JsVal.get, h, contentIncludes, bind, Except.bind, pure,
      Except.pure]

theorem fileBlock_obj (file : List (String × JsVal)) :
    fileBlock (.obj file) = .ok (entryBlock file) := by
  simp [fileBlock, entryBlock, JsVal.get, bind, Except.bind, pure, Except.pure]

theorem filterE_keepFile (s : String) (files : List (List (String × JsVal))) :
    filterE (keepFile (.str s)) (files.map JsVal.obj)
      = .ok ((files.filter (keptEntry s)).map JsVal.obj) := by
  induction files with
  | nil => rfl
  | cons f rest ih =>
    simp only [List.map_cons, filterE, keepFile_obj, ih, List.filter_cons]
    cases keptEntry s f <;> simp

theorem mapE_fileBlock (files : List (List (String × JsVal))) :
    mapE fileBlock (files.map JsVal.obj) = .ok (files.map entryBlock) := by
  induction files with
  | nil => rfl
  | cons f rest ih => simp only [List.map_cons, mapE, fileBlock_obj, ih]

theorem appendFiles_entries (s : String) (files : List (List (String × JsVal))) :
    appendFiles (.str s) (.arr (files.map JsVal.obj)) = .ok (.str (withFiles s files)) := by
  cases files with
  | nil => simp [appendFiles, withFiles, JsVal.getOpt, gtZero]
  | cons f rest =>
    have hpos : (0 : Int) < ((rest.map JsVal.obj).length : Int) + 1 := by omega
    have hguard : ((JsVal.arr ((f :: rest).map JsVal.obj)).truthy
        && gtZero ((JsVal.arr ((f :: rest).map JsVal.obj)).getOpt "length")) = true := by
      simp [JsVal.truthy, JsVal.getOpt, gtZero]
    unfold appendFiles
    simp only [hguard, if_true, filterE_keepFile, mapE_fileBlock, bind, Except.bind, pure,
      Except.pure, withFiles]
    generalize (f :: rest).filter (keptEntry s) = kept
    cases kept <;> simp [JsVal.toStr, String.append_assoc]

theorem filterE_ne_ok {α : Type} {f : α → Except JsErr Bool} {e : JsErr} :
    ∀ (l : List α) (a : α), a ∈ l → f a = .error e → ∀ r, filterE f l ≠ .ok r := by
  intro l
  induction l with
  | nil =>
    intro a ha
    cases ha
  | cons x rest ih =>
    intro a ha hfa r
    simp only [filterE]
    cases hx : f x with
    | error err => simp
    | ok b =>
      have hin : a ∈ rest := by
        rcases List.mem_cons.mp ha with h | h
        · subst h
          rw [hfa] at hx
          cases hx
        · exact h
      cases hrest : filterE f rest with
      | error err => simp
      | ok bs => exact absurd hrest (ih a hin hfa bs)

/-- The file step throws on a list that holds `null` or `undefined`. -/
theorem appendFiles_error (summary : JsVal) (files : List JsVal)
    (h : JsVal.null ∈ files ∨ JsVal.undefined ∈ files) :
    ∃ e, appendFiles summary (.arr files) = .error e := by
  obtain ⟨bad, hmem, hbad⟩ : ∃ bad, bad ∈ files ∧ keepFile summary bad = .error .typeErr := by
    rcases h with h | h
    · exact ⟨_, h, by simp [keepFile, JsVal.get, bind, Except.bind]⟩
    · exact ⟨_, h, by simp [keepFile, JsVal.get, bind, Except.bind]⟩
  have hlen : (0 : Int) < (files.length : Int) := by
    cases files with
    | nil => cases hmem
    | cons x rest =>
      simp only [List.length_cons, Nat.cast_add, Nat.cast_one]
      omega
  have hguard : ((JsVal.arr files).truthy && gtZero ((JsVal.arr files).getOpt "length"))
      = true := by
    simp [JsVal.truthy, JsVal.getOpt, gtZero, hlen]
  unfold appendFiles
  simp only [hguard, if_true, bind, Except.bind]
  cases hf : filterE (keepFile summary) files with
  | error err => exact ⟨err, rfl⟩
  | ok kept => exact absurd hf (filterE_ne_ok files bad hmem hbad kept)

end ChatInterface

/-! ## C3: precedence of the display text -/

namespace ChatInterface

theorem keepFile_str_ok (s : String) (file : JsVal) (h1 : file ≠ .null)
    (h2 : file ≠ .undefined) : ∃ b, keepFile (.str s) file = .ok b := by
  obtain ⟨l, hl⟩ := JsVal.get_eq_ok file "language" h1 h2
  obtain ⟨n, hn⟩ := JsVal.get_eq_ok file "filename" h1 h2
  unfold keepFile
  simp only [hl, hn, contentIncludes, bind, Except.bind, pure, Except.pure]
  split <;> simp

theorem fileBlock_ok (file : JsVal) (h1 : file ≠ .null) (h2 : file ≠ .undefined) :
    ∃ b, fileBlock file = .ok b := by
  obtain ⟨l, hl⟩ := JsVal.get_eq_ok file "language" h1 h2
  obtain ⟨n, hn⟩ := JsVal.get_eq_ok file "filename" h1 h2
  obtain ⟨c, hc⟩ := JsVal.get_eq_ok file "content" h1 h2
  simp [fileBlock, hl, hn, hc, bind, Except.bind, pure, Except.pure]

theorem filterE_ok {α : Type} (f : α → Except JsErr Bool) (l : List α)
    (h : ∀ a ∈ l, ∃ b, f a = .ok b) :
    ∃ l1, filterE f l = .ok l1 ∧ ∀ a ∈ l1, a ∈ l := by
  induction l with
  | nil => exact ⟨[], rfl, fun a ha => ha⟩
  | cons a rest ih =>
    obtain ⟨b, hb⟩ := h a (List.mem_cons_self a rest)
    obtain ⟨l1, hl1, hsub⟩ := ih (fun x hx => h x (List.mem_cons_of_mem a hx))
    refine ⟨if b then a :: l1 else l1, by simp [filterE, hb, hl1], ?_⟩
    intro x hx
    cases b with
    | true =>
      simp at hx
      rcases hx with hx | hx
      · simp [hx]
      · exact List.mem_cons_of_mem a (hsub x hx)
    | false =>
      simp at hx
      exact List.mem_cons_of_mem a (hsub x hx)

theorem mapE_ok {α β : Type} (f : α → Except JsErr β) (l : List α)
    (h : ∀ a ∈ l, ∃ b, f a = .ok b) : ∃ l1, mapE f l = .ok l1 := by
  induction l with
  | nil => exact ⟨[], rfl⟩
  | cons a rest ih =>
    obtain ⟨b, hb⟩ := h a (List.mem_cons_self a rest)
    obtain ⟨l1, hl1⟩ := ih (fun x hx => h x (List.mem_cons_of_mem a hx))
    exact ⟨b :: l1, by simp [mapE, hb, hl1]⟩

/-- The `file_delivery` step on a string summary and a well-formed list keeps
the summary at the start of the content. -/
theorem appendFiles_str (s : String) (fileDelivery : JsVal)
    (h : fileDelivery.truthy = false ∨
      ∃ files, fileDelivery = .arr files ∧ ∀ f ∈ files, f ≠ .null ∧ f ≠ .undefined) :
    ∃ rest, appendFiles (.str s) fileDelivery = .ok (.str (s ++ rest)) := by
  rcases h with h | ⟨files, hfd, hfiles⟩
  · exact ⟨"", by simp [appendFiles, h]⟩
  · subst hfd
    obtain ⟨kept, hkept, hsub⟩ := filterE_ok (keepFile (.str s)) files
      (fun f hf => keepFile_str_ok s f (hfiles f hf).1 (hfiles f hf).2)
    obtain ⟨blocks, hblocks⟩ := mapE_ok fileBlock kept
      (fun f hf => fileBlock_ok f (hfiles f (hsub f hf)).1 (hfiles f (hsub f hf)).2)
    unfold appendFiles
    by_cases hg : ((JsVal.arr files).truthy && gtZero ((JsVal.arr files).getOpt "length")) = true
    · simp only [hg, if_true, hkept, hblocks, bind, Except.bind, pure, Except.pure]
      by_cases he : kept.isEmpty = true
      · exact ⟨"", by simp [he]⟩
      · exact ⟨"\n\nGenerated Files:\n" ++ String.join blocks, by
          simp [he, JsVal.toStr, String.append_assoc]⟩
    · exact ⟨"", by simp [hg]⟩

end ChatInterface

namespace ChatInterface

/-- The `try`/`catch` of the output branch when the message decodes to an
object. -/
theorem extractContent_obj (parse : String → Option JsVal) (latestMessage message : JsVal)
    (kvs : List (String × JsVal))
    (hmsg : latestMessage.get "message" = .ok message)
    (hparse : jsonParse parse message = .ok (.obj kvs)) :
    extractContent parse latestMessage = .ok
      (match extractStructured (.obj kvs) (message.or (.str "")) with
        | .ok content => { content := content, structuredOutput := .obj kvs }
        | .error _ => { content := message, structuredOutput := .obj kvs }) := by
  have hsel : selectStructured (.obj kvs) = .ok (.obj kvs) := by
    simp [selectStructured, JsVal.isArray]
  simp only [extractContent, hmsg, hparse, hsel, bind, Except.bind, pure, Except.pure]
  cases extractStructured (.obj kvs) (message.or (.str "")) <;> rfl

/-- The display value taken from an object payload, as a cascade on the
truthiness of its `error`, `explanatory_summary` and `response` properties. -/
theorem extractStructured_obj (kvs : List (String × JsVal)) (content : JsVal) :
    extractStructured (.obj kvs) content =
      if (JsVal.lookup "error" kvs).truthy then .ok (JsVal.lookup "error" kvs)
      else if (JsVal.lookup "explanatory_summary" kvs).truthy then
        appendFiles (JsVal.lookup "explanatory_summary" kvs) (JsVal.lookup "file_delivery" kvs)
      else if (JsVal.lookup "response" kvs).truthy then .ok (JsVal.lookup "response" kvs)
      else .ok (JSON.stringify2 (.obj kvs)) := by
  simp only [extractStructured, JsVal.truthy, JsVal.typeofObject, JsVal.get, bind, Except.bind,
    pure, Except.pure, Bool.and_self, if_true]

/-- C3 (as stated, refuted): the payload `{"error":"","response":"ok"}` contains
`error`, yet the display text is the response `ok`, not the error string; and
with `"error": null` next to a summary the display text is the summary. -/
theorem empty_error_yields_to_response :
    JSON.read "\x7b\"error\":\"\",\"response\":\"ok\"\x7d"
      = some (.obj [("error", .str ""), ("response", .str "ok")]) ∧
    extractContent JSON.read (outputFrame "\x7b\"error\":\"\",\"response\":\"ok\"\x7d")
      = .ok { content := .str "ok",
              structuredOutput := .obj [("error", .str ""), ("response", .str "ok")] } ∧
    extractContent JSON.read
        (outputFrame "\x7b\"error\":null,\"explanatory_summary\":\"done\"\x7d")
      = .ok { content := .str "done",
              structuredOutput := .obj [("error", .null), ("explanatory_summary", .str "done")] } := by
  decide

/-- C3 (amended): for every output message whose message field decodes to a JSON
object, the display text follows the precedence error > explanatory_summary >
response > pretty-printed JSON, where a property counts only when its value is
truthy (present and not null, false, 0 or the empty string).  With a truthy
`error` the content is the error value, whatever else is present.  Otherwise,
with a truthy `explanatory_summary` (of whatever type) the summary branch is
taken, also when a response is present: the content is what the file step
returns, namely the summary value itself when `file_delivery` is falsy or has
no positive length, and the summary followed by the blocks of the kept files
when the summary is a string and `file_delivery` a list of objects (so the
content starts with the summary); when the file step throws, as it does on a
`file_delivery` list that holds `null`, the content is the raw message text.
Otherwise, with a truthy `response` the content is the response; otherwise the
content is the 2-space pretty-printed JSON of the whole payload.  In
particular the payload `{"error":"boom"}` on the streaming turn of scenario A
yields content `boom` and `isStreaming = false`. -/
theorem display_precedence (parse : String → Option JsVal) (latestMessage message : JsVal)
    (kvs : List (String × JsVal))
    (hmsg : latestMessage.get "message" = .ok message)
    (hparse : jsonParse parse message = .ok (.obj kvs)) :
    ((JsVal.lookup "error" kvs).truthy = true →
      extractContent parse latestMessage
        = .ok { content := JsVal.lookup "error" kvs, structuredOutput := .obj kvs }) ∧
    ((JsVal.lookup "error" kvs).truthy = false →
      ∀ s, JsVal.lookup "explanatory_summary" kvs = .str s → s ≠ "" →
        ((JsVal.lookup "file_delivery" kvs).truthy = false ∨
          ∃ files, JsVal.lookup "file_delivery" kvs = .arr files ∧
            ∀ f ∈ files, f ≠ .null ∧ f ≠ .undefined) →
        ∃ rest, extractContent parse latestMessage
          = .ok { content := .str (s ++ rest), structuredOutput := .obj kvs }) ∧
    ((JsVal.lookup "error" kvs).truthy = false →
      (JsVal.lookup "explanatory_summary" kvs).truthy = false →
      (JsVal.lookup "response" kvs).truthy = true →
      extractContent parse latestMessage
        = .ok { content := JsVal.lookup "response" kvs, structuredOutput := .obj kvs }) ∧
    ((JsVal.lookup "error" kvs).truthy = false →
      (JsVal.lookup "explanatory_summary" kvs).truthy = false →
      (JsVal.lookup "response" kvs).truthy = false →
      extractContent parse latestMessage
        = .ok { content := JSON.stringify2 (.obj kvs), structuredOutput := .obj kvs }) ∧
    handleLatest JSON.read scenarioA (outputFrame "\x7b\"error\":\"boom\"\x7d")
      = .ok { scenarioA with
          messages :=
            [{ role := "user", content := .str "hello", timestamp := 1 },
             { role := "assistant", content := .str "boom", timestamp := 2,
               taskId := .str "abc", isStreaming := .bool false,
               structuredOutput := .obj [("error", .str "boom")] }]
          isLoading := false } ∧
    ((JsVal.lookup "error" kvs).truthy = false →
      (JsVal.lookup "explanatory_summary" kvs).truthy = true →
      (∀ c, appendFiles (JsVal.lookup "explanatory_summary" kvs)
          (JsVal.lookup "file_delivery" kvs) = .ok c →
        extractContent parse latestMessage
          = .ok { content := c, structuredOutput := .obj kvs }) ∧
      (∀ e, appendFiles (JsVal.lookup "explanatory_summary" kvs)
          (JsVal.lookup "file_delivery" kvs) = .error e →
        extractContent parse latestMessage
          = .ok { content := message, structuredOutput := .obj kvs }) ∧
      (((JsVal.lookup "file_delivery" kvs).truthy
          && gtZero ((JsVal.lookup "file_delivery" kvs).getOpt "length")) = false →
        extractContent parse latestMessage
          = .ok { content := JsVal.lookup "explanatory_summary" kvs,
                  structuredOutput := .obj kvs }) ∧
      (∀ (s : String) (files : List (List (String × JsVal))),
        JsVal.lookup "explanatory_summary" kvs = .str s →
        JsVal.lookup "file_delivery" kvs = .arr (files.map JsVal.obj) →
        extractContent parse latestMessage
          = .ok { content := .str (withFiles s files), structuredOutput := .obj kvs }) ∧
      (∀ files : List JsVal, JsVal.lookup "file_delivery" kvs = .arr files →
        (JsVal.null ∈ files ∨ JsVal.undefined ∈ files) →
        extractContent parse latestMessage
          = .ok { content := message, structuredOutput := .obj kvs })) := by
  have hex := extractContent_obj parse latestMessage message kvs hmsg hparse
  rw [extractStructured_obj] at hex
  refine ⟨?_, ?_, ?_, ?_, by decide, ?_⟩
  · intro he
    rw [hex]
    simp [he]
  · intro he s hs hne hfiles
    obtain ⟨rest, hrest⟩ := appendFiles_str s (JsVal.lookup "file_delivery" kvs) hfiles
    refine ⟨rest, ?_⟩
    rw [hex]
    simp [he, hs, JsVal.truthy_str hne, hrest]
  · intro he hs hr
    rw [hex]
    simp [he, hs, hr]
  · intro he hs hr
    rw [hex]
    simp [he, hs, hr]
  · intro he hs
    have hok : ∀ c, appendFiles (JsVal.lookup "explanatory_summary" kvs)
        (JsVal.lookup "file_delivery" kvs) = .ok c →
        extractContent parse latestMessage
          = .ok { content := c, structuredOutput := .obj kvs } := by
      intro c hc
      rw [hex]
      simp [he, hs, hc]
    have herr : ∀ e, appendFiles (JsVal.lookup "explanatory_summary" kvs)
        (JsVal.lookup "file_delivery" kvs) = .error e →
        extractContent parse latestMessage
          = .ok { content := message, structuredOutput := .obj kvs } := by
      intro e hc
      rw [hex]
      simp [he, hs, hc]
    refine ⟨hok, herr, ?_, ?_, ?_⟩
    · intro hg
      exact hok _ (by simp [appendFiles, hg])
    · intro s files hsum hfd
      apply hok
      rw [hsum, hfd]
      exact appendFiles_entries s files
    · intro files hfd hbad
      obtain ⟨e, hc⟩ := appendFiles_error (JsVal.lookup "explanatory_summary" kvs) files hbad
      exact herr e (by rw [hfd]; exact hc)

set_option maxRecDepth 20000 in
/-- Witness for C3 (amended): a payload with every property present, on the
reference JSON reader: the error wins; a numeric summary next to a response is
the content; and a `file_delivery` list that holds `null` gives the raw
message text. -/
theorem display_precedence_witness :
    extractContent JSON.read
        (outputFrame "\x7b\"response\":\"r\",\"explanatory_summary\":\"s\",\"error\":\"boom\"\x7d")
      = .ok { content := .str "boom",
              structuredOutput := .obj [("response", .str "r"), ("explanatory_summary", .str "s"),
                ("error", .str "boom")] } ∧
    extractContent JSON.read
        (outputFrame "\x7b\"explanatory_summary\":5,\"response\":\"ok\"\x7d")
      = .ok { content := .num 5,
              structuredOutput := .obj [("explanatory_summary", .num 5),
                ("response", .str "ok")] } ∧
    extractContent JSON.read
        (outputFrame
          "\x7b\"explanatory_summary\":\"s\",\"file_delivery\":[null],\"response\":\"ok\"\x7d")
      = .ok { content :=
                .str "\x7b\"explanatory_summary\":\"s\",\"file_delivery\":[null],\"response\":\"ok\"\x7d",
              structuredOutput := .obj [("explanatory_summary", .str "s"),
                ("file_delivery", .arr [.null]), ("response", .str "ok")] } :=
  ⟨(display_precedence JSON.read
      (outputFrame "\x7b\"response\":\"r\",\"explanatory_summary\":\"s\",\"error\":\"boom\"\x7d")
      (.str "\x7b\"response\":\"r\",\"explanatory_summary\":\"s\",\"error\":\"boom\"\x7d")
      [("response", .str "r"), ("explanatory_summary", .str "s"), ("error", .str "boom")]
      rfl (by decide)).1 (by decide),
   ((display_precedence JSON.read
      (outputFrame "\x7b\"explanatory_summary\":5,\"response\":\"ok\"\x7d")
      (.str "\x7b\"explanatory_summary\":5,\"response\":\"ok\"\x7d")
      [("explanatory_summary", .num 5), ("response", .str "ok")]
      rfl (by decide)).2.2.2.2.2 (by decide) (by decide)).2.2.1 (by decide),
   ((display_precedence JSON.read
      (outputFrame
        "\x7b\"explanatory_summary\":\"s\",\"file_delivery\":[null],\"response\":\"ok\"\x7d")
      (.str
        "\x7b\"explanatory_summary\":\"s\",\"file_delivery\":[null],\"response\":\"ok\"\x7d")
      [("explanatory_summary", .str "s"), ("file_delivery", .arr [.null]),
        ("response", .str "ok")]
      rfl (by decide)).2.2.2.2.2 (by decide) (by decide)).2.2.2.2 [.null] rfl
        (Or.inl (by decide))⟩

end ChatInterface

/-! ## C4: a settled turn is never changed by the channel -/

theorem mapE_forall₂ {α β : Type} {f : α → Except JsErr β} :
    ∀ (l : List α) (l1 : List β), mapE f l = .ok l1 →
      List.Forall₂ (fun a b => f a = .ok b) l l1 := by
  intro l
  induction l with
  | nil =>
    intro l1 h
    simp [mapE] at h
    subst h
    exact List.Forall₂.nil
  | cons a rest ih =>
    intro l1 h
    unfold mapE at h
    cases hfa : f a with
    | error e => simp [hfa] at h
    | ok b =>
      cases hm : mapE f rest with
      | error e => simp [hfa, hm] at h
      | ok bs =>
        simp [hfa, hm] at h
        subst h
        exact List.Forall₂.cons hfa (ih bs hm)

namespace ChatInterface

theorem forall₂_kept_refl (l : List Turn) : List.Forall₂ Kept l l := by
  induction l with
  | nil => exact List.Forall₂.nil
  | cons a rest ih => exact List.Forall₂.cons (fun _ => rfl) ih

theorem forall₂_kept_map (f : Turn → Turn) (hf : ∀ t, t.isStreaming.truthy = false → f t = t)
    (l : List Turn) : List.Forall₂ Kept l (l.map f) := by
  induction l with
  | nil => exact List.Forall₂.nil
  | cons a rest ih => exact List.Forall₂.cons (hf a) ih

theorem updateTurn_kept (parse : String → Option JsVal) (latestMessage messageTaskId : JsVal)
    (t t1 : Turn) (h : updateTurn parse latestMessage messageTaskId t = .ok t1) : Kept t t1 := by
  intro hs
  simp [updateTurn, hs, pure, Except.pure] at h
  exact h.symm

theorem backfillTurn_kept (taskId : JsVal) (t : Turn) (h : t.isStreaming.truthy = false) :
    backfillTurn taskId t = t := by
  simp [backfillTurn, h]

/-- One channel message changes no turn that is not streaming. -/
theorem handleLatest_kept (parse : String → Option JsVal) (st st1 : ChatState)
    (latestMessage : JsVal) (h : handleLatest parse st latestMessage = .ok st1) :
    List.Forall₂ Kept st.messages st1.messages := by
  unfold handleLatest at h
  cases htype : latestMessage.get "type" with
  | error e => simp [htype, bind, Except.bind] at h
  | ok type =>
    cases hid : latestMessage.get "task_id" with
    | error e => simp [htype, hid, bind, Except.bind] at h
    | ok taskId =>
      simp only [htype, hid, bind, Except.bind, pure, Except.pure] at h
      split at h
      · split at h
        · cases h
          exact forall₂_kept_map _ (backfillTurn_kept taskId) _
        · cases h
          exact forall₂_kept_refl _
      · split at h
        · cases hm : mapE (updateTurn parse latestMessage (taskId.or st.taskId)) st.messages with
          | error e => simp [hm] at h
          | ok ms =>
            simp [hm] at h
            subst h
            exact (mapE_forall₂ _ _ hm).imp
              (fun t t1 ht => updateTurn_kept parse latestMessage _ t t1 ht)
        · cases hst : latestMessage.get "status" with
          | error e => simp [hst] at h
          | ok status =>
            simp only [hst] at h
            split at h <;> cases h <;> exact forall₂_kept_refl _

theorem forall₂_kept_trans {l l1 l2 : List Turn} (h1 : List.Forall₂ Kept l l1)
    (h2 : List.Forall₂ Kept l1 l2) : List.Forall₂ Kept l l2 := by
  induction h1 generalizing l2 with
  | nil => exact h2
  | cons hab _ ih =>
    cases h2 with
    | cons hbc hrest =>
      refine List.Forall₂.cons ?_ (ih hrest)
      intro hs
      have e1 := hab hs
      have e2 := hbc (by rw [e1]; exact hs)
      rw [e2, e1]

theorem handleAll_kept (parse : String → Option JsVal) :
    ∀ (later : List JsVal) (st st1 : ChatState), handleAll parse st later = .ok st1 →
      List.Forall₂ Kept st.messages st1.messages := by
  intro later
  induction later with
  | nil =>
    intro st st1 h
    simp [handleAll] at h
    subst h
    exact forall₂_kept_refl _
  | cons m rest ih =>
    intro st st1 h
    unfold handleAll at h
    cases hm : handleLatest parse st m with
    | error e => simp [hm] at h
    | ok st2 =>
      simp only [hm] at h
      exact forall₂_kept_trans (handleLatest_kept parse st st2 m hm) (ih st2 st1 h)

theorem forall₂_getElem? {R : Turn → Turn → Prop} {l l1 : List Turn}
    (h : List.Forall₂ R l l1) :
    ∀ (i : Nat) (t : Turn), l[i]? = some t → ∃ t1, l1[i]? = some t1 ∧ R t t1 := by
  induction h with
  | nil => intro i t ht; simp at ht
  | cons hab _ ih =>
    intro i t ht
    cases i with
    | zero =>
      simp at ht
      subst ht
      exact ⟨_, by simp, hab⟩
    | succ j =>
      simp at ht
      obtain ⟨t1, h1, h2⟩ := ih j t ht
      exact ⟨t1, by simpa using h1, h2⟩

/-- C4: once a chat turn has `isStreaming = false` (or carries no `isStreaming`
at all), no sequence of channel messages of any type changes any field of
that turn: after the effect has handled the messages, the turn list has the
same length and holds the same turn at the same position; so a turn that has
stopped streaming never streams again. -/
theorem settled_turn_never_changes (parse : String → Option JsVal) (st st1 : ChatState)
    (later : List JsVal) (i : Nat) (t : Turn)
    (hrun : handleAll parse st later = .ok st1)
    (hi : st.messages[i]? = some t) (hdone : t.isStreaming.truthy = false) :
    st1.messages.length = st.messages.length ∧ st1.messages[i]? = some t := by
  have h := handleAll_kept parse later st st1 hrun
  refine ⟨h.length_eq.symm, ?_⟩
  obtain ⟨t1, h1, h2⟩ := forall₂_getElem? h i t hi
  rw [h1, h2 hdone]

end ChatInterface

namespace ChatInterface

/-- Witness for C4: after scenario B a second exchange is under way (task
`def` is streaming).  A `task_created` message, an output for the settled task
`abc`, the output of task `def`, a completed status and a message of an
unknown type leave the settled turn of task `abc` exactly as it was. -/
theorem settled_turn_never_changes_witness :
    handleAll JSON.read secondExchange
      [.obj [("type", .str "task_created"), ("task_id", .str "xyz")],
       outputFrame "again",
       .obj [("type", .str "output"), ("task_id", .str "def"), ("message", .str "second")],
       .obj [("type", .str "status"), ("status", .str "completed")],
       .obj [("type", .str "ping")]] = .ok secondExchangeDone ∧
    secondExchangeDone.messages.length = secondExchange.messages.length ∧
    secondExchangeDone.messages[1]? = some
      { role := "assistant", content := .str "boom", timestamp := 2, taskId := .str "abc",
        isStreaming := .bool false, structuredOutput := .obj [("error", .str "boom")] } :=
  ⟨by decide,
   settled_turn_never_changes JSON.read secondExchange secondExchangeDone
    [.obj [("type", .str "task_created"), ("task_id", .str "xyz")],
     outputFrame "again",
     .obj [("type", .str "output"), ("task_id", .str "def"), ("message", .str "second")],
     .obj [("type", .str "status"), ("status", .str "completed")],
     .obj [("type", .str "ping")]] 1
    { role := "assistant", content := .str "boom", timestamp := 2, taskId := .str "abc",
      isStreaming := .bool false, structuredOutput := .obj [("error", .str "boom")] }
    (by decide) rfl rfl⟩

end ChatInterface

/-! ## C5: backfilling the task id -/

namespace ChatInterface

/-- C5 (as stated, refuted): in the chat reached by two failed submits, a
`task_created` message with `task_id = "abc"` sets the task id of the first
placeholder and also changes the other placeholder. -/
theorem task_created_changes_both_placeholders :
    run JSON.read emptyChat failedTwiceEvents
      = some { chat := failedTwice, pending := 0,
               latest := some (.obj [("type", .str "status"), ("status", .str "completed")]) } ∧
    ∃ st1, handleLatest JSON.read failedTwice
        (.obj [("type", .str "task_created"), ("task_id", .str "abc")]) = .ok st1 ∧
      (st1.messages[1]?).map (fun t => t.taskId) = some (.str "abc") ∧
      st1.messages[3]? ≠ failedTwice.messages[3]? ∧
      (st1.messages[3]?).map (fun t => t.taskId) = some (.str "abc") := by
  refine ⟨by decide, ?_⟩
  refine ⟨{ failedTwice with
    taskId := .str "abc"
    messages := failedTwice.messages.map (backfillTurn (.str "abc")) }, by decide, by decide,
    by decide, by decide⟩

/-- C5 (amended): when the chat view has no task id yet, processing a
`task_created` message with `task_id = T` (`T` a non-empty string) makes `T`
the view's task id, sets the `taskId` of every turn that is streaming and has
no task id to `T`, changing no other field of it, and leaves every other turn
of the list unchanged. -/
theorem task_created_backfills (parse : String → Option JsVal) (st : ChatState)
    (latestMessage : JsVal) (T : String) (hT : T ≠ "")
    (htype : latestMessage.get "type" = .ok (.str "task_created"))
    (hid : latestMessage.get "task_id" = .ok (.str T))
    (hno : st.taskId.truthy = false) :
    ∃ st1, handleLatest parse st latestMessage = .ok st1 ∧
      st1.taskId = .str T ∧
      st1.messages.length = st.messages.length ∧
      ∀ (i : Nat) (t : Turn), st.messages[i]? = some t →
        (t.isStreaming.truthy = true → t.taskId.truthy = false →
          st1.messages[i]? = some { t with taskId := .str T }) ∧
        (¬ (t.isStreaming.truthy = true ∧ t.taskId.truthy = false) →
          st1.messages[i]? = some t) := by
  refine ⟨{ st with taskId := .str T, messages := st.messages.map (backfillTurn (.str T)) },
    ?_, rfl, by simp, ?_⟩
  · have h1 : (JsVal.str "task_created").strictEq (.str "task_created") = true := by decide
    simp [handleLatest, htype, hid, h1, hno, JsVal.truthy_str hT, bind, Except.bind, pure,
      Except.pure]
  · intro i t hi
    constructor
    · intro hs hn
      simp [List.getElem?_map, hi, backfillTurn, hs, hn]
    · intro hnot
      have : (t.isStreaming.truthy && !t.taskId.truthy) = false := by
        cases h1 : t.isStreaming.truthy <;> cases h2 : t.taskId.truthy <;> simp_all
      simp [List.getElem?_map, hi, backfillTurn, this]

/-- Witness for C5 (amended): after one failed submit the placeholder adopts
the task id `abc`, and the user turn stays as it is. -/
theorem task_created_backfills_witness :
    ∃ st1, handleLatest JSON.read failedSubmit
        (.obj [("type", .str "task_created"), ("task_id", .str "abc")]) = .ok st1 ∧
      st1.taskId = .str "abc" ∧
      st1.messages[1]? = some
        { role := "assistant", content := .str "", timestamp := 2, taskId := .str "abc",
          isStreaming := .bool true } ∧
      st1.messages[0]? = some { role := "user", content := .str "hello", timestamp := 1 } := by
  obtain ⟨st1, h1, h2, _, h4⟩ := task_created_backfills JSON.read failedSubmit
    (.obj [("type", .str "task_created"), ("task_id", .str "abc")]) "abc" (by decide) rfl rfl rfl
  exact ⟨st1, h1, h2,
    (h4 1
      { role := "assistant", content := .str "", timestamp := 2, taskId := .null,
        isStreaming := .bool true } rfl).1 rfl rfl,
    (h4 0 { role := "user", content := .str "hello", timestamp := 1 } rfl).2 (by decide)⟩

end ChatInterface

/-! ## C6: streaming turns per task id -/

namespace ChatInterface

/-- C6 (as stated, refuted): two submits whose task-creation calls fail, with
a completed status in between that clears the loading flag, lead from the
empty chat to a state with two streaming turns whose `taskId` is `null`.  And
after one failed submit, a second submit whose `task_created` message arrives
before its answer leads to two streaming turns with the task id `def`: the
message gives the id to the placeholder of the failed submit, the answer to
the new placeholder. -/
theorem two_streaming_placeholders_reachable :
    run JSON.read emptyChat failedTwiceEvents
      = some { chat := failedTwice, pending := 0,
               latest := some (.obj [("type", .str "status"), ("status", .str "completed")]) } ∧
    (streamingWith .null failedTwice.messages).length = 2 ∧
    ¬ (∀ id, (streamingWith id failedTwice.messages).length ≤ 1) ∧
    (run JSON.read emptyChat
        [.typing "hello", .submit 1, .rejected 2,
         .channel (.obj [("type", .str "status"), ("status", .str "completed")]),
         .typing "again", .submit 3,
         .channel (.obj [("type", .str "task_created"), ("task_id", .str "def")]),
         .resolved 4 (.obj [("task_id", .str "def")])]).map
        (fun v => (streamingWith (.str "def") v.chat.messages).length) = some 2 := by
  refine ⟨by decide, by decide, ?_, by decide⟩
  intro h
  exact absurd (h .null) (by decide)

end ChatInterface

theorem JsVal.getOpt_of_get {v r : JsVal} {k : String} (h : v.get k = .ok r) :
    v.getOpt k = r := by
  cases v <;> simp [JsVal.get, JsVal.getOpt] at h ⊢ <;> exact h

namespace ChatInterface

theorem streamingWith_length_eq_count (id : JsVal) (turns : List Turn) :
    (streamingWith id turns).length = (streamingIds turns).count id := by
  induction turns with
  | nil => rfl
  | cons t rest ih =>
    simp only [streamingWith, streamingIds, streaming, List.filter_cons] at ih ⊢
    cases h1 : t.isStreaming.truthy with
    | false => simpa [h1] using ih
    | true =>
      by_cases h2 : t.taskId = id
      · simp [h1, h2, ih]
      · simp [h1, h2, ih, List.count_cons]

theorem streamingIds_append (l l1 : List Turn) :
    streamingIds (l ++ l1) = streamingIds l ++ streamingIds l1 := by
  simp [streamingIds, streaming]

theorem streamingIds_sublist {l l1 : List Turn}
    (h : List.Forall₂ (fun t t1 => t1 = t ∨ t1.isStreaming.truthy = false) l l1) :
    List.Sublist (streamingIds l1) (streamingIds l) := by
  induction h with
  | nil => exact List.Sublist.refl _
  | @cons a b l l1 hab _ ih =>
    simp only [streamingIds, streaming, List.filter_cons] at ih ⊢
    rcases hab with hab | hab
    · subst hab
      cases hb : b.isStreaming.truthy with
      | false => simpa [hb] using ih
      | true => simpa [hb] using ih.cons₂ b.taskId
    · cases ha : a.isStreaming.truthy with
      | false => simpa [ha, hab] using ih
      | true => simpa [ha, hab] using ih.cons a.taskId

theorem distinctIds_of_settled {l l1 : List Turn}
    (h : List.Forall₂ (fun t t1 => t1 = t ∨ t1.isStreaming.truthy = false) l l1)
    (hinv : distinctIds l) : distinctIds l1 :=
  ⟨hinv.1.sublist (streamingIds_sublist h),
    fun id hid => hinv.2 id ((streamingIds_sublist h).subset hid)⟩

theorem streamingIds_backfill (T : JsVal) (l : List Turn) :
    streamingIds (l.map (backfillTurn T))
      = (streamingIds l).map fun id => if id.truthy then id else T := by
  induction l with
  | nil => rfl
  | cons t rest ih =>
    simp only [streamingIds, streaming, List.map_cons, List.filter_cons] at ih ⊢
    cases h1 : t.isStreaming.truthy <;> cases h2 : t.taskId.truthy <;>
      simp [backfillTurn, h1, h2, ih]

theorem distinctIds_backfill (T : JsVal) (l : List Turn) (hT : T.truthy = true)
    (hnew : T ∉ streamingIds l) (hinv : distinctIds l) :
    distinctIds (l.map (backfillTurn T)) := by
  rw [distinctIds, streamingIds_backfill]
  constructor
  · refine List.Nodup.map_on ?_ hinv.1
    intro a ha b hb hab
    change (if a.truthy = true then a else T) = (if b.truthy = true then b else T) at hab
    have hnull : (if (JsVal.null).truthy = true then JsVal.null else T) = T := rfl
    rcases hinv.2 a ha with h1 | h1 <;> rcases hinv.2 b hb with h2 | h2
    · rw [h1, h2]
    · rw [h1, hnull, if_pos h2] at hab
      exact absurd (by rw [hab]; exact hb) hnew
    · rw [h2, hnull, if_pos h1] at hab
      exact absurd (by rw [← hab]; exact ha) hnew
    · rw [if_pos h1, if_pos h2] at hab
      exact hab
  · intro id hid
    simp only [List.mem_map] at hid
    obtain ⟨a, ha, rfl⟩ := hid
    by_cases h : a.truthy = true
    · simp [h]
    · simp [h, hT]

/-- One run of the effect: either it adopts the task id of the message and
backfills it, or it keeps the task id and leaves every turn as it is or
settled. -/
theorem handleLatest_cases (parse : String → Option JsVal) (st st1 : ChatState)
    (latestMessage : JsVal) (h : handleLatest parse st latestMessage = .ok st1) :
    (adopts st latestMessage = true ∧
      st1 = { st with
        taskId := latestMessage.getOpt "task_id"
        messages := st.messages.map (backfillTurn (latestMessage.getOpt "task_id")) }) ∨
    (adopts st latestMessage = false ∧ st1.taskId = st.taskId ∧
      List.Forall₂ (fun t t1 => t1 = t ∨ t1.isStreaming.truthy = false)
        st.messages st1.messages) := by
  have hrefl : ∀ l : List Turn,
      List.Forall₂ (fun t t1 => t1 = t ∨ t1.isStreaming.truthy = false) l l := by
    intro l
    induction l with
    | nil => exact List.Forall₂.nil
    | cons a rest ih => exact List.Forall₂.cons (Or.inl rfl) ih
  unfold handleLatest at h
  cases htype : latestMessage.get "type" with
  | error e => simp [htype, bind, Except.bind] at h
  | ok type =>
    cases hid : latestMessage.get "task_id" with
    | error e => simp [htype, hid, bind, Except.bind] at h
    | ok taskId =>
      have hty := JsVal.getOpt_of_get htype
      have htid := JsVal.getOpt_of_get hid
      simp only [htype, hid, bind, Except.bind, pure, Except.pure] at h
      split at h
      · rename_i hcreated
        split at h
        · rename_i hadopt
          cases h
          left
          exact ⟨by simpa [adopts, hty, htid, hcreated] using hadopt, by rw [htid]⟩
        · rename_i hadopt
          cases h
          right
          refine ⟨?_, rfl, hrefl _⟩
          simp only [adopts, hty, htid, hcreated, Bool.true_and]
          simpa using hadopt
      · rename_i hcreated
        have hno : adopts st latestMessage = false := by
          simp [adopts, hty, hcreated]
        split at h
        · cases hm : mapE (updateTurn parse latestMessage (taskId.or st.taskId)) st.messages with
          | error e => simp [hm] at h
          | ok ms =>
            simp [hm] at h
            subst h
            right
            refine ⟨hno, rfl, (mapE_forall₂ _ _ hm).imp ?_⟩
            intro t t1 ht
            simp only [updateTurn] at ht
            split at ht
            · cases hex : extractContent parse latestMessage with
              | error e => simp [hex, bind, Except.bind] at ht
              | ok ex =>
                cases hfin : finishContent latestMessage ex.content with
                | error e => simp [hex, hfin, bind, Except.bind] at ht
                | ok content =>
                  simp [hex, hfin, bind, Except.bind, pure, Except.pure] at ht
                  subst ht
                  exact Or.inr rfl
            · simp [pure, Except.pure] at ht
              exact Or.inl ht.symm
        · cases hst : latestMessage.get "status" with
          | error e => simp [hst] at h
          | ok status =>
            simp only [hst] at h
            split at h <;> cases h <;> exact Or.inr ⟨hno, rfl, hrefl _⟩

theorem onChannel_distinct (parse : String → Option JsVal) (st st1 : ChatState)
    (latestMessage : JsVal) (h : onChannel parse st latestMessage = .ok st1)
    (hord : (!adopts st latestMessage ||
      (streamingWith (latestMessage.getOpt "task_id") st.messages).isEmpty) = true)
    (hinv : distinctIds st.messages) : distinctIds st1.messages := by
  simp only [onChannel, bind, Except.bind, pure, Except.pure] at h
  cases h1 : handleLatest parse st latestMessage with
  | error e => simp [h1] at h
  | ok st2 =>
    simp only [h1] at h
    rcases handleLatest_cases parse st st2 latestMessage h1 with ⟨had, hst2⟩ | ⟨had, _, hset⟩
    · simp only [had, if_true] at h
      have hT : (latestMessage.getOpt "task_id").truthy = true := by
        simp only [adopts, Bool.and_eq_true] at had
        exact had.2
      have hnew : latestMessage.getOpt "task_id" ∉ streamingIds st.messages := by
        simp only [had, Bool.not_true, Bool.false_or, List.isEmpty_iff] at hord
        intro hmem
        have hc := streamingWith_length_eq_count (latestMessage.getOpt "task_id") st.messages
        rw [hord] at hc
        have := List.count_pos_iff.mpr hmem
        simp at hc
        omega
      have hinv2 : distinctIds st2.messages := by
        rw [hst2]
        exact distinctIds_backfill _ _ hT hnew hinv
      have had2 : adopts st2 latestMessage = false := by
        rw [hst2]
        simp [adopts, hT]
      rcases handleLatest_cases parse st2 st1 latestMessage h with ⟨h3, _⟩ | ⟨_, _, hset⟩
      · rw [had2] at h3
        cases h3
      · exact distinctIds_of_settled hset hinv2
    · simp only [had, Bool.false_eq_true, if_false] at h
      cases h
      exact distinctIds_of_settled hset hinv

theorem handleSubmitStart_some (now : Nat) (st chat : ChatState)
    (h : handleSubmitStart now st = some chat) :
    st.isLoading = false ∧ ∃ t, chat.messages = st.messages ++ [t] ∧
      t.isStreaming.truthy = false := by
  simp only [handleSubmitStart] at h
  split at h
  · cases h
  · rename_i hg
    simp at h
    subst h
    simp only [Bool.or_eq_true, not_or, Bool.not_eq_true] at hg
    exact ⟨hg.2, _, rfl, rfl⟩

theorem distinctIds_append_settled (l : List Turn) (t : Turn) (ht : t.isStreaming.truthy = false)
    (hinv : distinctIds l) : distinctIds (l ++ [t]) := by
  have : streamingIds (l ++ [t]) = streamingIds l := by
    simp [streamingIds_append, streamingIds, streaming, ht]
  rw [distinctIds, this]
  exact hinv

theorem distinctIds_append_streaming (l : List Turn) (t : Turn)
    (ht : t.isStreaming.truthy = true) (hid : t.taskId = .null ∨ t.taskId.truthy = true)
    (hnew : t.taskId ∉ streamingIds l) (hinv : distinctIds l) : distinctIds (l ++ [t]) := by
  have : streamingIds (l ++ [t]) = streamingIds l ++ [t.taskId] := by
    simp [streamingIds_append, streamingIds, streaming, ht]
  rw [distinctIds, this]
  constructor
  · rw [List.nodup_append]
    refine ⟨hinv.1, List.nodup_singleton _, ?_⟩
    intro a ha hb
    simp only [List.mem_singleton] at hb
    exact hnew (hb ▸ ha)
  · intro id hmem
    rcases List.mem_append.mp hmem with h | h
    · exact hinv.2 id h
    · simp only [List.mem_singleton] at h
      rw [h]
      exact hid

theorem not_mem_streamingIds_of_isEmpty (id : JsVal) (l : List Turn)
    (h : (streamingWith id l).isEmpty = true) : id ∉ streamingIds l := by
  intro hmem
  have hc := streamingWith_length_eq_count id l
  rw [List.isEmpty_iff] at h
  rw [h] at hc
  have := List.count_pos_iff.mpr hmem
  simp at hc
  omega

/-- One orderly event keeps the task ids of the streaming turns distinct. -/
theorem step_distinct (parse : String → Option JsVal) (v v1 : View) (e : Event)
    (hord : orderly v e = true) (hstep : step parse v e = some v1)
    (hinv : distinctIds v.chat.messages) : distinctIds v1.chat.messages := by
  cases e with
  | typing text =>
    simp only [step] at hstep
    split at hstep
    · cases hstep
    · simp at hstep
      subst hstep
      exact hinv
  | submit now =>
    simp only [step] at hstep
    cases hs : handleSubmitStart now v.chat with
    | none =>
      simp [hs] at hstep
      subst hstep
      exact hinv
    | some chat =>
      simp [hs] at hstep
      subst hstep
      obtain ⟨_, t, hmsgs, ht⟩ := handleSubmitStart_some now v.chat chat hs
      simp only [hmsgs]
      exact distinctIds_append_settled _ t ht hinv
  | resolved now data =>
    simp only [orderly, Bool.and_eq_true, Bool.or_eq_true] at hord
    obtain ⟨htid, hfresh⟩ := hord
    have hid : (handleSubmitResolved now data v.chat).1.taskId = answerId data := by
      simp only [handleSubmitResolved, answerId]
      split <;> rfl
    have h1 : distinctIds (handleSubmitResolved now data v.chat).1.messages := by
      simp only [handleSubmitResolved]
      split
      · exact distinctIds_append_settled _ _ (by simp [JsVal.truthy]) hinv
      · rename_i hdirect
        have hempty : (streamingWith (answerId data) v.chat.messages).isEmpty = true := by
          rcases hfresh with h | h
          · exact absurd h hdirect
          · exact h
        exact distinctIds_append_streaming _ _ (by simp [JsVal.truthy]) (Or.inr htid)
          (not_mem_streamingIds_of_isEmpty _ _ hempty) hinv
    simp only [step] at hstep
    split at hstep
    · cases hstep
    · cases hres : onResolved parse now data v.latest v.chat with
      | error err => simp [hres] at hstep
      | ok chat =>
        simp [hres] at hstep
        subst hstep
        simp only
        simp only [onResolved] at hres
        split at hres
        · rename_i latestMessage _
          split at hres
          · refine onChannel_distinct parse _ chat latestMessage hres ?_ h1
            have : adopts (handleSubmitResolved now data v.chat).1 latestMessage = false := by
              simp [adopts, hid, htid]
            simp [this]
          · cases hres
            exact h1
        · cases hres
          exact h1
  | rejected now =>
    simp only [orderly, List.all_eq_true] at hord
    simp only [step] at hstep
    split at hstep
    · cases hstep
    · simp at hstep
      subst hstep
      simp only [handleSubmitRejected]
      refine distinctIds_append_streaming _ _ (by simp [JsVal.truthy]) (Or.inl rfl) ?_ hinv
      intro hmem
      simp only [streamingIds, streaming, List.mem_map, List.mem_filter] at hmem
      obtain ⟨t, ⟨ht, hs⟩, hnull⟩ := hmem
      have := hord t ht
      rw [hs, hnull] at this
      exact absurd this (by decide)
  | channel latestMessage =>
    simp only [orderly] at hord
    simp only [step] at hstep
    cases hl : onChannel parse v.chat latestMessage with
    | error err => simp [hl] at hstep
    | ok chat =>
      simp [hl] at hstep
      subst hstep
      exact onChannel_distinct parse v.chat chat latestMessage hl hord hinv

theorem runOrderly_distinct (parse : String → Option JsVal) :
    ∀ (events : List Event) (v v1 : View), runOrderly parse v events = some v1 →
      distinctIds v.chat.messages →
      run parse v events = some v1 ∧ distinctIds v1.chat.messages := by
  intro events
  induction events with
  | nil =>
    intro v v1 h hinv
    simp only [runOrderly] at h
    cases h
    exact ⟨rfl, hinv⟩
  | cons e rest ih =>
    intro v v1 h hinv
    simp only [runOrderly] at h
    split at h
    · rename_i hord
      cases hs : step parse v e with
      | none => simp [hs] at h
      | some v2 =>
        simp only [hs] at h
        obtain ⟨h1, h2⟩ := ih v2 v1 h (step_distinct parse v v2 e hord hs hinv)
        exact ⟨by simp only [run, hs, h1], h2⟩
    · cases h

theorem isEmpty_streamingWith_of_not_mem (id : JsVal) (l : List Turn)
    (h : id ∉ streamingIds l) : (streamingWith id l).isEmpty = true := by
  have hc := streamingWith_length_eq_count id l
  rw [List.count_eq_zero_of_not_mem h] at hc
  rw [List.isEmpty_iff]
  exact List.length_eq_zero.mp hc

theorem forall₂_settled_refl (l : List Turn) :
    List.Forall₂ (fun t t1 => t1 = t ∨ t1.isStreaming.truthy = false) l l := by
  induction l with
  | nil => exact List.Forall₂.nil
  | cons a rest ih => exact List.Forall₂.cons (Or.inl rfl) ih

/-- After an answer with a truthy task id, that id is the task id of the view
and every turn is as `handleSubmit` left it, or settled. -/
theorem onResolved_settled (parse : String → Option JsVal) (now : Nat) (data : JsVal)
    (latest : Option JsVal) (st st1 : ChatState) (hid : (answerId data).truthy = true)
    (h : onResolved parse now data latest st = .ok st1) :
    st1.taskId = answerId data ∧
    List.Forall₂ (fun t t1 => t1 = t ∨ t1.isStreaming.truthy = false)
      (handleSubmitResolved now data st).1.messages st1.messages := by
  have htid : (handleSubmitResolved now data st).1.taskId = answerId data := by
    simp only [handleSubmitResolved, answerId]
    split <;> rfl
  have hno : ∀ m, adopts (handleSubmitResolved now data st).1 m = false := by
    intro m
    simp [adopts, htid, hid]
  simp only [onResolved] at h
  split at h
  · rename_i latestMessage
    split at h
    · simp only [onChannel, hno, Bool.false_eq_true, if_false, bind, Except.bind, pure,
        Except.pure] at h
      cases h1 : handleLatest parse (handleSubmitResolved now data st).1 latestMessage with
      | error err => simp [h1] at h
      | ok st4 =>
        simp only [h1, Except.ok.injEq] at h
        subst h
        rcases handleLatest_cases parse _ st4 latestMessage h1 with ⟨had, _⟩ | ⟨_, ht, hset⟩
        · rw [hno] at had
          cases had
        · exact ⟨ht.trans htid, hset⟩
    · simp only [Except.ok.injEq] at h
      subst h
      exact ⟨htid, forall₂_settled_refl _⟩
  · simp only [Except.ok.injEq] at h
    subst h
    exact ⟨htid, forall₂_settled_refl _⟩

/-- The task ids of the streaming turns after a channel message that is not
adopted, or that meets no streaming turn. -/
theorem onChannel_ids (parse : String → Option JsVal) (st st1 : ChatState)
    (latestMessage : JsVal) (h : onChannel parse st latestMessage = .ok st1)
    (hcase : streamingIds st.messages = [] ∨ adopts st latestMessage = false) :
    List.Sublist (streamingIds st1.messages) (streamingIds st.messages) ∧
    (st1.taskId.truthy = false → st.taskId.truthy = false) := by
  simp only [onChannel, bind, Except.bind, pure, Except.pure] at h
  cases h1 : handleLatest parse st latestMessage with
  | error e => simp [h1] at h
  | ok st2 =>
    simp only [h1] at h
    rcases handleLatest_cases parse st st2 latestMessage h1 with ⟨had, hst2⟩ | ⟨had, ht, hset⟩
    · simp only [had, if_true] at h
      have hnil : streamingIds st.messages = [] := by
        rcases hcase with hc | hc
        · exact hc
        · rw [had] at hc
          cases hc
      have hT : (latestMessage.getOpt "task_id").truthy = true := by
        simp only [adopts, Bool.and_eq_true] at had
        exact had.2
      have hids2 : streamingIds st2.messages = [] := by
        rw [hst2]
        simp only
        rw [streamingIds_backfill, hnil]
        rfl
      have had2 : adopts st2 latestMessage = false := by
        rw [hst2]
        simp [adopts, hT]
      rcases handleLatest_cases parse st2 st1 latestMessage h with ⟨h3, _⟩ | ⟨_, ht1, hset⟩
      · rw [had2] at h3
        cases h3
      · refine ⟨?_, ?_⟩
        · have := streamingIds_sublist hset
          rw [hids2] at this
          rw [hnil]
          exact this
        · intro hf
          rw [ht1, hst2] at hf
          simp only at hf
          rw [hT] at hf
          cases hf
    · simp only [had, Bool.false_eq_true, if_false, Except.ok.injEq] at h
      subst h
      exact ⟨streamingIds_sublist hset, fun hf => by rw [← ht]; exact hf⟩

/-- On the success path (no failed call, answers with truthy and pairwise
different task ids that are new to the view) every event of a run is
orderly. -/
theorem runOrderly_of_success (parse : String → Option JsVal) :
    ∀ (events : List Event) (v v1 : View) (seen : List JsVal),
      (∀ id ∈ streamingIds v.chat.messages, id ∈ seen) →
      (v.chat.taskId.truthy = false → streamingIds v.chat.messages = []) →
      anyRejected events = false →
      (∀ id ∈ answerIds events, id.truthy = true ∧ id ∉ seen) →
      (answerIds events).Nodup →
      run parse v events = some v1 → runOrderly parse v events = some v1 := by
  intro events
  induction events with
  | nil =>
    intro v v1 seen _ _ _ _ _ h
    simpa [run, runOrderly] using h
  | cons e rest ih =>
    intro v v1 seen hseen hfalsy hrej hids hnodup hrun
    simp only [run] at hrun
    cases hs : step parse v e with
    | none => simp [hs] at hrun
    | some v2 =>
      simp only [hs] at hrun
      cases e with
      | typing text =>
        have hv2 : v2.chat.messages = v.chat.messages ∧ v2.chat.taskId = v.chat.taskId := by
          simp only [step] at hs
          split at hs
          · cases hs
          · simp at hs
            subst hs
            exact ⟨rfl, rfl⟩
        have hrest := ih v2 v1 seen (by rw [hv2.1]; exact hseen)
          (by rw [hv2.1, hv2.2]; exact hfalsy) (by simpa [anyRejected] using hrej)
          (by simpa [answerIds] using hids) (by simpa [answerIds] using hnodup) hrun
        simp only [runOrderly, orderly, if_true, hs, hrest]
      | submit now =>
        have hv2 : streamingIds v2.chat.messages = streamingIds v.chat.messages ∧
            v2.chat.taskId = v.chat.taskId := by
          simp only [step] at hs
          cases hst : handleSubmitStart now v.chat with
          | none =>
            simp [hst] at hs
            subst hs
            exact ⟨rfl, rfl⟩
          | some chat =>
            simp [hst] at hs
            subst hs
            obtain ⟨_, t, hmsgs, ht⟩ := handleSubmitStart_some now v.chat chat hst
            refine ⟨?_, ?_⟩
            · simp only [hmsgs]
              simp [streamingIds_append, streamingIds, streaming, ht]
            · simp only [handleSubmitStart] at hst
              split at hst
              · cases hst
              · simp at hst
                subst hst
                rfl
        have hrest := ih v2 v1 seen (by rw [hv2.1]; exact hseen)
          (by rw [hv2.1, hv2.2]; exact hfalsy) (by simpa [anyRejected] using hrej)
          (by simpa [answerIds] using hids) (by simpa [answerIds] using hnodup) hrun
        simp only [runOrderly, orderly, if_true, hs, hrest]
      | rejected now => simp [anyRejected] at hrej
      | resolved now data =>
        have hid := hids (answerId data) (by simp [answerIds])
        have hnot : answerId data ∉ streamingIds v.chat.messages := fun h => hid.2 (hseen _ h)
        have hord : orderly v (.resolved now data) = true := by
          simp [orderly, hid.1, isEmpty_streamingWith_of_not_mem _ _ hnot]
        have hres : ∃ chat, onResolved parse now data v.latest v.chat = .ok chat ∧
            v2.chat = chat := by
          simp only [step] at hs
          split at hs
          · cases hs
          · cases hr : onResolved parse now data v.latest v.chat with
            | error err => simp [hr] at hs
            | ok chat =>
              simp [hr] at hs
              subst hs
              exact ⟨chat, rfl, rfl⟩
        obtain ⟨chat, hon, hchat⟩ := hres
        obtain ⟨htid, hset⟩ := onResolved_settled parse now data v.latest v.chat chat hid.1 hon
        have hsub := streamingIds_sublist hset
        have hids1 : ∀ id ∈ streamingIds (handleSubmitResolved now data v.chat).1.messages,
            id ∈ answerId data :: seen := by
          intro id hmem
          simp only [handleSubmitResolved] at hmem
          split at hmem
          · rw [streamingIds_append] at hmem
            rcases List.mem_append.mp hmem with h | h
            · exact List.mem_cons_of_mem _ (hseen id h)
            · simp [streamingIds, streaming, JsVal.truthy] at h
          · rw [streamingIds_append] at hmem
            rcases List.mem_append.mp hmem with h | h
            · exact List.mem_cons_of_mem _ (hseen id h)
            · simp only [streamingIds, streaming, List.filter_cons, JsVal.truthy, if_true,
                List.filter_nil, List.map_cons, List.map_nil, List.mem_singleton] at h
              rw [h]
              exact List.mem_cons_self _ _
        have hnd : (answerId data :: answerIds rest).Nodup := by
          simpa [answerIds] using hnodup
        have hrest := ih v2 v1 (answerId data :: seen)
          (by
            rw [hchat]
            exact fun id hmem => hids1 id (hsub.subset hmem))
          (by
            rw [hchat, htid, hid.1]
            intro h
            cases h)
          (by simpa [anyRejected] using hrej)
          (by
            intro id hmem
            have h1 := hids id (by simp [answerIds, hmem])
            refine ⟨h1.1, ?_⟩
            intro h2
            rcases List.mem_cons.mp h2 with h3 | h3
            · rw [h3] at hmem
              exact (List.nodup_cons.mp hnd).1 hmem
            · exact h1.2 h3)
          (List.nodup_cons.mp hnd).2 hrun
        simp only [runOrderly, hord, if_true, hs, hrest]
      | channel latestMessage =>
        have hcase : streamingIds v.chat.messages = [] ∨ adopts v.chat latestMessage = false := by
          cases had : adopts v.chat latestMessage with
          | false => exact Or.inr rfl
          | true =>
            left
            apply hfalsy
            simp only [adopts, Bool.and_eq_true, Bool.not_eq_true'] at had
            exact had.1.2
        have hord : orderly v (.channel latestMessage) = true := by
          simp only [orderly, Bool.or_eq_true, Bool.not_eq_true']
          rcases hcase with h | h
          · right
            apply isEmpty_streamingWith_of_not_mem
            rw [h]
            simp
          · exact Or.inl h
        have hres : ∃ chat, onChannel parse v.chat latestMessage = .ok chat ∧
            v2.chat = chat := by
          simp only [step] at hs
          cases hr : onChannel parse v.chat latestMessage with
          | error err => simp [hr] at hs
          | ok chat =>
            simp [hr] at hs
            subst hs
            exact ⟨chat, rfl, rfl⟩
        obtain ⟨chat, hon, hchat⟩ := hres
        obtain ⟨hsub, htid⟩ := onChannel_ids parse v.chat chat latestMessage hon hcase
        have hrest := ih v2 v1 seen
          (by
            rw [hchat]
            exact fun id hmem => hseen id (hsub.subset hmem))
          (by
            rw [hchat]
            intro hf
            have := hfalsy (htid hf)
            rw [this] at hsub
            exact List.sublist_nil.mp hsub)
          (by simpa [anyRejected] using hrej)
          (by simpa [answerIds] using hids) (by simpa [answerIds] using hnodup) hrun
        simp only [runOrderly, hord, if_true, hs, hrest]

/-- C6 (amended): every state of the chat view reached from the empty chat
through typing, handleSubmit (with its success and failed-REST paths) and
channel-message processing (the re-runs of the effect on a change of the task
id included) has, for each task id value (`null` included), at most one turn
with `isStreaming = true` and that `taskId`, provided every event of the run
is orderly: an answer to task creation carries a truthy task id which, unless
the answer is a direct response, no streaming turn carries; a task-creation
call fails only while no streaming turn is without task id; and a
`task_created` message that the view adopts carries an id that no streaming
turn carries.  In particular the bound holds after every run in which no
task-creation call fails and the answers carry truthy, pairwise different
task ids, whatever channel messages arrive in between: every event of such a
run is orderly. -/
theorem one_streaming_turn_per_id (parse : String → Option JsVal)
    (events : List Event) (v : View) (id : JsVal) :
    (runOrderly parse emptyChat events = some v →
      run parse emptyChat events = some v ∧
      (streamingWith id v.chat.messages).length ≤ 1) ∧
    (run parse emptyChat events = some v → anyRejected events = false →
      (∀ a ∈ answerIds events, a.truthy = true) → (answerIds events).Nodup →
      runOrderly parse emptyChat events = some v ∧
      (streamingWith id v.chat.messages).length ≤ 1) := by
  have hstart : distinctIds emptyChat.chat.messages := by
    simp [distinctIds, emptyChat, streamingIds, streaming]
  have hbound : runOrderly parse emptyChat events = some v →
      run parse emptyChat events = some v ∧
      (streamingWith id v.chat.messages).length ≤ 1 := by
    intro hrun
    obtain ⟨h1, h2⟩ := runOrderly_distinct parse events emptyChat v hrun hstart
    refine ⟨h1, ?_⟩
    rw [streamingWith_length_eq_count]
    exact List.nodup_iff_count_le_one.mp h2.1 id
  refine ⟨hbound, ?_⟩
  intro hrun hrej htruthy hnodup
  have hord := runOrderly_of_success parse events emptyChat v []
    (by simp [emptyChat, streamingIds, streaming])
    (by intro _; simp [emptyChat, streamingIds, streaming])
    hrej (fun a ha => ⟨htruthy a ha, by simp⟩) hnodup hrun
  exact ⟨hord, (hbound hord).2⟩

set_option maxRecDepth 20000 in
/-- Witness for C6 (amended): three exchanges, the first on the failed-REST
path, with channel messages in between, at the end of which the placeholders
of the tasks `def` and `ghi` are both streaming, one for each id; and two
exchanges on the success path, after which the placeholder of `def` is the
one streaming turn. -/
theorem one_streaming_turn_per_id_witness :
    (run JSON.read emptyChat threeExchanges = some threeExchangesView ∧
      (streamingWith (.str "def") threeExchangesView.chat.messages).length ≤ 1) ∧
    (runOrderly JSON.read emptyChat twoExchanges
        = some { chat := { secondExchange with isLoading := false }, pending := 0,
                 latest := some (.obj [("type", .str "output"), ("task_id", .str "abc"),
                   ("message", .str "\x7b\"error\":\"boom\"\x7d")]) } ∧
      (streamingWith (.str "def") secondExchange.messages).length ≤ 1) :=
  ⟨(one_streaming_turn_per_id JSON.read threeExchanges threeExchangesView (.str "def")).1
      (by decide),
   (one_streaming_turn_per_id JSON.read twoExchanges
      { chat := { secondExchange with isLoading := false }, pending := 0,
        latest := some (.obj [("type", .str "output"), ("task_id", .str "abc"),
          ("message", .str "\x7b\"error\":\"boom\"\x7d")]) } (.str "def")).2
      (by decide) (by decide) (by decide) (by decide)⟩

end ChatInterface

/-! ## C7: which turns an output message is applied to -/

theorem JsVal.strictEq_str (v : JsVal) (T : String) :
    v.strictEq (.str T) = true ↔ v = .str T := by
  cases v <;> simp [JsVal.strictEq]

namespace ChatInterface

/-- The state after an output message with a non-empty task id whose display
text builds to `content`. -/
theorem handleLatest_output_eq (parse : String → Option JsVal) (st : ChatState)
    (latestMessage : JsVal) (T : String) (ex : Extracted) (content : JsVal) (hT : T ≠ "")
    (htype : latestMessage.get "type" = .ok (.str "output"))
    (hid : latestMessage.get "task_id" = .ok (.str T))
    (hex : extractContent parse latestMessage = .ok ex)
    (hfin : finishContent latestMessage ex.content = .ok content) :
    handleLatest parse st latestMessage = .ok { st with
      messages := st.messages.map (settle content ex.structuredOutput (.str T))
      isLoading := false } := by
  have hor : ∀ x : JsVal, (JsVal.str T).or x = .str T := by
    intro x
    simp [JsVal.or, JsVal.truthy_str hT]
  have hguard : ((JsVal.str T).or st.taskId).truthy = true := by
    rw [hor]
    exact JsVal.truthy_str hT
  have hmap : mapE (updateTurn parse latestMessage (.str T)) st.messages
      = .ok (st.messages.map (settle content ex.structuredOutput (.str T))) :=
    mapE_eq_map _
      (fun a _ => updateTurn_eq_settle parse latestMessage (.str T) ex content hex hfin a)
  rw [handleLatest_output parse st latestMessage (.str T) htype hid hguard, hor, hmap]

/-- C7 (as stated, refuted): a streaming placeholder whose `taskId` is still
`null` does not receive the output of a message carrying `task_id = "abc"`
(the turn list stays as it is); and when two streaming turns carry the task
id `abc`, the output is applied to both, not to the first one only. -/
theorem output_skips_null_placeholder :
    handleLatest JSON.read failedSubmit (outputFrame "done")
      = .ok { failedSubmit with isLoading := false } ∧
    ∃ st1 st2,
      handleLatest JSON.read failedTwice
        (.obj [("type", .str "task_created"), ("task_id", .str "abc")]) = .ok st1 ∧
      handleLatest JSON.read st1 (outputFrame "done") = .ok st2 ∧
      (st2.messages[1]?).map (fun t => t.content) = some (.str "done") ∧
      (st2.messages[3]?).map (fun t => t.content) = some (.str "done") := by
  refine ⟨by decide, ?_⟩
  refine ⟨{ failedTwice with
      taskId := .str "abc"
      messages := failedTwice.messages.map (backfillTurn (.str "abc")) },
    { failedTwice with
      taskId := .str "abc"
      isLoading := false
      messages := (failedTwice.messages.map (backfillTurn (.str "abc"))).map
        (settle (.str "done") .null (.str "abc")) },
    by decide, by decide, by decide, by decide⟩

/-- C7 (amended): an output message with task id `T` (a non-empty string) whose
display text builds to `content` is applied to every turn with
`isStreaming = true` whose `taskId` equals `T`: each of them takes the content
and the structured payload and stops streaming; every other turn is left as
it is.  In particular a streaming placeholder whose `taskId` is still `null`
is not changed by the message: it takes an output only after a `task_created`
message has given it the task id. -/
theorem output_applies_to_matching_turns (parse : String → Option JsVal) (st : ChatState)
    (latestMessage : JsVal) (T : String) (ex : Extracted) (content : JsVal) (hT : T ≠ "")
    (htype : latestMessage.get "type" = .ok (.str "output"))
    (hid : latestMessage.get "task_id" = .ok (.str T))
    (hex : extractContent parse latestMessage = .ok ex)
    (hfin : finishContent latestMessage ex.content = .ok content) :
    ∃ st1, handleLatest parse st latestMessage = .ok st1 ∧
      st1.messages.length = st.messages.length ∧
      ∀ (i : Nat) (t : Turn), st.messages[i]? = some t →
        (t.isStreaming.truthy = true → t.taskId = .str T →
          st1.messages[i]? = some { t with
            content := content
            structuredOutput := ex.structuredOutput
            isStreaming := .bool false }) ∧
        (¬ (t.isStreaming.truthy = true ∧ t.taskId = .str T) → st1.messages[i]? = some t) ∧
        (t.taskId = .null → st1.messages[i]? = some t) := by
  refine ⟨{ st with
      messages := st.messages.map (settle content ex.structuredOutput (.str T))
      isLoading := false },
    handleLatest_output_eq parse st latestMessage T ex content hT htype hid hex hfin,
    by simp, ?_⟩
  · intro i t hi
    have hother : ¬ (t.isStreaming.truthy = true ∧ t.taskId = .str T) →
        (st.messages.map (settle content ex.structuredOutput (.str T)))[i]? = some t := by
      intro hnot
      have hm : (t.taskId.strictEq (.str T) && t.isStreaming.truthy) = false := by
        cases h1 : t.isStreaming.truthy
        · simp
        · cases h2 : t.taskId.strictEq (.str T)
          · simp
          · exact absurd ⟨h1, (JsVal.strictEq_str _ _).1 h2⟩ hnot
      simp [List.getElem?_map, hi, settle, hm]
    refine ⟨?_, hother, ?_⟩
    · intro hs htid
      have hm : (t.taskId.strictEq (.str T) && t.isStreaming.truthy) = true := by
        simp [hs, (JsVal.strictEq_str _ _).2 htid]
      simp [List.getElem?_map, hi, settle, hm]
    · intro hnull
      apply hother
      intro h
      rw [hnull] at h
      exact absurd h.2 (by simp)

/-- Witness for C7 (amended): the raw output `done` for task `abc` on the state
of scenario A settles the placeholder of `abc` and leaves the user turn. -/
theorem output_applies_to_matching_turns_witness :
    ∃ st1, handleLatest JSON.read scenarioA (outputFrame "done") = .ok st1 ∧
      st1.messages[1]? = some
        { role := "assistant", content := .str "done", timestamp := 2, taskId := .str "abc",
          isStreaming := .bool false, structuredOutput := .null } ∧
      st1.messages[0]? = some { role := "user", content := .str "hello", timestamp := 1 } := by
  obtain ⟨st1, h1, _, h3⟩ := output_applies_to_matching_turns JSON.read scenarioA
    (outputFrame "done") "abc" { content := .str "done", structuredOutput := .null }
    (.str "done") (by decide) rfl rfl (by decide) (by decide)
  exact ⟨st1, h1,
    (h3 1
      { role := "assistant", content := .str "", timestamp := 2, taskId := .str "abc",
        isStreaming := .bool true } rfl).1 rfl rfl,
    (h3 0 { role := "user", content := .str "hello", timestamp := 1 } rfl).2.1 (by decide)⟩

end ChatInterface

/-! ## C8: fallback to the raw text -/

namespace ChatInterface

/-- The statements after the `try`/`catch` on a string content, for an
explanation that is falsy or a string, and run steps that are not entered
(falsy, or without positive length) or a list. -/
theorem finishContent_ok (latestMessage explanation runSteps : JsVal) (c : String)
    (hexp : latestMessage.get "explanation" = .ok explanation)
    (hrun : latestMessage.get "run_steps" = .ok runSteps)
    (hexpT : explanation.truthy = false ∨ ∃ e, explanation = .str e)
    (hrunT : (runSteps.truthy && gtZero (runSteps.getOpt "length")) = false ∨
      ∃ steps, runSteps = .arr steps) :
    ∃ suffix, finishContent latestMessage (.str c) = .ok (.str (c ++ suffix)) ∧
      (explanation.truthy = false →
        (runSteps.truthy && gtZero (runSteps.getOpt "length")) = false → suffix = "") := by
  by_cases ht : explanation.truthy = true <;>
    by_cases hg : (runSteps.truthy && gtZero (runSteps.getOpt "length")) = true
  · obtain ⟨e, he⟩ : ∃ e, explanation = .str e := by
      rcases hexpT with h | h
      · rw [h] at ht
        cases ht
      · exact h
    obtain ⟨steps, hs⟩ : ∃ steps, runSteps = .arr steps := by
      rcases hrunT with h | h
      · rw [h] at hg
        cases hg
      · exact h
    subst he
    subst hs
    exact ⟨"\n\n" ++ JsStr.cleanExplanation e ++
        ("\n\n**Run Steps:**\n" ++ String.intercalate "\n" (runStepLines steps)), by
      simp [finishContent, hexp, hrun, ht, hg, bind, Except.bind, pure, Except.pure,
        String.append_assoc],
      fun h _ => by simp [ht] at h⟩
  · obtain ⟨e, he⟩ : ∃ e, explanation = .str e := by
      rcases hexpT with h | h
      · rw [h] at ht
        cases ht
      · exact h
    subst he
    exact ⟨"\n\n" ++ JsStr.cleanExplanation e, by
      simp [finishContent, hexp, hrun, ht, hg, bind, Except.bind, pure, Except.pure,
        String.append_assoc],
      fun h _ => by simp [ht] at h⟩
  · obtain ⟨steps, hs⟩ : ∃ steps, runSteps = .arr steps := by
      rcases hrunT with h | h
      · rw [h] at hg
        cases hg
      · exact h
    subst hs
    exact ⟨"\n\n**Run Steps:**\n" ++ String.intercalate "\n" (runStepLines steps), by
      simp [finishContent, hexp, hrun, ht, hg, bind, Except.bind, pure, Except.pure,
        String.append_assoc],
      fun _ h => by simp [hg] at h⟩
  · exact ⟨"", by
      simp [finishContent, hexp, hrun, ht, hg, bind, Except.bind, pure, Except.pure],
      fun _ _ => rfl⟩

/-- The statements after the `try`/`catch` throw on a truthy explanation that
is not a string (it has no `replace`) and on run steps of positive length that
are not a list (they have no `map`). -/
theorem finishContent_error (latestMessage explanation runSteps : JsVal) (c : String)
    (hexp : latestMessage.get "explanation" = .ok explanation)
    (hrun : latestMessage.get "run_steps" = .ok runSteps)
    (h : (explanation.truthy = true ∧ ∀ e, explanation ≠ .str e) ∨
      ((runSteps.truthy && gtZero (runSteps.getOpt "length")) = true ∧
        ∀ steps, runSteps ≠ .arr steps)) :
    finishContent latestMessage (.str c) = .error .typeErr := by
  rcases h with ⟨ht, hne⟩ | ⟨hg, hne⟩
  · cases explanation with
    | str e => exact absurd rfl (hne e)
    | _ =>
      first
        | (simp [JsVal.truthy] at ht; done)
        | simp [finishContent, hexp, ht, bind, Except.bind, throw, throwThe,
            MonadExceptOf.throw]
  · have hsteps : (match runSteps with
        | .arr steps => (Except.ok steps : Except JsErr (List JsVal))
        | _ => .error .typeErr) = .error .typeErr := by
      cases runSteps with
      | arr steps => exact absurd rfl (hne steps)
      | _ => rfl
    by_cases ht : explanation.truthy = true
    · cases explanation with
      | str e =>
        cases runSteps with
        | arr steps => exact absurd rfl (hne steps)
        | _ =>
          first
            | (simp [JsVal.truthy] at hg; done)
            | simp [finishContent, hexp, hrun, ht, hg, bind, Except.bind, pure, Except.pure,
                throw, throwThe, MonadExceptOf.throw]
      | _ =>
        first
          | (simp [JsVal.truthy] at ht; done)
          | simp [finishContent, hexp, ht, bind, Except.bind, throw, throwThe,
              MonadExceptOf.throw]
    · cases runSteps with
      | arr steps => exact absurd rfl (hne steps)
      | _ =>
        first
          | (simp [JsVal.truthy] at hg; done)
          | simp [finishContent, hexp, hrun, ht, hg, bind, Except.bind, pure, Except.pure,
              throw, throwThe, MonadExceptOf.throw]

theorem mapE_ne_ok {α β : Type} {f : α → Except JsErr β} {e : JsErr} :
    ∀ (l : List α) (a : α), a ∈ l → f a = .error e → ∀ r, mapE f l ≠ .ok r := by
  intro l
  induction l with
  | nil =>
    intro a ha
    cases ha
  | cons x rest ih =>
    intro a ha hfa r
    simp only [mapE]
    cases hx : f x with
    | error err => simp
    | ok b =>
      have hin : a ∈ rest := by
        rcases List.mem_cons.mp ha with h | h
        · subst h
          rw [hfa] at hx
          cases hx
        · exact h
      cases hrest : mapE f rest with
      | error err => simp
      | ok bs => exact absurd hrest (ih a hin hfa bs)

/-- C8 (as stated, refuted): for the message `not json` of task `abc`, which is
not valid JSON, processing fails on the streaming turn of scenario A when the
same message carries the explanation `5`, or the run steps `npm test` as one
string: the raw text is taken, but the statements that append the explanation
and the run steps throw a `TypeError`. -/
theorem raw_text_update_throws_on_typed_fields :
    JSON.read "not json" = none ∧
    extractContent JSON.read
        (.obj [("type", .str "output"), ("task_id", .str "abc"), ("message", .str "not json"),
          ("explanation", .num 5)])
      = .ok { content := .str "not json", structuredOutput := .null } ∧
    handleLatest JSON.read scenarioA
        (.obj [("type", .str "output"), ("task_id", .str "abc"), ("message", .str "not json"),
          ("explanation", .num 5)])
      = .error .typeErr ∧
    handleLatest JSON.read scenarioA
        (.obj [("type", .str "output"), ("task_id", .str "abc"), ("message", .str "not json"),
          ("run_steps", .str "npm test")])
      = .error .typeErr := by
  decide

/-- C8 (amended): for every output message with task id `T` whose message field
is a string `m` that is not valid JSON, the text taken by the `try`/`catch` is
exactly the raw string `m`.  When the explanation is falsy or a string and the
run steps are falsy, without positive length, or a list, processing completes:
the matching streaming turn's content is `m` followed by the explanation and
run-steps suffix (exactly `m` when the message carries neither) and its
`isStreaming` is false.  When the explanation is truthy but not a string, or
the run steps have positive length but are not a list, processing fails. -/
theorem raw_text_fallback (parse : String → Option JsVal) (st : ChatState)
    (latestMessage explanation runSteps : JsVal) (T m : String) (i : Nat) (t : Turn)
    (hT : T ≠ "")
    (htype : latestMessage.get "type" = .ok (.str "output"))
    (hid : latestMessage.get "task_id" = .ok (.str T))
    (hmsg : latestMessage.get "message" = .ok (.str m))
    (hbad : parse m = none)
    (hexp : latestMessage.get "explanation" = .ok explanation)
    (hrun : latestMessage.get "run_steps" = .ok runSteps)
    (hi : st.messages[i]? = some t)
    (htid : t.taskId = .str T) (hstr : t.isStreaming = .bool true) :
    extractContent parse latestMessage = .ok { content := .str m, structuredOutput := .null } ∧
    ((explanation.truthy = false ∨ ∃ e, explanation = .str e) →
      ((runSteps.truthy && gtZero (runSteps.getOpt "length")) = false ∨
        ∃ steps, runSteps = .arr steps) →
      ∃ st1 suffix, handleLatest parse st latestMessage = .ok st1 ∧
        st1.messages[i]? = some { t with
          content := .str (m ++ suffix)
          structuredOutput := .null
          isStreaming := .bool false } ∧
        (explanation.truthy = false →
          (runSteps.truthy && gtZero (runSteps.getOpt "length")) = false → suffix = "")) ∧
    (((explanation.truthy = true ∧ ∀ e, explanation ≠ .str e) ∨
        ((runSteps.truthy && gtZero (runSteps.getOpt "length")) = true ∧
          ∀ steps, runSteps ≠ .arr steps)) →
      ∀ st1, handleLatest parse st latestMessage ≠ .ok st1) := by
  have hex : extractContent parse latestMessage
      = .ok { content := .str m, structuredOutput := .null } := by
    simp only [extractContent, hmsg, jsonParse, JsVal.toStr, hbad, bind, Except.bind, pure,
      Except.pure]
  have hm : (t.taskId.strictEq (.str T) && t.isStreaming.truthy) = true := by
    simp [htid, hstr, JsVal.strictEq, JsVal.truthy]
  have hor : ∀ x : JsVal, (JsVal.str T).or x = .str T := by
    intro x
    simp [JsVal.or, JsVal.truthy_str hT]
  refine ⟨hex, ?_, ?_⟩
  · intro hexpT hrunT
    obtain ⟨suffix, hfin, hsuf⟩ :=
      finishContent_ok latestMessage explanation runSteps m hexp hrun hexpT hrunT
    refine ⟨_, suffix,
      handleLatest_output_eq parse st latestMessage T
        { content := .str m, structuredOutput := .null } (.str (m ++ suffix)) hT htype hid hex
        hfin,
      ?_, hsuf⟩
    simp [List.getElem?_map, hi, settle, hm]
  · intro hbadT st1 hok
    have hfin := finishContent_error latestMessage explanation runSteps m hexp hrun hbadT
    have hup : updateTurn parse latestMessage (.str T) t = .error .typeErr := by
      simp [updateTurn, hm, hex, hfin, bind, Except.bind]
    have hmem : t ∈ st.messages := List.getElem?_mem hi
    have hguard : ((JsVal.str T).or st.taskId).truthy = true := by
      rw [hor]
      exact JsVal.truthy_str hT
    rw [handleLatest_output parse st latestMessage (.str T) htype hid hguard, hor] at hok
    cases hmap : mapE (updateTurn parse latestMessage (.str T)) st.messages with
    | error err => simp [hmap] at hok
    | ok messages => exact absurd hmap (mapE_ne_ok st.messages t hmem hup messages)

end ChatInterface

namespace ChatInterface

/-- Witness for C8 (amended): the text `not json` for task `abc` on the state
of scenario A, without explanation or run steps, and with the explanation
`5`. -/
theorem raw_text_fallback_witness :
    JSON.read "not json" = none ∧
    extractContent JSON.read (outputFrame "not json")
      = .ok { content := .str "not json", structuredOutput := .null } ∧
    (∃ st1 suffix, handleLatest JSON.read scenarioA (outputFrame "not json") = .ok st1 ∧
      st1.messages[1]? = some
        { role := "assistant", content := .str ("not json" ++ suffix), timestamp := 2,
          taskId := .str "abc", isStreaming := .bool false, structuredOutput := .null } ∧
      ((JsVal.undefined).truthy = false →
        ((JsVal.undefined).truthy && gtZero ((JsVal.undefined).getOpt "length")) = false →
        suffix = "")) ∧
    (∀ st1, handleLatest JSON.read scenarioA
        (.obj [("type", .str "output"), ("task_id", .str "abc"), ("message", .str "not json"),
          ("explanation", .num 5)]) ≠ .ok st1) :=
  ⟨by decide,
   (raw_text_fallback JSON.read scenarioA (outputFrame "not json") .undefined .undefined "abc"
    "not json" 1
    { role := "assistant", content := .str "", timestamp := 2, taskId := .str "abc",
      isStreaming := .bool true }
    (by decide) rfl rfl rfl (by decide) rfl rfl rfl rfl rfl).1,
   (raw_text_fallback JSON.read scenarioA (outputFrame "not json") .undefined .undefined "abc"
    "not json" 1
    { role := "assistant", content := .str "", timestamp := 2, taskId := .str "abc",
      isStreaming := .bool true }
    (by decide) rfl rfl rfl (by decide) rfl rfl rfl rfl rfl).2.1 (Or.inl rfl) (Or.inl rfl),
   (raw_text_fallback JSON.read scenarioA
    (.obj [("type", .str "output"), ("task_id", .str "abc"), ("message", .str "not json"),
      ("explanation", .num 5)]) (.num 5) .undefined "abc"
    "not json" 1
    { role := "assistant", content := .str "", timestamp := 2, taskId := .str "abc",
      isStreaming := .bool true }
    (by decide) rfl rfl rfl (by decide) rfl rfl rfl rfl rfl).2.2
      (Or.inl ⟨by decide, by intro e h; cases h⟩)⟩

end ChatInterface

/-! ## C9: selection of the structured payload -/

namespace ChatInterface

theorem selectStructured_eq (decoded : JsVal) :
    selectStructured decoded = .ok (specPayload decoded) := by
  cases decoded with
  | arr xs =>
    cases xs with
    | nil => simp [selectStructured, specPayload, JsVal.isArray, JsVal.getOpt, gtZero]
    | cons x rest =>
      have : (0 : Int) < (rest.length : Int) + 1 := by omega
      simp [selectStructured, specPayload, JsVal.isArray, JsVal.getOpt, gtZero, JsVal.index0,
        this]
  | _ => simp [selectStructured, specPayload, JsVal.isArray]

/-- C9: for every output message whose message field is valid JSON, the
structured payload selected by the chat view is the first element when the
decoded value is a non-empty array, and the decoded value itself in every
other case (object, empty array, string, number, boolean, null). -/
theorem structured_payload_selection (parse : String → Option JsVal)
    (latestMessage message decoded : JsVal)
    (hmsg : latestMessage.get "message" = .ok message)
    (hparse : jsonParse parse message = .ok decoded) :
    ∃ ex, extractContent parse latestMessage = .ok ex ∧
      ex.structuredOutput = specPayload decoded := by
  simp only [extractContent, hmsg, hparse, selectStructured_eq, bind, Except.bind, pure,
    Except.pure]
  split <;> exact ⟨_, rfl, rfl⟩

/-- Witness for C9: a two-element array selects its first element; an empty
array, an object, a string, a number and `null` select themselves. -/
theorem structured_payload_selection_witness :
    (∃ ex, extractContent JSON.read (outputFrame "[\x7b\"a\":1\x7d,2]") = .ok ex ∧
      ex.structuredOutput = .obj [("a", .num 1)]) ∧
    (∃ ex, extractContent JSON.read (outputFrame "[]") = .ok ex ∧
      ex.structuredOutput = .arr []) ∧
    (∃ ex, extractContent JSON.read (outputFrame "\x7b\"a\":1\x7d") = .ok ex ∧
      ex.structuredOutput = .obj [("a", .num 1)]) ∧
    (∃ ex, extractContent JSON.read (outputFrame "\"text\"") = .ok ex ∧
      ex.structuredOutput = .str "text") ∧
    (∃ ex, extractContent JSON.read (outputFrame "7") = .ok ex ∧
      ex.structuredOutput = .num 7) ∧
    (∃ ex, extractContent JSON.read (outputFrame "null") = .ok ex ∧
      ex.structuredOutput = .null) :=
  ⟨structured_payload_selection JSON.read (outputFrame "[\x7b\"a\":1\x7d,2]")
      (.str "[\x7b\"a\":1\x7d,2]") (.arr [.obj [("a", .num 1)], .num 2]) rfl (by decide),
   structured_payload_selection JSON.read (outputFrame "[]") (.str "[]") (.arr []) rfl
      (by decide),
   structured_payload_selection JSON.read (outputFrame "\x7b\"a\":1\x7d")
      (.str "\x7b\"a\":1\x7d") (.obj [("a", .num 1)]) rfl (by decide),
   structured_payload_selection JSON.read (outputFrame "\"text\"") (.str "\"text\"")
      (.str "text") rfl (by decide),
   structured_payload_selection JSON.read (outputFrame "7") (.str "7") (.num 7) rfl (by decide),
   structured_payload_selection JSON.read (outputFrame "null") (.str "null") .null rfl
      (by decide)⟩

end ChatInterface

/-! ## C10: status and subtasks messages in the task view -/

namespace TaskOrchestrator

/-- C10 (failing input): with task `A` selected, a `status` message and a
`subtasks` message that both name task `B` are applied to task `A`: the
status and progress, respectively the subtasks, of `A` are replaced in the
task list and in the selected task, and task `B` stays as it is. -/
theorem status_of_other_task_patches_selected :
    handleLatest JSON.read (fun _ => "") twoTasks
        (.obj [("type", .str "status"), ("task_id", .str "B"), ("status", .str "completed"),
          ("progress", .num 100)])
      = .ok { twoTasks with
          tasks := [taskRecord "A" "completed" 100, taskRecord "B" "running" 50]
          selectedTask := taskRecord "A" "completed" 100 } ∧
    handleLatest JSON.read (fun _ => "") twoTasks
        (.obj [("type", .str "subtasks"), ("task_id", .str "B"),
          ("subtasks", .arr [.str "step"])])
      = .ok { twoTasks with
          tasks :=
            [.obj [("id", .str "A"), ("status", .str "pending"), ("progress", .num 0),
               ("subtasks", .arr [.str "step"])],
             taskRecord "B" "running" 50]
          selectedTask :=
            .obj [("id", .str "A"), ("status", .str "pending"), ("progress", .num 0),
              ("subtasks", .arr [.str "step"])] } := by
  decide

end TaskOrchestrator

/-! ## C11: a completed status clears the loading flag -/

theorem JsVal.get_ok_any {v r : JsVal} {k : String} (h : v.get k = .ok r) (k1 : String) :
    ∃ r1, v.get k1 = .ok r1 := by
  cases v <;> simp [JsVal.get] at *

namespace ChatInterface

/-- C11: for every status message with `status == 'completed'`, whatever the
turns of the chat, the effect completes, the loading flag is false afterwards
and the turn list (like the active task id and the input) is unchanged. -/
theorem completed_status_clears_loading (parse : String → Option JsVal) (st : ChatState)
    (latestMessage : JsVal)
    (htype : latestMessage.get "type" = .ok (.str "status"))
    (hstatus : latestMessage.get "status" = .ok (.str "completed")) :
    handleLatest parse st latestMessage = .ok { st with isLoading := false } ∧
    ∀ st1, handleLatest parse st latestMessage = .ok st1 →
      st1.isLoading = false ∧ st1.messages = st.messages := by
  obtain ⟨tid, htid⟩ := JsVal.get_ok_any htype "task_id"
  have h : handleLatest parse st latestMessage = .ok { st with isLoading := false } := by
    have h1 : (JsVal.str "status").strictEq (.str "task_created") = false := by decide
    have h2 : (JsVal.str "status").strictEq (.str "output") = false := by decide
    have h3 : (JsVal.str "status").strictEq (.str "status") = true := by decide
    have h4 : (JsVal.str "completed").strictEq (.str "completed") = true := by decide
    simp [handleLatest, htype, htid, hstatus, h1, h2, h3, h4, bind, Except.bind, pure,
      Except.pure]
  refine ⟨h, ?_⟩
  intro st1 h1
  rw [h] at h1
  cases h1
  exact ⟨rfl, rfl⟩

/-- Witness for C11: after a failed submit no turn matches anything, and the
completed status still clears the loading flag. -/
theorem completed_status_clears_loading_witness :
    failedSubmit.isLoading = true ∧
    handleLatest JSON.read failedSubmit
        (.obj [("type", .str "status"), ("task_id", .str "abc"), ("status", .str "completed")])
      = .ok { failedSubmit with isLoading := false } :=
  ⟨rfl,
   (completed_status_clears_loading JSON.read failedSubmit
    (.obj [("type", .str "status"), ("task_id", .str "abc"), ("status", .str "completed")])
    rfl rfl).1⟩

end ChatInterface

/-! ## C12: messages of an unrecognised type -/

namespace ChatInterface

/-- C12: for every frame that decodes to a channel message whose `type` is none
of `task_created`, `output` and `status`, the provider appends the message to
its list, and the effect of the chat view on that list, like the handling of
the message itself, leaves the whole state of the view (turn list, active
task id, loading flag) unchanged. -/
theorem unrecognised_type_ignored (parse : String → Option JsVal) (st : ChatState)
    (messages : List JsVal) (data : String) (m type : JsVal)
    (hdec : parse data = some m)
    (htype : m.get "type" = .ok type)
    (h1 : type ≠ .str "task_created") (h2 : type ≠ .str "output")
    (h3 : type ≠ .str "status") :
    WebSocketProvider.onmessage parse messages data = .ok (messages ++ [m]) ∧
    handleLatest parse st m = .ok st ∧
    wsEffect parse st (messages ++ [m]) = .ok st := by
  obtain ⟨tid, htid⟩ := JsVal.get_ok_any htype "task_id"
  obtain ⟨status, hstatus⟩ := JsVal.get_ok_any htype "status"
  have e1 : type.strictEq (.str "task_created") = false := by
    cases h : type.strictEq (.str "task_created")
    · rfl
    · exact absurd ((JsVal.strictEq_str _ _).1 h) h1
  have e2 : type.strictEq (.str "output") = false := by
    cases h : type.strictEq (.str "output")
    · rfl
    · exact absurd ((JsVal.strictEq_str _ _).1 h) h2
  have e3 : type.strictEq (.str "status") = false := by
    cases h : type.strictEq (.str "status")
    · rfl
    · exact absurd ((JsVal.strictEq_str _ _).1 h) h3
  have hl : handleLatest parse st m = .ok st := by
    simp [handleLatest, htype, htid, hstatus, e1, e2, e3, bind, Except.bind, pure, Except.pure]
  refine ⟨?_, hl, ?_⟩
  · simp [WebSocketProvider.onmessage, WebSocketProvider.onmessageTry, jsonParse, JsVal.toStr,
      hdec, htype, bind, Except.bind, pure, Except.pure]
  · simp [wsEffect, hl]

/-- Witness for C12: a `subtasks` frame arriving in scenario A. -/
theorem unrecognised_type_ignored_witness :
    WebSocketProvider.onmessage JSON.read [outputFrame "x"]
        "\x7b\"type\":\"subtasks\",\"task_id\":\"abc\",\"subtasks\":[]\x7d"
      = .ok ([outputFrame "x"] ++
          [.obj [("type", .str "subtasks"), ("task_id", .str "abc"), ("subtasks", .arr [])]]) ∧
    handleLatest JSON.read scenarioA
        (.obj [("type", .str "subtasks"), ("task_id", .str "abc"), ("subtasks", .arr [])])
      = .ok scenarioA ∧
    wsEffect JSON.read scenarioA ([outputFrame "x"] ++
        [.obj [("type", .str "subtasks"), ("task_id", .str "abc"), ("subtasks", .arr [])]])
      = .ok scenarioA :=
  unrecognised_type_ignored JSON.read scenarioA [outputFrame "x"]
    "\x7b\"type\":\"subtasks\",\"task_id\":\"abc\",\"subtasks\":[]\x7d"
    (.obj [("type", .str "subtasks"), ("task_id", .str "abc"), ("subtasks", .arr [])])
    (.str "subtasks") (by decide) rfl (by decide) (by decide) (by decide)

end ChatInterface

/-! ## C13: sending on the channel -/

theorem JSON.stringify_eq_str (v : JsVal) (h : v ≠ .undefined) :
    ∃ text, JSON.stringify v = .str text := by
  cases v <;> simp [JSON.stringify, JSON.renderCompact] at *

namespace WebSocketProvider

/-- C13: for every message object (any value but `null` and `undefined`),
`sendMessage` hands the JSON serialization of the message to the socket
exactly once when the socket exists and its `readyState` is OPEN; in every
other state (no socket, or a socket that is connecting, closing or closed) it
hands nothing to the socket, so nothing is transmitted and nothing is queued
for later delivery; in every case it returns without throwing. -/
theorem sendMessage_only_when_open (ws : Option Socket) (message : JsVal)
    (h1 : message ≠ .null) (h2 : message ≠ .undefined) :
    (∀ socket, ws = some socket → socket.readyState = OPEN →
      sendMessage ws message = .ok [JSON.stringify message] ∧
      ∃ text, JSON.stringify message = .str text) ∧
    ((∀ socket, ws = some socket → socket.readyState ≠ OPEN) →
      sendMessage ws message = .ok []) ∧
    (∃ calls, sendMessage ws message = .ok calls) := by
  obtain ⟨type, htype⟩ := JsVal.get_eq_ok message "type" h1 h2
  obtain ⟨text, htext⟩ := JSON.stringify_eq_str message h2
  have hopen : ∀ socket, ws = some socket → socket.readyState = OPEN →
      sendMessage ws message = .ok [JSON.stringify message] := by
    intro socket hws hst
    subst hws
    simp only [sendMessage, hst, if_true, htype, htext, bind, Except.bind, pure, Except.pure]
    simp [JsVal.get]
  have hother : (∀ socket, ws = some socket → socket.readyState ≠ OPEN) →
      sendMessage ws message = .ok [] := by
    intro hno
    cases ws with
    | none => simp [sendMessage, htype, bind, Except.bind, pure, Except.pure]
    | some socket =>
      have := hno socket rfl
      simp [sendMessage, this, htype, bind, Except.bind, pure, Except.pure]
  refine ⟨fun socket hws hst => ⟨hopen socket hws hst, text, htext⟩, hother, ?_⟩
  cases ws with
  | none => exact ⟨[], hother (by simp)⟩
  | some socket =>
    by_cases hst : socket.readyState = OPEN
    · exact ⟨_, hopen socket rfl hst⟩
    · exact ⟨[], hother (by
        intro s hs
        cases hs
        exact hst)⟩

/-- Witness for C13: the `subscribe_task` frame of scenario A on an open
socket, on a connecting socket and without a socket. -/
theorem sendMessage_only_when_open_witness :
    sendMessage (some { readyState := 1 })
        (.obj [("type", .str "subscribe_task"), ("taskId", .str "abc")])
      = .ok [.str "\x7b\"type\":\"subscribe_task\",\"taskId\":\"abc\"\x7d"] ∧
    sendMessage (some { readyState := 0 })
        (.obj [("type", .str "subscribe_task"), ("taskId", .str "abc")]) = .ok [] ∧
    sendMessage none (.obj [("type", .str "subscribe_task"), ("taskId", .str "abc")])
      = .ok [] :=
  ⟨((sendMessage_only_when_open (some { readyState := 1 })
      (.obj [("type", .str "subscribe_task"), ("taskId", .str "abc")])
      (by decide) (by decide)).1 { readyState := 1 } rfl rfl).1,
   (sendMessage_only_when_open (some { readyState := 0 })
      (.obj [("type", .str "subscribe_task"), ("taskId", .str "abc")])
      (by decide) (by decide)).2.1 (by
        intro s hs
        cases hs
        decide),
   (sendMessage_only_when_open none
      (.obj [("type", .str "subscribe_task"), ("taskId", .str "abc")])
      (by decide) (by decide)).2.1 (by
        intro s hs
        cases hs)⟩

end WebSocketProvider

/-! ## C14: the connection state -/

namespace WebSocketProvider

theorem handleEvent_ok (parse : String → Option JsVal) (ch : Channel) (e : SocketEvent) :
    ∃ ch1, handleEvent parse ch e = .ok ch1 ∧
      ch1.isConnected = (match e with
        | .opened => true
        | .closed => false
        | .errored => false
        | .frame _ => ch.isConnected) := by
  cases e with
  | opened => exact ⟨_, rfl, rfl⟩
  | closed => exact ⟨_, rfl, rfl⟩
  | errored => exact ⟨_, rfl, rfl⟩
  | frame data =>
    simp only [handleEvent, onmessage]
    cases onmessageTry parse ch.messages data <;> exact ⟨_, rfl, rfl⟩

theorem handleEvents_append (parse : String → Option JsVal) :
    ∀ (events : List SocketEvent) (ch : Channel) (e : SocketEvent),
      handleEvents parse ch (events ++ [e])
        = (handleEvents parse ch events).bind fun ch1 => handleEvent parse ch1 e := by
  intro events
  induction events with
  | nil =>
    intro ch e
    simp only [List.nil_append, handleEvents, Except.bind]
    cases handleEvent parse ch e <;> rfl
  | cons a rest ih =>
    intro ch e
    simp only [List.cons_append, handleEvents]
    cases handleEvent parse ch a with
    | error err => rfl
    | ok ch1 => exact ih ch1 e

theorem handleEvents_ok (parse : String → Option JsVal) :
    ∀ (events : List SocketEvent) (ch : Channel), ∃ ch1, handleEvents parse ch events = .ok ch1 := by
  intro events
  induction events with
  | nil => exact fun ch => ⟨ch, rfl⟩
  | cons a rest ih =>
    intro ch
    obtain ⟨ch1, h1, _⟩ := handleEvent_ok parse ch a
    obtain ⟨ch2, h2⟩ := ih ch1
    exact ⟨ch2, by simp only [handleEvents, h1, h2]⟩

/-- C14: the channel's connection state is Disconnected (`isConnected = false`)
initially; whatever events came before, it is Connected after an open event
and Disconnected after a close event and after an error event (on which the
transport runs the close handler before the error handler); a frame leaves it
as it was; and no sequence of events makes a handler throw. -/
theorem connection_state_follows_events (parse : String → Option JsVal)
    (events : List SocketEvent) :
    initialChannel.isConnected = false ∧
    (∃ ch, handleEvents parse initialChannel (events ++ [.opened]) = .ok ch ∧
      ch.isConnected = true) ∧
    (∃ ch, handleEvents parse initialChannel (events ++ [.closed]) = .ok ch ∧
      ch.isConnected = false) ∧
    (∃ ch, handleEvents parse initialChannel (events ++ [.errored]) = .ok ch ∧
      ch.isConnected = false) ∧
    (∀ data, ∃ ch0 ch, handleEvents parse initialChannel events = .ok ch0 ∧
      handleEvents parse initialChannel (events ++ [.frame data]) = .ok ch ∧
      ch.isConnected = ch0.isConnected) ∧
    handleEvents JSON.read initialChannel [.opened, .errored]
      = .ok { isConnected := false, messages := [] } ∧
    handleEvents JSON.read initialChannel [.errored, .opened, .frame "1", .closed, .opened]
      = .ok { isConnected := true, messages := [.num 1] } := by
  obtain ⟨ch0, h0⟩ := handleEvents_ok parse events initialChannel
  have hlast : ∀ e, ∃ ch, handleEvents parse initialChannel (events ++ [e]) = .ok ch ∧
      ch.isConnected = (match e with
        | .opened => true
        | .closed => false
        | .errored => false
        | .frame _ => ch0.isConnected) := by
    intro e
    obtain ⟨ch, h1, h2⟩ := handleEvent_ok parse ch0 e
    exact ⟨ch, by rw [handleEvents_append, h0]; exact h1, h2⟩
  refine ⟨rfl, hlast .opened, hlast .closed, hlast .errored, ?_, by decide, by decide⟩
  intro data
  obtain ⟨ch, h1, h2⟩ := hlast (.frame data)
  exact ⟨ch0, ch, h0, h1, h2⟩

end WebSocketProvider

/-! ## C15 and C16: saving and loading a chat -/

namespace ChatInterface

/-- The result of `saveCurrentChat` on a non-empty chat whose title can be
built: the saved chat in front of the first 49 of the other saved chats. -/
theorem saveCurrentChat_eq (now : Nat) (iso : String) (stored : Bool) (messages : List Turn)
    (h : History) (title : JsVal) (hne : messages ≠ []) (ht : chatTitle messages = .ok title) :
    saveCurrentChat now iso stored messages h = .ok
      { history :=
          { savedChats :=
              { id := chatIdFor now h.currentChatId, title := title, messages := messages,
                timestamp := iso } ::
              (h.savedChats.filter fun chat => chat.id != chatIdFor now h.currentChatId).take 49
            currentChatId := some (chatIdFor now h.currentChatId) }
        notification :=
          if stored then some ("success", "Chat saved to history")
          else some ("error", "Failed to save chat") } := by
  have hlen : ¬ messages.length = 0 := by
    intro h0
    exact hne (List.length_eq_zero.1 h0)
  simp only [saveCurrentChat, hlen, if_false, ht, bind, Except.bind, pure, Except.pure]
  by_cases hbig :
      (h.savedChats.filter fun chat => chat.id != chatIdFor now h.currentChatId).length + 1 > 50
  · simp [hbig, List.take_succ_cons]
  · have hle :
        (h.savedChats.filter fun chat => chat.id != chatIdFor now h.currentChatId).length ≤ 49 := by
      omega
    simp [hbig, List.take_of_length_le hle]

theorem saveCurrentChat_ok_title (now : Nat) (iso : String) (stored : Bool)
    (messages : List Turn) (h : History) (s : Saved) (hne : messages ≠ [])
    (hs : saveCurrentChat now iso stored messages h = .ok s) :
    ∃ title, chatTitle messages = .ok title := by
  have hlen : ¬ messages.length = 0 := by
    intro h0
    exact hne (List.length_eq_zero.1 h0)
  cases ht : chatTitle messages with
  | ok title => exact ⟨title, rfl⟩
  | error e => simp [saveCurrentChat, hlen, ht, bind, Except.bind] at hs

/-- C15: for every non-empty list of ConversationTurns, `saveCurrentChat`
returns when the first turn has a string content, and whenever it returns,
`loadChat` with the id under which the chat was saved (the current chat id
after saving) restores, whatever the turn list has become in between, a turn
list identical to the saved one. -/
theorem save_then_load_restores (now : Nat) (iso : String) (stored : Bool)
    (messages : List Turn) (h : History) (hne : messages ≠ []) :
    ((∃ c, (messages.head?).map (fun t => t.content) = some (.str c)) →
      ∃ s, saveCurrentChat now iso stored messages h = .ok s) ∧
    ∀ s, saveCurrentChat now iso stored messages h = .ok s →
      ∃ id, s.history.currentChatId = some id ∧
        ∀ current, (loadChat id current s.history).messages = messages := by
  constructor
  · rintro ⟨c, hc⟩
    cases messages with
    | nil => exact absurd rfl hne
    | cons first rest =>
      simp at hc
      have ht : chatTitle (first :: rest)
          = .ok ((JsVal.str (String.mk (c.data.take 50))).or (.str "New Chat")) := by
        simp [chatTitle, hc]
      exact ⟨_, saveCurrentChat_eq now iso stored (first :: rest) h _ hne ht⟩
  · intro s hs
    obtain ⟨title, ht⟩ := saveCurrentChat_ok_title now iso stored messages h s hne hs
    rw [saveCurrentChat_eq now iso stored messages h title hne ht] at hs
    cases hs
    refine ⟨chatIdFor now h.currentChatId, rfl, ?_⟩
    intro current
    simp [loadChat]

/-- Witness for C15: the chat of scenario B saved at time 1000 and loaded again
over an empty turn list. -/
theorem save_then_load_restores_witness :
    ∃ s, saveCurrentChat 1000 "2026-11-05T00:00:00.000Z" true scenarioB.messages
        { savedChats := [], currentChatId := none } = .ok s ∧
      s.history.currentChatId = some "1000" ∧
      (loadChat "1000" [] s.history).messages = scenarioB.messages := by
  obtain ⟨h1, h2⟩ := save_then_load_restores 1000 "2026-11-05T00:00:00.000Z" true
    scenarioB.messages { savedChats := [], currentChatId := none } (by decide)
  obtain ⟨s, hs⟩ := h1 ⟨"hello", rfl⟩
  obtain ⟨id, hid, hload⟩ := h2 s hs
  have hs1 : s.history.currentChatId = some "1000" := by
    have hd : saveCurrentChat 1000 "2026-11-05T00:00:00.000Z" true scenarioB.messages
        { savedChats := [], currentChatId := none } = .ok
          { history :=
              { savedChats :=
                  [{ id := "1000", title := .str "hello", messages := scenarioB.messages,
                     timestamp := "2026-11-05T00:00:00.000Z" }]
                currentChatId := some "1000" }
            notification := some ("success", "Chat saved to history") } := by decide
    rw [hd] at hs
    cases hs
    rfl
  rw [hs1] at hid
  cases hid
  exact ⟨s, hs, hs1, hload []⟩

/-- C16: after every `saveCurrentChat` on a non-empty chat (that is, whenever
the call returns on a non-empty turn list), the saved-chat list has at most
50 entries; the chat just saved is its first entry; no other
entry has the same id; and the remaining entries are the first 49 of the
previously saved chats with another id, in their previous order (the list is
most-recent-first, so the ones dropped are the oldest). -/
theorem saved_chats_capped_and_fresh_first (now : Nat) (iso : String) (stored : Bool)
    (messages : List Turn) (h : History) (s : Saved) (hne : messages ≠ [])
    (hs : saveCurrentChat now iso stored messages h = .ok s) :
    s.history.savedChats.length ≤ 50 ∧
    ∃ saved rest, s.history.savedChats = saved :: rest ∧
      saved.messages = messages ∧
      s.history.currentChatId = some saved.id ∧
      (∀ c ∈ rest, c.id ≠ saved.id) ∧
      rest = (h.savedChats.filter fun c => c.id != saved.id).take 49 ∧
      List.Sublist rest h.savedChats := by
  obtain ⟨title, ht⟩ := saveCurrentChat_ok_title now iso stored messages h s hne hs
  rw [saveCurrentChat_eq now iso stored messages h title hne ht] at hs
  cases hs
  refine ⟨?_, _, _, rfl, rfl, rfl, ?_, rfl, ?_⟩
  · simp only [List.length_cons, List.length_take]
    omega
  · intro c hc
    have hmem := List.mem_of_mem_take hc
    simp only [List.mem_filter] at hmem
    simpa using hmem.2
  · exact (List.take_sublist _ _).trans (List.filter_sublist _)

end ChatInterface

namespace ChatInterface

/-- Witness for C16: saving the current chat `1000` again into a full history
of fifty chats puts it first, removes its older copy and keeps the other 49
chats in order. -/
theorem saved_chats_capped_and_fresh_first_witness :
    fullHistory.savedChats.length = 50 ∧
    saveCurrentChat 2000 "2026-11-06T00:00:00.000Z" true secondExchangeDone.messages fullHistory
      = .ok fullHistorySaved ∧
    fullHistorySaved.history.savedChats.length ≤ 50 ∧
    ∃ saved rest, fullHistorySaved.history.savedChats = saved :: rest ∧
      saved.messages = secondExchangeDone.messages ∧
      fullHistorySaved.history.currentChatId = some saved.id ∧
      (∀ c ∈ rest, c.id ≠ saved.id) ∧
      rest = (fullHistory.savedChats.filter fun c => c.id != saved.id).take 49 ∧
      List.Sublist rest fullHistory.savedChats :=
  ⟨by decide, by decide,
   saved_chats_capped_and_fresh_first 2000 "2026-11-06T00:00:00.000Z" true
    secondExchangeDone.messages fullHistory fullHistorySaved (by decide) (by decide)⟩

end ChatInterface

/-! ## C17: removing a notification -/

theorem JsVal.strictEq_num (a : Int) (v : JsVal) :
    (JsVal.num a).strictEq v = true ↔ v = .num a := by
  cases v with
  | num b =>
    simp only [JsVal.strictEq, beq_iff_eq, JsVal.num.injEq]
    exact eq_comm
  | _ => simp [JsVal.strictEq]

namespace NotificationProvider

/-- C17: `removeNotification` is idempotent and safe on unknown ids: for every
notification list `L` and id `i` it returns a list (it cannot throw) that
holds no notification of id `i`; removing `i` a second time leaves that list
unchanged; and removing an id that no notification of `L` has returns `L`
unchanged. -/
theorem removeNotification_idempotent (i : JsVal) (L : List Notification) :
    (∀ n ∈ removeNotification i L, JsVal.num n.id ≠ i) ∧
    removeNotification i (removeNotification i L) = removeNotification i L ∧
    ((∀ n ∈ L, JsVal.num n.id ≠ i) → removeNotification i L = L) ∧
    List.Sublist (removeNotification i L) L ∧
    (∀ n ∈ L, JsVal.num n.id ≠ i → n ∈ removeNotification i L) := by
  refine ⟨?_, ?_, ?_, ?_, ?_⟩
  · intro n hn heq
    simp only [removeNotification, List.mem_filter] at hn
    have := (JsVal.strictEq_num n.id i).2 heq.symm
    simp [this] at hn
  · simp [removeNotification, List.filter_filter]
  · intro h
    simp only [removeNotification, List.filter_eq_self]
    intro n hn
    cases hs : (JsVal.num n.id).strictEq i
    · rfl
    · exact absurd ((JsVal.strictEq_num n.id i).1 hs).symm (h n hn)
  · exact List.filter_sublist _
  · intro n hn hne
    simp only [removeNotification, List.mem_filter]
    refine ⟨hn, ?_⟩
    cases hs : (JsVal.num n.id).strictEq i
    · rfl
    · exact absurd ((JsVal.strictEq_num n.id i).1 hs).symm hne

/-- Witness for C17: removing the unknown id 7 from a list of two
notifications returns the list as it is. -/
theorem removeNotification_idempotent_witness :
    removeNotification (.num 7)
        [{ id := 1000, message := .str "a", type := .str "info", duration := .num 5000 },
         { id := 2000, message := .str "b", type := .str "error", duration := .num 0 }]
      = [{ id := 1000, message := .str "a", type := .str "info", duration := .num 5000 },
         { id := 2000, message := .str "b", type := .str "error", duration := .num 0 }] :=
  (removeNotification_idempotent (.num 7)
    [{ id := 1000, message := .str "a", type := .str "info", duration := .num 5000 },
     { id := 2000, message := .str "b", type := .str "error", duration := .num 0 }]).2.2.1
    (by decide)

end NotificationProvider

/-! ## C18: the ids of notifications -/

namespace NotificationProvider

/-- C18 (failing input): two `addNotification` calls made while `Date.now()` is
1000 put two notifications with the same id 1000 in the list, and removing
the first one (by dismissal, or by its timer after 5000 ms) removes the
sticky second one as well. -/
theorem same_millisecond_same_id :
    (addNotification 1000 (.str "Chat saved") (.str "success") .undefined
      (addNotification 1000 (.str "Upload failed") (.str "error") (.num 0) []).notifications
      ).notifications
      = [{ id := 1000, message := .str "Upload failed", type := .str "error",
           duration := .num 0 },
         { id := 1000, message := .str "Chat saved", type := .str "success",
           duration := .num 5000 }] ∧
    (addNotification 1000 (.str "Chat saved") (.str "success") .undefined
      (addNotification 1000 (.str "Upload failed") (.str "error") (.num 0) []).notifications
      ).timer = some (.num 5000, 1000) ∧
    removeNotification (.num 1000)
      [{ id := 1000, message := .str "Upload failed", type := .str "error",
         duration := .num 0 },
       { id := 1000, message := .str "Chat saved", type := .str "success",
         duration := .num 5000 }] = [] := by
  decide

end NotificationProvider

/-! ## C19: adding a notification -/

namespace NotificationProvider

/-- C19: `addNotification(message, type, duration)` appends one notification
`{id, message, type, duration}` at the end of the list and returns its id (the
value of `Date.now()`); `type` defaults to `'info'` and `duration` to 5000 when
left out; and, for a numeric duration, the removal of that id is scheduled
after `duration` ms if and only if `duration > 0` (with `duration <= 0` no
timer is started). -/
theorem addNotification_appends_and_schedules (now : Int) (message type duration : JsVal)
    (notifications : List Notification) :
    (∃ n, (addNotification now message type duration notifications).notifications
        = notifications ++ [n] ∧
      n.id = now ∧ n.message = message ∧
      (type ≠ .undefined → n.type = type) ∧ (type = .undefined → n.type = .str "info") ∧
      (duration ≠ .undefined → n.duration = duration) ∧
      (duration = .undefined → n.duration = .num 5000)) ∧
    (addNotification now message type duration notifications).id = now ∧
    (duration = .undefined →
      (addNotification now message type duration notifications).timer
        = some (.num 5000, now)) ∧
    (∀ d : Int, duration = .num d →
      (0 < d → (addNotification now message type duration notifications).timer
        = some (.num d, now)) ∧
      (d ≤ 0 → (addNotification now message type duration notifications).timer = none)) := by
  refine ⟨⟨_, rfl, rfl, rfl, ?_, ?_, ?_, ?_⟩, rfl, ?_, ?_⟩
  · intro h
    simp [h]
  · intro h
    simp [h]
  · intro h
    simp [h]
  · intro h
    simp [h]
  · intro h
    subst h
    simp [addNotification, gtZero]
  · intro d h
    subst h
    constructor
    · intro hd
      simp [addNotification, gtZero, hd]
    · intro hd
      have : ¬ 0 < d := by omega
      simp [addNotification, gtZero, this]

/-- Witness for C19: an error shown without a duration gets the default 5000
and a timer; a notification with duration 0 is sticky. -/
theorem addNotification_appends_and_schedules_witness :
    (addNotification 1000 (.str "Failed to load providers") (.str "error") .undefined []).timer
      = some (.num 5000, 1000) ∧
    (addNotification 1000 (.str "Pinned") .undefined (.num 0) []).timer = none ∧
    (addNotification 1000 (.str "Short") .undefined (.num 200) []).timer
      = some (.num 200, 1000) :=
  ⟨(addNotification_appends_and_schedules 1000 (.str "Failed to load providers") (.str "error")
      .undefined []).2.2.1 rfl,
   ((addNotification_appends_and_schedules 1000 (.str "Pinned") .undefined (.num 0) []).2.2.2
      0 rfl).2 (by decide),
   ((addNotification_appends_and_schedules 1000 (.str "Short") .undefined (.num 200) []).2.2.2
      200 rfl).1 (by decide)⟩

end NotificationProvider

/-! ## C20: the cap of the log buffer -/

namespace Logger

theorem lastN_length (m : Nat) (l : List LogEntry) : (lastN m l).length ≤ m := by
  simp only [lastN, List.length_drop]
  omega

theorem pushCapped_eq_lastN (m : Nat) (logs : List LogEntry) (e : LogEntry)
    (h : logs.length ≤ m) : pushCapped m logs e = lastN m (logs ++ [e]) := by
  unfold pushCapped lastN
  by_cases hbig : (logs ++ [e]).length > m
  · have hlen : (logs ++ [e]).length - m = 1 := by
      simp only [List.length_append, List.length_singleton] at hbig ⊢
      omega
    rw [if_pos hbig, hlen, List.drop_one]
  · have hlen : (logs ++ [e]).length - m = 0 := by omega
    rw [if_neg hbig, hlen, List.drop_zero]

theorem lastN_append_singleton (m : Nat) (l : List LogEntry) (e : LogEntry) :
    lastN m (lastN m l ++ [e]) = lastN m (l ++ [e]) := by
  unfold lastN
  by_cases hm : m = 0
  · subst hm
    simp
  · by_cases hle : l.length ≤ m
    · have h0 : l.length - m = 0 := by omega
      simp [h0]
    · have h1 : (List.drop (l.length - m) l ++ [e]).length - m = 1 := by
        simp only [List.length_append, List.length_drop, List.length_singleton]
        omega
      have h2 : (l ++ [e]).length - m = (l.length - m) + 1 := by
        simp only [List.length_append, List.length_singleton]
        omega
      have h3 : l.length - m + 1 ≤ l.length := by omega
      have h4 : 1 ≤ (List.drop (l.length - m) l).length := by
        simp only [List.length_drop]
        omega
      rw [h1, h2, List.drop_append_of_le_length h4, List.drop_append_of_le_length h3,
        List.drop_drop]

theorem recordAll_logs : ∀ (rs : List Record) (lg : State) (before : List LogEntry),
    lg.logs = lastN lg.maxLogs before →
      (recordAll lg rs).logs = lastN lg.maxLogs (before ++ rs.map Record.entry) ∧
      (recordAll lg rs).maxLogs = lg.maxLogs := by
  intro rs
  induction rs with
  | nil =>
    intro lg before h
    simp [recordAll, h]
  | cons r later ih =>
    intro lg before h
    have hstep : (createLogEntry r.host r.level r.message r.data lg).1.logs
        = lastN lg.maxLogs (before ++ [r.entry]) := by
      simp only [createLogEntry, Record.entry]
      rw [pushCapped_eq_lastN _ _ _ (by rw [h]; exact lastN_length _ _), h,
        lastN_append_singleton]
    have := ih (createLogEntry r.host r.level r.message r.data lg).1 (before ++ [r.entry])
      (by rw [hstep]; rfl)
    simp only [recordAll]
    refine ⟨?_, ?_⟩
    · rw [this.1]
      simp [createLogEntry]
    · rw [this.2]
      rfl

/-- C20: the log buffer of the logger never holds more than `maxLogs` (1000)
entries: after any records it holds the last 1000 of them in arrival order;
recording `maxLogs + 1` records into the empty buffer leaves exactly 1000
entries, all but the first one, in arrival order; and each record on a full
buffer drops exactly the oldest entry and appends the new one at the end. -/
theorem log_buffer_capped (rs : List Record) :
    (recordAll initial rs).logs.length ≤ 1000 ∧
    (recordAll initial rs).logs = lastN 1000 (rs.map Record.entry) ∧
    (rs.length = 1000 + 1 →
      (recordAll initial rs).logs.length = 1000 ∧
      (recordAll initial rs).logs = (rs.map Record.entry).tail) ∧
    (∀ (host : Host) (level : String) (message data : JsVal) (lg : State),
      0 < lg.maxLogs → lg.logs.length = lg.maxLogs →
        (createLogEntry host level message data lg).1.logs
          = lg.logs.tail ++ [entryOf host level message data] ∧
        (createLogEntry host level message data lg).1.logs.length = lg.maxLogs) := by
  have h := (recordAll_logs rs initial [] (by simp [initial, lastN])).1
  simp only [List.nil_append] at h
  have hmax : initial.maxLogs = 1000 := rfl
  rw [hmax] at h
  refine ⟨?_, h, ?_, ?_⟩
  · rw [h]
    exact lastN_length _ _
  · intro hlen
    rw [h]
    have h1 : (rs.map Record.entry).length - 1000 = 1 := by
      simp only [List.length_map]
      omega
    simp only [lastN, h1, List.drop_one]
    constructor
    · simp only [List.length_tail, List.length_map]
      omega
    · trivial
  · intro host level message data lg hpos hfull
    have hbig : (lg.logs ++ [entryOf host level message data]).length > lg.maxLogs := by
      simp only [List.length_append, List.length_singleton]
      omega
    have hne : lg.logs ≠ [] := by
      intro he
      rw [he] at hfull
      simp at hfull
      omega
    simp only [createLogEntry, pushCapped, if_pos hbig]
    cases hl : lg.logs with
    | nil => exact absurd hl hne
    | cons a rest =>
      rw [hl] at hfull
      simp only [List.cons_append, List.tail_cons, List.length_append, List.length_singleton]
      simp only [List.length_cons] at hfull
      exact ⟨trivial, hfull⟩

/-- Witness for C20: 1001 numbered records into the empty buffer leave the
records 1 to 1000, the record 0 being evicted. -/
theorem log_buffer_capped_witness :
    ((List.range 1001).map numbered).length = 1000 + 1 ∧
    (recordAll initial ((List.range 1001).map numbered)).logs.length = 1000 ∧
    (recordAll initial ((List.range 1001).map numbered)).logs
      = (((List.range 1001).map numbered).map Record.entry).tail :=
  ⟨by simp,
   ((log_buffer_capped ((List.range 1001).map numbered)).2.2.1 (by simp)).1,
   ((log_buffer_capped ((List.range 1001).map numbered)).2.2.1 (by simp)).2⟩

end Logger

/-! ## C21: the entries the logging dashboard shows for a threshold -/

namespace Logger

theorem getLogs_eq_lastN (lg : State) : getLogs 200 lg = lastN 200 lg.logs := by
  simp [getLogs, sliceFrom, lastN]

theorem crowded_logs :
    crowded.logs = ({ numbered 0 with level := "ERROR" } : Record).entry ::
      (List.range 200).map fun i => (numbered (i + 1)).entry := by
  have h := (recordAll_logs
    ({ numbered 0 with level := "ERROR" } :: (List.range 200).map fun i => numbered (i + 1))
    initial [] (by simp [initial, lastN])).1
  have hmax : initial.maxLogs = 1000 := rfl
  rw [hmax] at h
  simp only [crowded, h, lastN]
  simp [Function.comp_def]

end Logger

namespace LoggingDashboard

open Logger

/-- C21 (as stated, refuted): after one ERROR record followed by 200 INFO
records the buffer holds 201 entries, the first of them at level ERROR, yet
the dashboard shows no entry for the threshold ERROR: the ERROR entry is still
buffered but lies before the last 200 entries that the dashboard fetches. -/
theorem dashboard_misses_older_entries :
    crowded.logs.length = 201 ∧
    crowded.logs.head?.map (fun e => e.level) = some "ERROR" ∧
    crowded.logs.filter (fun e => geLevel (levels e.level) (levels "ERROR")) ≠ [] ∧
    filteredLogs "ERROR" crowded = [] := by
  have hlast : lastN 200 crowded.logs
      = (List.range 200).map fun i => (numbered (i + 1)).entry := by
    rw [crowded_logs]
    simp [lastN]
  refine ⟨by simp [crowded_logs], by simp [crowded_logs, Record.entry, entryOf], ?_, ?_⟩
  · rw [crowded_logs]
    simp [List.filter_cons, Record.entry, entryOf, levels, logLevels, geLevel]
  · simp only [filteredLogs, updateLogs, getLogs_eq_lastN, hlast, filterLogs]
    rw [List.filter_eq_nil_iff]
    intro e he
    simp only [List.mem_map] at he
    obtain ⟨i, _, rfl⟩ := he
    simp [Record.entry, entryOf, numbered, levels, logLevels, geLevel]

/-- C21 (amended): for every logger and every threshold among DEBUG, INFO,
WARN and ERROR (rank `k`), the dashboard shows exactly those of the last 200
buffered entries whose level is at or above the threshold, in their arrival
order: the shown list is the filter of the last 200 entries, it is a sublist
of the buffer (nothing added or reordered), an entry among the last 200 is
shown if and only if its level has a rank of at least `k`, and when the buffer
holds at most 200 entries the shown list is the filter of the whole buffer. -/
theorem dashboard_filters_last_200 (lg : State) (logLevel : String) (k : Nat)
    (hlevel : levels logLevel = some (.rank k)) :
    filteredLogs logLevel lg
      = (lastN 200 lg.logs).filter (fun e => geLevel (levels e.level) (some (.rank k))) ∧
    List.Sublist (filteredLogs logLevel lg) lg.logs ∧
    (∀ e ∈ lastN 200 lg.logs,
      e ∈ filteredLogs logLevel lg ↔ ∃ j, levels e.level = some (.rank j) ∧ k ≤ j) ∧
    (lg.logs.length ≤ 200 →
      filteredLogs logLevel lg
        = lg.logs.filter (fun e => geLevel (levels e.level) (some (.rank k)))) := by
  have heq : filteredLogs logLevel lg
      = (lastN 200 lg.logs).filter (fun e => geLevel (levels e.level) (some (.rank k))) := by
    simp only [filteredLogs, updateLogs, getLogs_eq_lastN, filterLogs, hlevel]
  have hge : ∀ v : Option LevelValue,
      geLevel v (some (.rank k)) = true ↔ ∃ j, v = some (.rank j) ∧ k ≤ j := by
    intro v
    rcases v with _ | (j | name) <;> simp [geLevel]
  refine ⟨heq, ?_, ?_, ?_⟩
  · rw [heq]
    exact (List.filter_sublist _).trans (List.drop_sublist _ _)
  · intro e he
    rw [heq, List.mem_filter, hge]
    exact ⟨fun h => h.2, fun h => ⟨he, h⟩⟩
  · intro hlen
    rw [heq]
    have h0 : lg.logs.length - 200 = 0 := by omega
    simp [lastN, h0]

/-- Witness for C21 (amended): the threshold ERROR on the logger that took one
ERROR record and then 200 INFO records. -/
theorem dashboard_filters_last_200_witness :
    levels "ERROR" = some (.rank 3) ∧
    List.Sublist (filteredLogs "ERROR" crowded) crowded.logs ∧
    (filteredLogs "WARN" (recordAll initial [numbered 0, { numbered 1 with level := "WARN" }])
      = [({ numbered 1 with level := "WARN" } : Record).entry]) :=
  ⟨by decide, (dashboard_filters_last_200 crowded "ERROR" 3 (by decide)).2.1,
   ((dashboard_filters_last_200
      (recordAll initial [numbered 0, { numbered 1 with level := "WARN" }]) "WARN" 2
      (by decide)).2.2.2 (by decide)).trans (by decide)⟩

end LoggingDashboard

/-! ## C22: the view selected by the URL hash -/

namespace App

theorem viewsAt_truthy (key : String) :
    (viewsAt key).truthy = true ↔ key ∈ views.map Prod.fst ∨ key ∈ objectPrototypeNames := by
  by_cases hreg : key ∈ views.map Prod.fst
  · have : (viewsAt key).truthy = true := by
      simp only [views, List.map_cons, List.map_nil, List.mem_cons, List.mem_singleton,
        List.not_mem_nil, or_false] at hreg
      rcases hreg with h | h | h | h | h | h | h | h | h | h | h | h | h <;> subst h <;> decide
    simp [this, hreg]
  · have hnone : views.lookup key = none := by
      rw [List.lookup_eq_none_iff]
      intro p hp
      simp only [bne_iff_ne, ne_eq]
      intro hk
      exact hreg (List.mem_map.mpr ⟨p, hp, hk.symm⟩)
    by_cases hin : key ∈ objectPrototypeNames <;> simp [viewsAt, hnone, hin, hreg, Member.truthy]

/-- C22 (code defect): the hash `#constructor` names none of the thirteen
registered views, yet the initial view is `constructor`, not `chat`, and the
value rendered as the view component is the member `constructor` that the
object `views` inherits from `Object.prototype`, not a registered component;
the same happens on a later change of the hash (here to `#toString`).  In
general the initial view is the hash name whenever that name is a registered
view name or a name of `Object.prototype`, and `chat` otherwise; registered
names, the empty hash and other unknown names behave as specified. -/
theorem inherited_name_selected_as_view :
    views.length = 13 ∧
    views.lookup "constructor" = none ∧
    getInitialView "#constructor" = "constructor" ∧
    currentViewComponent (getInitialView "#constructor") = .inherited "constructor" ∧
    handleHashChange "#toString" "chat" = "toString" ∧
    currentViewComponent (handleHashChange "#toString" "chat") = .inherited "toString" ∧
    getInitialView "#agents" = "agents" ∧
    currentViewComponent (getInitialView "#agents") = .component "AgentStatusDashboard" ∧
    getInitialView "" = "chat" ∧ getInitialView "#" = "chat" ∧
    getInitialView "#nope" = "chat" ∧
    (∀ locationHash : String,
      getInitialView locationHash =
        if hashName locationHash ∈ views.map Prod.fst
            ∨ hashName locationHash ∈ objectPrototypeNames
        then hashName locationHash else "chat") := by
  refine ⟨by decide, by decide, by decide, by decide, by decide, by decide, by decide,
    by decide, by decide, by decide, by decide, ?_⟩
  intro locationHash
  have hempty : (JsVal.str "").truthy = false := by decide
  by_cases hne : hashName locationHash = ""
  · have h1 : hashName locationHash ∉ views.map Prod.fst := by
      rw [hne]
      decide
    have h2 : hashName locationHash ∉ objectPrototypeNames := by
      rw [hne]
      decide
    simp only [getInitialView, hne, hempty, Bool.false_and, h1, h2, or_self, if_false]
    rfl
  · have ht : (JsVal.str (hashName locationHash)).truthy = true := JsVal.truthy_str hne
    by_cases hv : hashName locationHash ∈ views.map Prod.fst
        ∨ hashName locationHash ∈ objectPrototypeNames
    · simp only [getInitialView, ht, (viewsAt_truthy _).mpr hv, Bool.and_self, if_true, hv]
    · have hf : (viewsAt (hashName locationHash)).truthy = false := by
        rw [← Bool.not_eq_true, viewsAt_truthy]
        exact hv
      simp only [getInitialView, ht, hf, Bool.and_false, hv, if_false]
      rfl

end App

/-! ## C23: what a submit appends and sends -/

namespace JsStr

theorem head?_dropWhile_not (p : Char → Bool) (l : List Char) (c : Char)
    (h : (l.dropWhile p).head? = some c) : p c = false := by
  induction l with
  | nil => simp at h
  | cons a rest ih =>
    by_cases hp : p a = true
    · simp only [List.dropWhile_cons, hp, if_true] at h
      exact ih h
    · simp only [List.dropWhile_cons, hp, Bool.false_eq_true, if_false, List.head?_cons,
        Option.some.injEq] at h
      subst h
      simpa using hp

/-- The trimmed text is the text without a white-space prefix and a white-space
suffix, and neither starts nor ends with white space. -/
theorem trim_spec (l : List Char) :
    ∃ pre post, l = pre ++ trim l ++ post ∧
      (∀ c ∈ pre, isSpace c = true) ∧ (∀ c ∈ post, isSpace c = true) ∧
      (∀ c, (trim l).head? = some c → isSpace c = false) ∧
      (∀ c, (trim l).getLast? = some c → isSpace c = false) := by
  have hsplit : l.dropWhile isSpace = trim l ++
      ((l.dropWhile isSpace).reverse.takeWhile isSpace).reverse := by
    have h := List.takeWhile_append_dropWhile isSpace (l.dropWhile isSpace).reverse
    have h2 := congrArg List.reverse h
    rw [List.reverse_append, List.reverse_reverse] at h2
    exact h2.symm
  have hlast : ∀ c, (trim l).getLast? = some c → isSpace c = false := by
    intro c hc
    rw [trim, List.getLast?_reverse] at hc
    exact head?_dropWhile_not isSpace _ c hc
  refine ⟨l.takeWhile isSpace, ((l.dropWhile isSpace).reverse.takeWhile isSpace).reverse, ?_,
    ?_, ?_, ?_, hlast⟩
  · rw [List.append_assoc, ← hsplit, List.takeWhile_append_dropWhile]
  · intro c hc
    exact List.mem_takeWhile_imp hc
  · intro c hc
    exact List.mem_takeWhile_imp (List.mem_reverse.mp hc)
  · intro c hc
    by_cases hne : trim l = []
    · rw [hne] at hc
      cases hc
    · have h1 : (l.dropWhile isSpace).head? = some c := by
        rw [hsplit, List.head?_append_of_ne_nil _ hne]
        exact hc
      exact head?_dropWhile_not isSpace l c h1

end JsStr

namespace ChatInterface

theorem onChannel_kept (parse : String → Option JsVal) (st st1 : ChatState)
    (latestMessage : JsVal) (h : onChannel parse st latestMessage = .ok st1) :
    List.Forall₂ Kept st.messages st1.messages := by
  simp only [onChannel, bind, Except.bind, pure, Except.pure] at h
  cases h1 : handleLatest parse st latestMessage with
  | error e => simp [h1] at h
  | ok st2 =>
    simp only [h1] at h
    split at h
    · exact forall₂_kept_trans (handleLatest_kept parse st st2 latestMessage h1)
        (handleLatest_kept parse st2 st1 latestMessage h)
    · simp only [Except.ok.injEq] at h
      subst h
      exact handleLatest_kept parse st _ latestMessage h1

theorem run_channel_kept (parse : String → Option JsVal) :
    ∀ (msgs : List JsVal) (v v1 : View), run parse v (msgs.map Event.channel) = some v1 →
      List.Forall₂ Kept v.chat.messages v1.chat.messages := by
  intro msgs
  induction msgs with
  | nil =>
    intro v v1 h
    simp only [List.map_nil, run, Option.some.injEq] at h
    subst h
    exact forall₂_kept_refl _
  | cons m rest ih =>
    intro v v1 h
    simp only [List.map_cons, run, step] at h
    cases h1 : onChannel parse v.chat m with
    | error e => simp [h1] at h
    | ok chat =>
      simp only [h1] at h
      exact forall₂_kept_trans (onChannel_kept parse v.chat chat m h1) (ih _ v1 h)

/-- C23 (as stated, refuted): when the loading flag is cleared by a channel
message while the first task-creation call is in flight, a second submit puts
its user turn before the first placeholder: the turns are `a`, `b`, the
placeholder of `abc`, the placeholder of `def`, so the placeholder of the
first submit does not come directly after its user turn.  And when the socket
is not open (closing, closed, connecting or missing) the `subscribe_task`
frame is handed to `sendMessage` but never reaches the socket. -/
theorem placeholder_after_later_turn_and_frame_dropped :
    (run JSON.read emptyChat
        [.typing "a", .submit 1,
         .channel (.obj [("type", .str "status"), ("status", .str "completed")]),
         .typing "b", .submit 3, .resolved 4 (.obj [("task_id", .str "abc")]),
         .resolved 5 (.obj [("task_id", .str "def")])]).map
        (fun v => v.chat.messages.map fun t => (t.role, t.content, t.taskId, t.isStreaming))
      = some [("user", .str "a", .undefined, .undefined), ("user", .str "b", .undefined, .undefined),
          ("assistant", .str "", .str "abc", .bool true),
          ("assistant", .str "", .str "def", .bool true)] ∧
    WebSocketProvider.sendMessage (some { readyState := 3 })
        (.obj [("type", .str "subscribe_task"), ("taskId", .str "abc")]) = .ok [] ∧
    WebSocketProvider.sendMessage (some { readyState := 0 })
        (.obj [("type", .str "subscribe_task"), ("taskId", .str "abc")]) = .ok [] ∧
    WebSocketProvider.sendMessage none
        (.obj [("type", .str "subscribe_task"), ("taskId", .str "abc")]) = .ok [] := by
  decide

/-- C23 (amended): for every chat state whose trimmed input is not empty and
whose loading flag is not set, `handleSubmit` appends, before the REST call, a
user turn whose content is the trimmed input, that is the input without its
leading and trailing white space (and sets the loading flag); a blank input,
or a set loading flag, makes it return without any change.  When the call
resolves with a truthy task id (`task_id`, or else `id`) and no direct
response, the placeholder turn with empty content, `isStreaming = true` and
that task id is appended at the end of the turn list; it comes directly after
the user turn whenever only channel messages were handled in between.
Exactly one frame `{type: "subscribe_task", taskId: <that id>}` is handed to
`sendMessage`, which passes its serialization to the socket exactly once when
the socket is open and not at all in every other socket state.  The run of the
WebSocket effect that follows a change of the task id leaves every turn,
the placeholder included, as it is or settled. -/
theorem submit_appends_turn_placeholder_and_subscribes (parse : String → Option JsVal)
    (now later : Nat) (st : ChatState) (data : JsVal)
    (hinput : JsStr.trim st.input.data ≠ [])
    (hidle : st.isLoading = false)
    (hid : ((data.getOpt "task_id").or (data.getOpt "id")).truthy = true)
    (hdirect : ((data.getOpt "response").and (data.getOpt "type")).truthy = false) :
    ∃ st1, handleSubmitStart now st = some st1 ∧
      st1.messages = st.messages ++
        [{ role := "user", content := .str (String.mk (JsStr.trim st.input.data)),
           timestamp := now }] ∧
      st1.isLoading = true ∧
      (handleSubmitResolved later data st1).1.messages = st.messages ++
        [{ role := "user", content := .str (String.mk (JsStr.trim st.input.data)),
           timestamp := now },
         { role := "assistant", content := .str "", timestamp := later,
           taskId := (data.getOpt "task_id").or (data.getOpt "id"),
           isStreaming := .bool true }] ∧
      (∀ st2 : ChatState, (handleSubmitResolved later data st2).1.messages = st2.messages ++
        [{ role := "assistant", content := .str "", timestamp := later,
           taskId := (data.getOpt "task_id").or (data.getOpt "id"),
           isStreaming := .bool true }]) ∧
      (handleSubmitResolved later data st1).2
        = [.obj [("type", .str "subscribe_task"),
            ("taskId", (data.getOpt "task_id").or (data.getOpt "id"))]] ∧
      WebSocketProvider.sendMessage (some { readyState := WebSocketProvider.OPEN })
          (.obj [("type", .str "subscribe_task"),
            ("taskId", (data.getOpt "task_id").or (data.getOpt "id"))])
        = .ok [JSON.stringify (.obj [("type", .str "subscribe_task"),
            ("taskId", (data.getOpt "task_id").or (data.getOpt "id"))])] ∧
      (∃ pre post, st.input.data = pre ++ JsStr.trim st.input.data ++ post ∧
        (∀ c ∈ pre, JsStr.isSpace c = true) ∧ (∀ c ∈ post, JsStr.isSpace c = true) ∧
        (∀ c, (JsStr.trim st.input.data).head? = some c → JsStr.isSpace c = false) ∧
        (∀ c, (JsStr.trim st.input.data).getLast? = some c → JsStr.isSpace c = false)) ∧
      (∀ blank : ChatState, JsStr.trim blank.input.data = [] ∨ blank.isLoading = true →
        handleSubmitStart now blank = none) ∧
      (∀ (msgs : List JsVal) (pending : Nat) (latest : Option JsVal) (v2 : View),
        run parse { chat := st1, pending := pending, latest := latest }
            (msgs.map Event.channel) = some v2 →
          (handleSubmitResolved later data v2.chat).1.messages.length
            = st.messages.length + 2 ∧
          (handleSubmitResolved later data v2.chat).1.messages[st.messages.length]? = some
            { role := "user", content := .str (String.mk (JsStr.trim st.input.data)),
              timestamp := now } ∧
          (handleSubmitResolved later data v2.chat).1.messages[st.messages.length + 1]? = some
            { role := "assistant", content := .str "", timestamp := later,
              taskId := (data.getOpt "task_id").or (data.getOpt "id"),
              isStreaming := .bool true }) ∧
      (∀ (st2 : ChatState) (ws : Option WebSocketProvider.Socket),
        (handleSubmitResolved later data st2).2
          = [.obj [("type", .str "subscribe_task"),
              ("taskId", (data.getOpt "task_id").or (data.getOpt "id"))]] ∧
        ((∀ socket, ws = some socket → socket.readyState ≠ WebSocketProvider.OPEN) →
          WebSocketProvider.sendMessage ws
              (.obj [("type", .str "subscribe_task"),
                ("taskId", (data.getOpt "task_id").or (data.getOpt "id"))]) = .ok [])) ∧
      (∀ (st2 st3 : ChatState) (latest : Option JsVal),
        onResolved parse later data latest st2 = .ok st3 →
          List.Forall₂ (fun t t1 => t1 = t ∨ t1.isStreaming.truthy = false)
            (st2.messages ++
              [{ role := "assistant", content := .str "", timestamp := later,
                 taskId := (data.getOpt "task_id").or (data.getOpt "id"),
                 isStreaming := .bool true }])
            st3.messages) := by
  have hguard : ((JsStr.trim st.input.data).isEmpty || st.isLoading) = false := by
    rw [hidle, Bool.or_false]
    cases h : JsStr.trim st.input.data with
    | nil => exact absurd h hinput
    | cons a rest => rfl
  obtain ⟨text, htext⟩ := JSON.stringify_eq_str
    (.obj [("type", .str "subscribe_task"),
      ("taskId", (data.getOpt "task_id").or (data.getOpt "id"))]) (by simp)
  have hres : ∀ st2 : ChatState, (handleSubmitResolved later data st2).1.messages
      = st2.messages ++
        [{ role := "assistant", content := .str "", timestamp := later,
           taskId := (data.getOpt "task_id").or (data.getOpt "id"),
           isStreaming := .bool true }] := by
    intro st2
    simp [handleSubmitResolved, hdirect]
  refine ⟨_, by simp only [handleSubmitStart, hguard]; rfl, rfl, rfl, ?_, hres, ?_, ?_,
    JsStr.trim_spec _, ?_, ?_, ?_, ?_⟩
  · simp [handleSubmitResolved, hdirect]
  · simp [handleSubmitResolved, hdirect, hid]
  · simp only [WebSocketProvider.sendMessage, if_true, htext, bind, Except.bind, pure,
      Except.pure]
    simp [JsVal.get]
  · intro blank hblank
    rcases hblank with h | h
    · simp [handleSubmitStart, h]
    · simp [handleSubmitStart, h]
  · intro msgs pending latest v2 hrun
    have hkept := run_channel_kept parse msgs _ v2 hrun
    simp only at hkept
    have hlen := hkept.length_eq
    simp only [List.length_append, List.length_singleton] at hlen
    obtain ⟨t1, ht1, hk⟩ := forall₂_getElem? hkept st.messages.length
      { role := "user", content := .str (String.mk (JsStr.trim st.input.data)),
        timestamp := now } (by simp)
    have ht1eq := hk rfl
    subst ht1eq
    rw [hres]
    refine ⟨by simp [← hlen], ?_, ?_⟩
    · rw [List.getElem?_append_left (by omega)]
      exact ht1
    · rw [List.getElem?_append_right (by omega)]
      simp [← hlen]
  · intro st2 ws
    refine ⟨by simp [handleSubmitResolved, hdirect, hid], ?_⟩
    intro hno
    cases ws with
    | none => simp [WebSocketProvider.sendMessage, JsVal.get, bind, Except.bind, pure, Except.pure]
    | some socket =>
      have := hno socket rfl
      simp [WebSocketProvider.sendMessage, this, JsVal.get, bind, Except.bind, pure,
        Except.pure]
  · intro st2 st3 latest hon
    have hrefl : ∀ l : List Turn,
        List.Forall₂ (fun t t1 => t1 = t ∨ t1.isStreaming.truthy = false) l l := by
      intro l
      induction l with
      | nil => exact List.Forall₂.nil
      | cons a rest ih => exact List.Forall₂.cons (Or.inl rfl) ih
    have htid : (handleSubmitResolved later data st2).1.taskId.truthy = true := by
      simp [handleSubmitResolved, hdirect, hid]
    have hno : ∀ m, adopts (handleSubmitResolved later data st2).1 m = false := by
      intro m
      simp [adopts, htid]
    rw [← hres st2]
    simp only [onResolved] at hon
    split at hon
    · rename_i latestMessage
      split at hon
      · simp only [onChannel, hno, Bool.false_eq_true, if_false, bind, Except.bind, pure,
          Except.pure] at hon
        cases h1 : handleLatest parse (handleSubmitResolved later data st2).1 latestMessage with
        | error err => simp [h1] at hon
        | ok st4 =>
          simp only [h1, Except.ok.injEq] at hon
          subst hon
          rcases handleLatest_cases parse _ st4 latestMessage h1 with ⟨had, _⟩ | ⟨_, _, hset⟩
          · rw [hno] at had
            cases had
          · exact hset
      · simp only [Except.ok.injEq] at hon
        subst hon
        exact hrefl _
    · simp only [Except.ok.injEq] at hon
      subst hon
      exact hrefl _

/-- Witness for C23 (amended): scenario A with white space around the input
`hello` on the empty chat and the answer `{"task_id":"abc"}`; a blank input
is not submitted. -/
theorem submit_appends_turn_placeholder_and_subscribes_witness :
    (∃ st1, handleSubmitStart 1
        { messages := [], taskId := .null, isLoading := false, input := "  hello \n" }
          = some st1 ∧
      st1.messages = [{ role := "user", content := .str "hello", timestamp := 1 }] ∧
      (handleSubmitResolved 2 (.obj [("task_id", .str "abc")]) st1).1.messages
        = scenarioA.messages ∧
      (handleSubmitResolved 2 (.obj [("task_id", .str "abc")]) st1).2
        = [.obj [("type", .str "subscribe_task"), ("taskId", .str "abc")]]) ∧
    handleSubmitStart 1 { messages := [], taskId := .null, isLoading := false, input := " \n " }
      = none := by
  obtain ⟨st1, h1, h2, _, h4, _, h6, _, _, h9, _, _, _⟩ :=
    submit_appends_turn_placeholder_and_subscribes JSON.read 1 2
      { messages := [], taskId := .null, isLoading := false, input := "  hello \n" }
      (.obj [("task_id", .str "abc")]) (by decide) rfl (by decide) (by decide)
  exact ⟨⟨st1, h1, h2, h4, h6⟩, h9 _ (Or.inl (by decide))⟩

end ChatInterface

/-! ## C24: a failed load of the providers -/

namespace ProviderManagement

/-- C24: when the REST call that fetches the providers is rejected, for
whatever reason (a timeout included), `loadProviders` returns normally, leaves
the provider list exactly as it was (the empty list on first load) and adds
exactly one notification, of type `error`, with the message `Failed to load
providers` and the default duration of 5000 ms, at the end of the notification
list; a call that resolves stores `response.data` and raises no
notification. -/
theorem loadProviders_failure_notifies (now : Int) (reason : JsVal) (st : State) :
    loadProviders now (.error reason) st = .ok
      { providers := st.providers
        notifications := st.notifications ++
          [{ id := now, message := .str "Failed to load providers", type := .str "error",
             duration := .num 5000 }]
        timers := st.timers ++ [(.num 5000, now)] } ∧
    loadProviders now (.error reason) initial = .ok
      { providers := .arr []
        notifications :=
          [{ id := now, message := .str "Failed to load providers", type := .str "error",
             duration := .num 5000 }]
        timers := [(.num 5000, now)] } ∧
    (∀ (data : JsVal) (others : List (String × JsVal)),
      loadProviders now (.ok (.obj (("data", data) :: others))) st
        = .ok { st with providers := data }) := by
  have hgt : gtZero (.num 5000) = true := by decide
  refine ⟨?_, ?_, ?_⟩
  · simp [loadProviders, NotificationProvider.showError, NotificationProvider.addNotification,
      hgt]
  · simp [loadProviders, NotificationProvider.showError, NotificationProvider.addNotification,
      hgt, initial]
  · intro data others
    simp [loadProviders, JsVal.get, JsVal.lookup]

end ProviderManagement

/-! ## C25: the files appended to a summary -/

namespace ChatInterface

/-- C25 (as stated, refuted): a delivered file whose content `print(1)` already
stands in the summary still gets its block, because the test looks for the
file name, not for the content; a file whose name `a.py` is mentioned in the
summary gets no block although its content is nowhere in the summary; and a
file of language `text` gets no block at all. -/
theorem file_blocks_follow_names_not_contents :
    (extractContent JSON.read (outputFrame
      "\x7b\"explanatory_summary\":\"Code: print(1)\",\"file_delivery\":[\x7b\"filename\":\"a.py\",\"language\":\"python\",\"content\":\"print(1)\"\x7d]\x7d")).map
        (fun ex => ex.content)
      = .ok (.str
        "Code: print(1)\n\nGenerated Files:\na.py (python):\n```python\nprint(1)\n```\n") ∧
    (extractContent JSON.read (outputFrame
      "\x7b\"explanatory_summary\":\"See a.py\",\"file_delivery\":[\x7b\"filename\":\"a.py\",\"language\":\"python\",\"content\":\"x=1\"\x7d]\x7d")).map
        (fun ex => ex.content)
      = .ok (.str "See a.py") ∧
    (extractContent JSON.read (outputFrame
      "\x7b\"explanatory_summary\":\"Done\",\"file_delivery\":[\x7b\"filename\":\"notes.txt\",\"language\":\"text\",\"content\":\"remember\"\x7d]\x7d")).map
        (fun ex => ex.content)
      = .ok (.str "Done") := by
  decide

/-- C25 (amended): when the structured payload is an object with no truthy
`error`, a non-empty string `explanatory_summary` and a `file_delivery` list
of objects, the chat content is the summary followed, when at least one entry
is kept, by the heading `Generated Files:` and one fenced block, labelled with
file name and language, for every kept entry in list order; an entry is kept
when its language is not `text` and its file name does not occur in the
summary (the content of the file plays no part).  When no entry is kept the
content is the summary alone. -/
theorem file_blocks_for_unnamed_files (parse : String → Option JsVal)
    (latestMessage message decoded : JsVal) (kvs : List (String × JsVal)) (s : String)
    (files : List (List (String × JsVal)))
    (hmsg : latestMessage.get "message" = .ok message)
    (hparse : jsonParse parse message = .ok decoded)
    (hpayload : specPayload decoded = .obj kvs)
    (herr : (JsVal.lookup "error" kvs).truthy = false)
    (hsum : JsVal.lookup "explanatory_summary" kvs = .str s) (hne : s ≠ "")
    (hfiles : JsVal.lookup "file_delivery" kvs = .arr (files.map JsVal.obj)) :
    extractContent parse latestMessage
      = .ok { content := .str (withFiles s files), structuredOutput := .obj kvs } ∧
    withFiles s files =
      (if files.filter (keptEntry s) = [] then s
       else s ++ "\n\nGenerated Files:\n"
        ++ String.join ((files.filter (keptEntry s)).map entryBlock)) ∧
    (∀ file, keptEntry s file = true ↔
      (JsVal.lookup "language" file ≠ .str "text" ∧
        JsStr.includes s.data (JsVal.lookup "filename" file).toStr.data = false)) := by
  refine ⟨?_, ?_, ?_⟩
  · simp only [extractContent, hmsg, hparse, selectStructured_eq, hpayload, bind, Except.bind,
      pure, Except.pure]
    rw [extractStructured_obj]
    simp [herr, hsum, JsVal.truthy_str hne, hfiles, appendFiles_entries]
  · unfold withFiles
    by_cases he : files.filter (keptEntry s) = []
    · simp [he]
    · have : (files.filter (keptEntry s)).isEmpty = false := by
        cases h : files.filter (keptEntry s) with
        | nil => exact absurd h he
        | cons a rest => rfl
      simp [he, this]
  · intro file
    simp only [keptEntry, Bool.and_eq_true, Bool.not_eq_true', ne_eq]
    rw [← JsVal.strictEq_str]
    simp

set_option maxRecDepth 20000 in
/-- Witness for C25 (amended): two delivered files, of which the second is
named in the summary. -/
theorem file_blocks_for_unnamed_files_witness :
    extractContent JSON.read (outputFrame
      "[\x7b\"explanatory_summary\":\"See b.py\",\"file_delivery\":[\x7b\"filename\":\"a.py\",\"language\":\"python\",\"content\":\"x=1\"\x7d,\x7b\"filename\":\"b.py\",\"language\":\"python\",\"content\":\"y=2\"\x7d]\x7d]")
      = .ok
        { content := .str "See b.py\n\nGenerated Files:\na.py (python):\n```python\nx=1\n```\n"
          structuredOutput := .obj
            [("explanatory_summary", .str "See b.py"),
             ("file_delivery", .arr
               [.obj [("filename", .str "a.py"), ("language", .str "python"),
                  ("content", .str "x=1")],
                .obj [("filename", .str "b.py"), ("language", .str "python"),
                  ("content", .str "y=2")]])] } :=
  (file_blocks_for_unnamed_files JSON.read
    (outputFrame
      "[\x7b\"explanatory_summary\":\"See b.py\",\"file_delivery\":[\x7b\"filename\":\"a.py\",\"language\":\"python\",\"content\":\"x=1\"\x7d,\x7b\"filename\":\"b.py\",\"language\":\"python\",\"content\":\"y=2\"\x7d]\x7d]")
    (.str
      "[\x7b\"explanatory_summary\":\"See b.py\",\"file_delivery\":[\x7b\"filename\":\"a.py\",\"language\":\"python\",\"content\":\"x=1\"\x7d,\x7b\"filename\":\"b.py\",\"language\":\"python\",\"content\":\"y=2\"\x7d]\x7d]")
    (.arr [.obj
      [("explanatory_summary", .str "See b.py"),
       ("file_delivery", .arr
         [.obj [("filename", .str "a.py"), ("language", .str "python"),
            ("content", .str "x=1")],
          .obj [("filename", .str "b.py"), ("language", .str "python"),
            ("content", .str "y=2")]])]])
    [("explanatory_summary", .str "See b.py"),
     ("file_delivery", .arr
       [.obj [("filename", .str "a.py"), ("language", .str "python"), ("content", .str "x=1")],
        .obj [("filename", .str "b.py"), ("language", .str "python"),
          ("content", .str "y=2")]])]
    "See b.py"
    [[("filename", .str "a.py"), ("language", .str "python"), ("content", .str "x=1")],
     [("filename", .str "b.py"), ("language", .str "python"), ("content", .str "y=2")]]
    rfl (by decide) rfl (by decide) rfl (by decide) rfl).1.trans (by decide)

end ChatInterface

/-! ## C26: the clean-up of the explanation -/

namespace JsStr

theorem filter_dropWhile_eq (p q : Char → Bool) (h : ∀ c, q c = true → p c = false)
    (l : List Char) : (l.dropWhile q).filter p = l.filter p := by
  induction l with
  | nil => rfl
  | cons c cs ih =>
    by_cases hq : q c = true
    · simp [List.dropWhile_cons, hq, List.filter_cons, h c hq, ih]
    · simp [List.dropWhile_cons, hq]

theorem stripRuns_sublist (m : Char) (least : Nat) :
    ∀ (fuel : Nat) (atStart : Bool) (l : List Char),
      List.Sublist (stripRuns m least fuel atStart l) l := by
  intro fuel
  induction fuel with
  | zero =>
    intro atStart l
    simp [stripRuns]
  | succ n ih =>
    intro atStart l
    cases l with
    | nil => simp [stripRuns]
    | cons c cs =>
      simp only [stripRuns]
      split
      · exact ((ih _ _).trans (List.dropWhile_sublist _)).trans (List.dropWhile_sublist _)
      · exact (ih _ _).cons₂ c

theorem stripRuns_filter (m : Char) (least : Nat) (p : Char → Bool)
    (hm : ∀ c, (c == m) = true → p c = false) (hs : ∀ c, isSpace c = true → p c = false) :
    ∀ (fuel : Nat) (atStart : Bool) (l : List Char),
      (stripRuns m least fuel atStart l).filter p = l.filter p := by
  intro fuel
  induction fuel with
  | zero =>
    intro atStart l
    simp [stripRuns]
  | succ n ih =>
    intro atStart l
    cases l with
    | nil => simp [stripRuns]
    | cons c cs =>
      simp only [stripRuns]
      split
      · rw [ih, filter_dropWhile_eq p isSpace hs, filter_dropWhile_eq p (· == m) hm]
      · rw [List.filter_cons, List.filter_cons, ih]

theorem stripRuns_of_not_mem (m : Char) (least : Nat) :
    ∀ (fuel : Nat) (atStart : Bool) (l : List Char), m ∉ l →
      stripRuns m least fuel atStart l = l := by
  intro fuel
  induction fuel with
  | zero =>
    intro atStart l _
    simp [stripRuns]
  | succ n ih =>
    intro atStart l hl
    cases l with
    | nil => simp [stripRuns]
    | cons c cs =>
      have hc : (c == m) = false := by
        simp only [List.mem_cons, not_or] at hl
        simpa using fun h => hl.1 h.symm
      have hcs : m ∉ cs := fun h => hl (List.mem_cons_of_mem c h)
      simp [stripRuns, List.takeWhile_cons, hc, ih _ _ hcs]

theorem stripRuns_inside_line (m : Char) (least : Nat) :
    ∀ (fuel : Nat) (l : List Char), (∀ c ∈ l, isLineTerm c = false) →
      stripRuns m least fuel false l = l := by
  intro fuel
  induction fuel with
  | zero =>
    intro l _
    simp [stripRuns]
  | succ n ih =>
    intro l hl
    cases l with
    | nil => simp [stripRuns]
    | cons c cs =>
      have hc : isLineTerm c = false := hl c (List.mem_cons_self c cs)
      have hcs : ∀ x ∈ cs, isLineTerm x = false := fun x hx => hl x (List.mem_cons_of_mem c hx)
      simp [stripRuns, hc, ih cs hcs]

theorem stripRuns_single_line (m : Char) (least fuel : Nat) (l : List Char)
    (hline : ∀ c ∈ l, isLineTerm c = false) (hhead : l.head? ≠ some m) :
    stripRuns m least fuel true l = l := by
  cases fuel with
  | zero => simp [stripRuns]
  | succ n =>
    cases l with
    | nil => simp [stripRuns]
    | cons c cs =>
      have hc : (c == m) = false := by
        simpa using fun h : c = m => hhead (by simp [h])
      have hlt : isLineTerm c = false := hline c (List.mem_cons_self c cs)
      have hcs : ∀ x ∈ cs, isLineTerm x = false :=
        fun x hx => hline x (List.mem_cons_of_mem c hx)
      simp [stripRuns, List.takeWhile_cons, hc, hlt, stripRuns_inside_line m least n cs hcs]

theorem trim_sublist (l : List Char) : List.Sublist (trim l) l := by
  have h1 : List.Sublist ((l.dropWhile isSpace).reverse.dropWhile isSpace)
      (l.dropWhile isSpace).reverse := List.dropWhile_sublist _
  have h2 := h1.reverse
  rw [List.reverse_reverse] at h2
  exact h2.trans (List.dropWhile_sublist _)

theorem trim_filter (p : Char → Bool) (hs : ∀ c, isSpace c = true → p c = false)
    (l : List Char) : (trim l).filter p = l.filter p := by
  unfold trim
  rw [List.filter_reverse, filter_dropWhile_eq p isSpace hs, List.filter_reverse,
    List.reverse_reverse, filter_dropWhile_eq p isSpace hs]

theorem stripRuns_fuel (m : Char) (least : Nat) :
    ∀ (fuel : Nat) (l : List Char) (b : Bool), l.length ≤ fuel →
      stripRuns m least fuel b l = stripRuns m least l.length b l := by
  intro fuel
  induction fuel using Nat.strong_induction_on with
  | _ fuel ih =>
    intro l b hl
    cases l with
    | nil => cases fuel <;> simp [stripRuns]
    | cons c cs =>
      cases fuel with
      | zero => simp at hl
      | succ f =>
        have hcs : cs.length ≤ f := by simpa using hl
        simp only [List.length_cons, stripRuns]
        split
        · rename_i hcond
          have hrun : (c == m) = true := by
            cases hcm : (c == m) with
            | true => rfl
            | false => simp [List.takeWhile_cons, hcm] at hcond
          have hlen : (List.dropWhile isSpace
              (List.dropWhile (fun x => x == m) (c :: cs))).length ≤ cs.length := by
            refine (List.dropWhile_sublist _).length_le.trans ?_
            rw [List.dropWhile_cons, if_pos hrun]
            exact (List.dropWhile_sublist _).length_le
          exact (ih f (Nat.lt_succ_self f) _ _ (hlen.trans hcs)).trans
            (ih cs.length (by omega) _ _ hlen).symm
        · rw [ih f (Nat.lt_succ_self f) cs _ hcs]

theorem endsLine_false (l : List Char) (h : ∀ c ∈ l, isLineTerm c = false) :
    endsLine l = false := by
  unfold endsLine
  cases hl : l.getLast? with
  | none => rfl
  | some c => exact h c (List.mem_of_mem_getLast? hl)

/-- At a line start, a run of at least `least` characters `m` and the spaces
after it are removed. -/
theorem stripRuns_marker (m : Char) (least k pad : Nat) (c : Char) (rest : List Char)
    (hm : isSpace m = false) (hmL : isLineTerm m = false) (hk : 0 < k) (hleast : least ≤ k)
    (hc1 : (c == m) = false) (hc2 : isSpace c = false) :
    stripRuns m least (List.replicate k m ++ (List.replicate pad ' ' ++ c :: rest)).length true
        (List.replicate k m ++ (List.replicate pad ' ' ++ c :: rest))
      = stripRuns m least (c :: rest).length false (c :: rest) := by
  obtain ⟨k1, rfl⟩ : ∃ k1, k = k1 + 1 := ⟨k - 1, by omega⟩
  have hsp : isSpace ' ' = true := by decide
  have hspL : isLineTerm ' ' = false := by decide
  have hsm : ((' ' : Char) == m) = false := by
    cases h : ((' ' : Char) == m) with
    | false => rfl
    | true =>
      rw [beq_iff_eq] at h
      rw [← h, hsp] at hm
      cases hm
  have hall : ∀ a ∈ List.replicate (k1 + 1) m, (a == m) = true := by
    intro a ha
    rw [List.eq_of_mem_replicate ha]
    exact beq_self_eq_true m
  have hpad : ∀ a ∈ List.replicate pad ' ', isSpace a = true := by
    intro a ha
    rw [List.eq_of_mem_replicate ha]
    exact hsp
  have hnext : List.takeWhile (fun x => x == m) (List.replicate pad ' ' ++ c :: rest) = [] := by
    cases pad with
    | zero => simp [List.takeWhile_cons, hc1]
    | succ n => simp [List.replicate_succ, List.takeWhile_cons, hsm]
  have hnextd : List.dropWhile (fun x => x == m) (List.replicate pad ' ' ++ c :: rest)
      = List.replicate pad ' ' ++ c :: rest := by
    cases pad with
    | zero => simp [List.dropWhile_cons, hc1]
    | succ n => simp [List.replicate_succ, List.dropWhile_cons, hsm]
  have htake : List.takeWhile (fun x => x == m)
      (List.replicate (k1 + 1) m ++ (List.replicate pad ' ' ++ c :: rest))
      = List.replicate (k1 + 1) m := by
    rw [List.takeWhile_append_of_pos hall, hnext, List.append_nil]
  have hdrop : List.dropWhile (fun x => x == m)
      (List.replicate (k1 + 1) m ++ (List.replicate pad ' ' ++ c :: rest))
      = List.replicate pad ' ' ++ c :: rest := by
    rw [List.dropWhile_append_of_pos hall, hnextd]
  have htake2 : List.takeWhile isSpace (List.replicate pad ' ' ++ c :: rest)
      = List.replicate pad ' ' := by
    rw [List.takeWhile_append_of_pos hpad]
    simp [List.takeWhile_cons, hc2]
  have hdrop2 : List.dropWhile isSpace (List.replicate pad ' ' ++ c :: rest) = c :: rest := by
    rw [List.dropWhile_append_of_pos hpad]
    simp [List.dropWhile_cons, hc2]
  have hends : endsLine (List.replicate (k1 + 1) m ++ List.replicate pad ' ') = false := by
    apply endsLine_false
    intro a ha
    rcases List.mem_append.mp ha with h | h
    · rw [List.eq_of_mem_replicate h]
      exact hmL
    · rw [List.eq_of_mem_replicate h]
      exact hspL
  have hlen : (List.replicate (k1 + 1) m ++ (List.replicate pad ' ' ++ c :: rest)).length
      = (k1 + pad + rest.length + 1) + 1 := by
    simp only [List.length_append, List.length_replicate, List.length_cons]
    omega
  have hcons : List.replicate (k1 + 1) m ++ (List.replicate pad ' ' ++ c :: rest)
      = m :: (List.replicate k1 m ++ (List.replicate pad ' ' ++ c :: rest)) := by
    simp [List.replicate_succ]
  rw [hlen]
  rw [hcons] at htake hdrop ⊢
  rw [stripRuns]
  simp only [htake, hdrop, htake2, hdrop2, hends, List.length_replicate]
  have hcond : (true && decide (least ≤ k1 + 1) && decide (0 < k1 + 1)) = true := by
    simp
    omega
  rw [if_pos hcond]
  exact stripRuns_fuel m least _ _ _ (by simp only [List.length_cons]; omega)

/-- Characters of a line are copied up to its end when the line does not start
with the marker. -/
theorem stripRuns_copy (m : Char) (least : Nat) :
    ∀ (w tail : List Char) (b : Bool), w ≠ [] → (b = true → w.head? ≠ some m) →
      (∀ c ∈ w, isLineTerm c = false) →
      stripRuns m least (w ++ tail).length b (w ++ tail)
        = w ++ stripRuns m least tail.length false tail := by
  intro w
  induction w with
  | nil =>
    intro tail b h
    exact absurd rfl h
  | cons c w1 ih =>
    intro tail b _ hhead hline
    have hc : isLineTerm c = false := hline c (List.mem_cons_self c w1)
    have hcond : (b && decide (least ≤ (List.takeWhile (fun x => x == m)
        (c :: (w1 ++ tail))).length) && decide (0 < (List.takeWhile (fun x => x == m)
        (c :: (w1 ++ tail))).length)) = false := by
      cases b with
      | false => simp
      | true =>
        have hcm : (c == m) = false := by
          cases h : (c == m) with
          | false => rfl
          | true =>
            rw [beq_iff_eq] at h
            exact absurd (by simp [h]) (hhead rfl)
        simp [List.takeWhile_cons, hcm]
    simp only [List.cons_append, List.length_cons]
    rw [stripRuns]
    simp only [hcond, Bool.false_eq_true, if_false, hc]
    cases w1 with
    | nil => simp
    | cons d w2 =>
      have := ih tail false (by simp) (by intro h; cases h)
        (fun x hx => hline x (List.mem_cons_of_mem c hx))
      simp only [List.cons_append, List.length_cons] at this
      simp only [List.cons_append, List.length_cons, this]

theorem stripRuns_newline (m : Char) (least : Nat) (rest : List Char) :
    stripRuns m least ('\n' :: rest).length false ('\n' :: rest)
      = '\n' :: stripRuns m least rest.length true rest := by
  simp only [List.length_cons]
  rw [stripRuns]
  have : isLineTerm '\n' = true := by decide
  simp [this]

theorem plainBody_spec (body : List Char) (h : plainBody body = true) :
    ∃ c rest, body = c :: rest ∧ isSpace c = false ∧ (c == '#') = false ∧ (c == '-') = false ∧
      (∀ x ∈ body, isLineTerm x = false) ∧
      (∀ d, body.getLast? = some d → isSpace d = false) := by
  unfold plainBody at h
  cases body with
  | nil => simp at h
  | cons c rest =>
    cases hl : (c :: rest).getLast? with
    | none => simp at hl
    | some d =>
      simp only [List.head?_cons, hl, Bool.and_eq_true, Bool.not_eq_true', bne_iff_ne, ne_eq,
        List.all_eq_true] at h
      obtain ⟨⟨⟨⟨h1, h2⟩, h3⟩, h4⟩, h5⟩ := h
      refine ⟨c, rest, rfl, h1, by simpa using h2, by simpa using h3, ?_, ?_⟩
      · intro x hx
        simpa using h5 x hx
      · intro d1 hd1
        cases hd1
        exact h4

/-- The tail of a text after a line: nothing, or a line feed and the rest. -/
theorem stripRuns_tail (m : Char) (least : Nat) (rest : List (List Char))
    (out : List (List Char)) (hlen : out.isEmpty = rest.isEmpty)
    (ih : stripRuns m least (joinLines rest).length true (joinLines rest) = joinLines out) :
    stripRuns m least (if rest.isEmpty then [] else '\n' :: joinLines rest).length false
        (if rest.isEmpty then [] else '\n' :: joinLines rest)
      = (if out.isEmpty then [] else '\n' :: joinLines out) := by
  rw [hlen]
  cases hr : rest.isEmpty with
  | true => simp [stripRuns]
  | false =>
    simp only [Bool.false_eq_true, if_false]
    rw [stripRuns_newline, ih]

theorem strip_headings :
    ∀ lines : List (Marker × List Char), (∀ p ∈ lines, plainBody p.2 = true) →
      stripRuns '#' 1 (joinLines (lines.map fun p => p.1.text ++ p.2)).length true
          (joinLines (lines.map fun p => p.1.text ++ p.2))
        = joinLines (lines.map fun p => p.1.ruleText ++ p.2) := by
  intro lines
  induction lines with
  | nil =>
    intro _
    simp [joinLines, stripRuns]
  | cons p rest ih =>
    intro hplain
    obtain ⟨c, body, hbody, hc1, hc2, hc3, hline, _⟩ :=
      plainBody_spec p.2 (hplain p (List.mem_cons_self p rest))
    have hrest := ih (fun q hq => hplain q (List.mem_cons_of_mem p hq))
    have htail := stripRuns_tail '#' 1 (rest.map fun p => p.1.text ++ p.2)
      (rest.map fun p => p.1.ruleText ++ p.2) (by cases rest <;> rfl) hrest
    have hbodycopy : ∀ tail : List Char,
        stripRuns '#' 1 (p.2 ++ tail).length false (p.2 ++ tail)
          = p.2 ++ stripRuns '#' 1 tail.length false tail :=
      fun tail => stripRuns_copy '#' 1 p.2 tail false (by rw [hbody]; simp)
        (by intro h; cases h) hline
    simp only [List.map_cons, joinLines]
    cases hmk : p.1 with
    | none =>
      have e1 : Marker.none.text = [] := rfl
      have e2 : Marker.none.ruleText = [] := rfl
      rw [e1, e2]
      simp only [List.nil_append]
      rw [stripRuns_copy '#' 1 p.2 _ true (by rw [hbody]; simp)
        (by
          intro _
          rw [hbody]
          simp only [List.head?_cons, ne_eq, Option.some.injEq]
          intro h
          rw [h] at hc2
          simp at hc2) hline, htail]
    | heading hashes pad =>
      have e1 : (Marker.heading hashes pad).text
          = List.replicate (hashes + 1) '#' ++ List.replicate pad ' ' := rfl
      have e2 : (Marker.heading hashes pad).ruleText = [] := rfl
      rw [e1, e2]
      simp only [List.nil_append, List.append_assoc]
      rw [hbody, List.cons_append]
      rw [stripRuns_marker '#' 1 (hashes + 1) pad c _ (by decide) (by decide) (by omega)
        (by omega) hc2 hc1]
      rw [← List.cons_append, ← hbody, hbodycopy, htail]
    | rule dashes pad =>
      have e1 : (Marker.rule dashes pad).text
          = List.replicate (dashes + 2) '-' ++ List.replicate pad ' ' := rfl
      have e2 : (Marker.rule dashes pad).ruleText
          = List.replicate (dashes + 2) '-' ++ List.replicate pad ' ' := rfl
      rw [e1, e2]
      rw [stripRuns_copy '#' 1 _ _ true (by simp [List.replicate_succ])
        (by
          intro _
          simp [List.replicate_succ])
        (by
          intro x hx
          simp only [List.mem_append] at hx
          rcases hx with (hx | hx) | hx
          · rw [List.eq_of_mem_replicate hx]
            decide
          · rw [List.eq_of_mem_replicate hx]
            decide
          · exact hline x hx), htail]

theorem strip_rules :
    ∀ lines : List (Marker × List Char), (∀ p ∈ lines, plainBody p.2 = true) →
      stripRuns '-' 2 (joinLines (lines.map fun p => p.1.ruleText ++ p.2)).length true
          (joinLines (lines.map fun p => p.1.ruleText ++ p.2))
        = joinLines (lines.map fun p => p.2) := by
  intro lines
  induction lines with
  | nil =>
    intro _
    simp [joinLines, stripRuns]
  | cons p rest ih =>
    intro hplain
    obtain ⟨c, body, hbody, hc1, hc2, hc3, hline, _⟩ :=
      plainBody_spec p.2 (hplain p (List.mem_cons_self p rest))
    have hrest := ih (fun q hq => hplain q (List.mem_cons_of_mem p hq))
    have htail := stripRuns_tail '-' 2 (rest.map fun p => p.1.ruleText ++ p.2)
      (rest.map fun p => p.2) (by cases rest <;> rfl) hrest
    have hbodycopy : ∀ tail : List Char,
        stripRuns '-' 2 (p.2 ++ tail).length false (p.2 ++ tail)
          = p.2 ++ stripRuns '-' 2 tail.length false tail :=
      fun tail => stripRuns_copy '-' 2 p.2 tail false (by rw [hbody]; simp)
        (by intro h; cases h) hline
    have hplaincopy : stripRuns '-' 2
        (p.2 ++ (if (rest.map fun p => p.1.ruleText ++ p.2).isEmpty then []
          else '\n' :: joinLines (rest.map fun p => p.1.ruleText ++ p.2))).length true
        (p.2 ++ (if (rest.map fun p => p.1.ruleText ++ p.2).isEmpty then []
          else '\n' :: joinLines (rest.map fun p => p.1.ruleText ++ p.2)))
        = p.2 ++ (if (rest.map fun p => p.2).isEmpty then []
          else '\n' :: joinLines (rest.map fun p => p.2)) := by
      rw [stripRuns_copy '-' 2 p.2 _ true (by rw [hbody]; simp)
        (by
          intro _
          rw [hbody]
          simp only [List.head?_cons, ne_eq, Option.some.injEq]
          intro h
          rw [h] at hc3
          simp at hc3) hline, htail]
    simp only [List.map_cons, joinLines]
    cases hmk : p.1 with
    | none =>
      have e2 : Marker.none.ruleText = [] := rfl
      rw [e2]
      simp only [List.nil_append]
      exact hplaincopy
    | heading hashes pad =>
      have e2 : (Marker.heading hashes pad).ruleText = [] := rfl
      rw [e2]
      simp only [List.nil_append]
      exact hplaincopy
    | rule dashes pad =>
      have e2 : (Marker.rule dashes pad).ruleText
          = List.replicate (dashes + 2) '-' ++ List.replicate pad ' ' := rfl
      rw [e2]
      simp only [List.append_assoc]
      rw [hbody, List.cons_append]
      rw [stripRuns_marker '-' 2 (dashes + 2) pad c _ (by decide) (by decide) (by omega)
        (by omega) hc3 hc1]
      rw [← List.cons_append, ← hbody, hbodycopy, htail]

theorem trim_eq_self (l : List Char) (c d : Char) (hc : l.head? = some c) (hd : l.getLast? = some d)
    (h1 : isSpace c = false) (h2 : isSpace d = false) : trim l = l := by
  have e1 : l.dropWhile isSpace = l := by
    cases l with
    | nil => rfl
    | cons a rest =>
      simp only [List.head?_cons, Option.some.injEq] at hc
      subst hc
      simp [List.dropWhile_cons, h1]
  have e2 : l.reverse.dropWhile isSpace = l.reverse := by
    have hh : l.reverse.head? = some d := by rw [List.head?_reverse, hd]
    cases hr : l.reverse with
    | nil => rfl
    | cons a rest =>
      rw [hr] at hh
      simp only [List.head?_cons, Option.some.injEq] at hh
      subst hh
      simp [List.dropWhile_cons, h2]
  rw [trim, e1, e2, List.reverse_reverse]

theorem joinLines_head? (line : List Char) (rest : List (List Char)) (h : line ≠ []) :
    (joinLines (line :: rest)).head? = line.head? := by
  simp only [joinLines]
  exact List.head?_append_of_ne_nil _ h

theorem joinLines_getLast? :
    ∀ (lines : List (List Char)), lines ≠ [] → (∀ l ∈ lines, l ≠ []) →
      ∃ l ∈ lines, (joinLines lines).getLast? = l.getLast? := by
  intro lines
  induction lines with
  | nil =>
    intro h
    exact absurd rfl h
  | cons line rest ih =>
    intro _ hne
    cases rest with
    | nil => exact ⟨line, List.mem_cons_self _ _, by simp [joinLines]⟩
    | cons l2 r2 =>
      obtain ⟨l, hl, hlast⟩ := ih (by simp) (fun x hx => hne x (List.mem_cons_of_mem line hx))
      refine ⟨l, List.mem_cons_of_mem line hl, ?_⟩
      have hne2 : joinLines (l2 :: r2) ≠ [] := by
        have := hne l2 (by simp)
        simp only [joinLines, ne_eq, List.append_eq_nil, not_and]
        intro h
        exact absurd h this
      simp only [joinLines, List.isEmpty_cons, Bool.false_eq_true, if_false] at hlast hne2 ⊢
      rw [List.getLast?_append_of_ne_nil _ (by simp)]
      obtain ⟨a, b, hj⟩ := List.exists_cons_of_ne_nil hne2
      rw [hj] at hlast ⊢
      rw [List.getLast?_cons_cons]
      exact hlast

/-- On an explanation whose lines consist of an optional marker and a plain
body, the clean-up removes the markers and leaves the bodies, line by line. -/
theorem cleanExplanation_lines (lines : List (Marker × List Char)) (hne : lines ≠ [])
    (hplain : ∀ p ∈ lines, plainBody p.2 = true) :
    cleanExplanation (String.mk (joinLines (lines.map fun p => p.1.text ++ p.2)))
      = String.mk (joinLines (lines.map fun p => p.2)) := by
  simp only [cleanExplanation]
  rw [strip_headings lines hplain, strip_rules lines hplain]
  congr 1
  cases lines with
  | nil => exact absurd rfl hne
  | cons p rest =>
    obtain ⟨c, body, hbody, hc1, _, _, _, _⟩ :=
      plainBody_spec p.2 (hplain p (List.mem_cons_self p rest))
    have hhead : (joinLines ((p :: rest).map fun p => p.2)).head? = some c := by
      rw [List.map_cons, joinLines_head? _ _ (by rw [hbody]; simp), hbody]
      rfl
    obtain ⟨l, hl, hlast⟩ := joinLines_getLast? ((p :: rest).map fun p => p.2) (by simp)
      (by
        intro l hl
        simp only [List.mem_map] at hl
        obtain ⟨q, hq, rfl⟩ := hl
        obtain ⟨c1, b1, hb1, _⟩ := plainBody_spec q.2 (hplain q hq)
        rw [hb1]
        simp)
    simp only [List.mem_map] at hl
    obtain ⟨q, hq, rfl⟩ := hl
    obtain ⟨c1, b1, hb1, _, _, _, _, hq5⟩ := plainBody_spec q.2 (hplain q hq)
    cases hd : q.2.getLast? with
    | none =>
      rw [hb1] at hd
      simp at hd
    | some d =>
      exact trim_eq_self _ c d hhead (hlast.trans hd) hc1 (hq5 d hd)

end JsStr

namespace ChatInterface

/-- C26 (as stated, refuted): the explanation `#`, line break, `Body` has two
lines, the cleaned text `Body` has one, because the white space removed after
a marker includes line breaks; a rule line between two lines disappears
together with its line break; the rule marker in `# -- Overview` does not
start a line, yet it is removed, because the second replacement works on the
result of the first; and trailing spaces, which do not start a line, are
removed by the final trim.  On the streaming turn of scenario A the text
appended after the blank line is `Body`. -/
theorem marker_line_joined_with_next :
    JsStr.cleanExplanation "#\nBody" = "Body" ∧
    JsStr.cleanExplanation "Intro\n---\nBody" = "Intro\nBody" ∧
    JsStr.cleanExplanation "Done.  \nNext  " = "Done.  \nNext" ∧
    JsStr.cleanExplanation "# -- Overview" = "Overview" ∧
    handleLatest JSON.read scenarioA
        (.obj [("type", .str "output"), ("task_id", .str "abc"), ("message", .str "text"),
          ("explanation", .str "#\nBody")])
      = .ok { scenarioA with
          messages :=
            [{ role := "user", content := .str "hello", timestamp := 1 },
             { role := "assistant", content := .str "text\n\nBody", timestamp := 2,
               taskId := .str "abc", isStreaming := .bool false, structuredOutput := .null }]
          isLoading := false } := by
  decide

/-- C26 (amended): when an output message carries a non-empty string
explanation (and no run steps), the content becomes the content, a blank line
and the cleaned explanation.  For an explanation whose lines, separated by
line feeds, each consist of an optional marker (a run of `#`, or a run of two
or more `-`, followed by spaces) and a body that is not empty, starts with a
character other than `#`, `-` and white space and does not end with white
space, the cleaned explanation consists of the bodies of the lines: the
markers are removed, and the number of lines and the rest of every line are
preserved.  For every explanation the cleaned text is the explanation with
characters removed and nothing added or reordered, and only the characters
`#` and `-` and white space (line breaks included) are ever removed; an
explanation without any `#` or `-` is only trimmed, and so is a one-line
explanation that does not start with `#` or `-`. -/
theorem explanation_loses_only_markers_and_space (latestMessage runSteps : JsVal)
    (e c : String)
    (hexp : latestMessage.get "explanation" = .ok (.str e)) (hne : e ≠ "")
    (hrun : latestMessage.get "run_steps" = .ok runSteps)
    (hnone : runSteps.truthy = false) :
    finishContent latestMessage (.str c)
      = .ok (.str (c ++ "\n\n" ++ JsStr.cleanExplanation e)) ∧
    List.Sublist (JsStr.cleanExplanation e).data e.data ∧
    (JsStr.cleanExplanation e).data.filter (fun ch => !JsStr.removable ch)
      = e.data.filter (fun ch => !JsStr.removable ch) ∧
    ('#' ∉ e.data → '-' ∉ e.data →
      JsStr.cleanExplanation e = String.mk (JsStr.trim e.data)) ∧
    ((∀ ch ∈ e.data, JsStr.isLineTerm ch = false) → e.data.head? ≠ some '#' →
      e.data.head? ≠ some '-' →
      JsStr.cleanExplanation e = String.mk (JsStr.trim e.data)) ∧
    (∀ lines : List (JsStr.Marker × List Char), lines ≠ [] →
      (∀ p ∈ lines, JsStr.plainBody p.2 = true) →
      e.data = JsStr.joinLines (lines.map fun p => p.1.text ++ p.2) →
      (JsStr.cleanExplanation e).data = JsStr.joinLines (lines.map fun p => p.2)) := by
  have hsp : ∀ ch, JsStr.isSpace ch = true → (!JsStr.removable ch) = false := by
    intro ch h
    simp [JsStr.removable, h]
  have hhash : ∀ ch, (ch == '#') = true → (!JsStr.removable ch) = false := by
    intro ch h
    simp [JsStr.removable, h]
  have hdash : ∀ ch, (ch == '-') = true → (!JsStr.removable ch) = false := by
    intro ch h
    simp [JsStr.removable, h]
  refine ⟨?_, ?_, ?_, ?_, ?_, ?_⟩
  · simp [finishContent, hexp, hrun, hnone, JsVal.truthy_str hne, bind, Except.bind, pure,
      Except.pure]
  · simp only [JsStr.cleanExplanation]
    exact ((JsStr.trim_sublist _).trans (JsStr.stripRuns_sublist _ _ _ _ _)).trans
      (JsStr.stripRuns_sublist _ _ _ _ _)
  · simp only [JsStr.cleanExplanation]
    rw [JsStr.trim_filter _ hsp, JsStr.stripRuns_filter '-' 2 _ hdash hsp,
      JsStr.stripRuns_filter '#' 1 _ hhash hsp]
  · intro h1 h2
    simp only [JsStr.cleanExplanation]
    rw [JsStr.stripRuns_of_not_mem '#' 1 _ _ _ h1, JsStr.stripRuns_of_not_mem '-' 2 _ _ _ h2]
  · intro hline h1 h2
    simp only [JsStr.cleanExplanation]
    rw [JsStr.stripRuns_single_line '#' 1 _ _ hline h1,
      JsStr.stripRuns_single_line '-' 2 _ _ hline h2]
  · intro lines hlines hplain he
    have hmk : e = String.mk (JsStr.joinLines (lines.map fun p => p.1.text ++ p.2)) := by
      rw [← he]
    rw [hmk, JsStr.cleanExplanation_lines lines hlines hplain]

set_option maxRecDepth 20000 in
/-- Witness for C26 (amended): a heading line, a rule line and a body line
with markers inside the line. -/
theorem explanation_loses_only_markers_and_space_witness :
    finishContent
        (.obj [("type", .str "output"), ("task_id", .str "abc"), ("message", .str "text"),
          ("explanation", .str "## Title\n--- Notes\nBody #1 -- ok")])
        (.str "text")
      = .ok (.str "text\n\nTitle\nNotes\nBody #1 -- ok") ∧
    (JsStr.cleanExplanation "## Title\n--- Notes\nBody #1 -- ok").data
      = "Title\nNotes\nBody #1 -- ok".data :=
  ⟨(explanation_loses_only_markers_and_space
      (.obj [("type", .str "output"), ("task_id", .str "abc"), ("message", .str "text"),
        ("explanation", .str "## Title\n--- Notes\nBody #1 -- ok")])
      .undefined "## Title\n--- Notes\nBody #1 -- ok" "text" rfl (by decide) rfl rfl).1.trans
      (by decide),
   ((explanation_loses_only_markers_and_space
      (.obj [("type", .str "output"), ("task_id", .str "abc"), ("message", .str "text"),
        ("explanation", .str "## Title\n--- Notes\nBody #1 -- ok")])
      .undefined "## Title\n--- Notes\nBody #1 -- ok" "text" rfl (by decide) rfl
      rfl).2.2.2.2.2
      [(.heading 1 1, "Title".data), (.rule 1 1, "Notes".data), (.none, "Body #1 -- ok".data)]
      (by decide) (by decide) (by decide)).trans (by decide)⟩

end ChatInterface

/-! ## C27: the payload stored by the task view and the one selected by the chat -/

theorem JSON.lookup_setProp (k : String) (v : JsVal) (l : List (String × JsVal)) :
    JsVal.lookup k (JSON.setProp k v l) = v := by
  induction l with
  | nil => simp [JSON.setProp, JsVal.lookup]
  | cons p rest ih =>
    obtain ⟨k1, v1⟩ := p
    by_cases hk : k1 = k
    · simp [JSON.setProp, hk, JsVal.lookup]
    · simp only [JSON.setProp, hk, if_false]
      split
      · split
        · simp [JsVal.lookup]
        · simp [JsVal.lookup, hk, ih]
      · split
        · simp [JsVal.lookup]
        · simp [JsVal.lookup, hk, ih]
      · simp [JsVal.lookup, hk, ih]

namespace TaskOrchestrator

/-- C27 (as stated, refuted): for the valid JSON message `{"a":1}` of task `A`
the task view stores `undefined` (the property `0` of the object) while the
chat view selects the object itself; for `[]` the task view stores `undefined`
and the chat view selects the empty array; for the JSON string `"hi"` the task
view stores its first character and the chat view selects the whole string;
for `null` the updater of the task view throws while the chat view selects
`null`. -/
theorem object_payload_stored_as_undefined :
    storeOutput JSON.read (fun _ => "") twoTasks
        (.obj [("type", .str "output"), ("task_id", .str "A"),
          ("message", .str "\x7b\"a\":1\x7d")])
      = .ok { twoTasks with taskOutputs := [("A", .undefined)] } ∧
    (ChatInterface.extractContent JSON.read
        (.obj [("type", .str "output"), ("task_id", .str "A"),
          ("message", .str "\x7b\"a\":1\x7d")])).map (fun ex => ex.structuredOutput)
      = .ok (.obj [("a", .num 1)]) ∧
    storeOutput JSON.read (fun _ => "") twoTasks
        (.obj [("type", .str "output"), ("task_id", .str "A"), ("message", .str "[]")])
      = .ok { twoTasks with taskOutputs := [("A", .undefined)] } ∧
    (ChatInterface.extractContent JSON.read
        (.obj [("type", .str "output"), ("task_id", .str "A"),
          ("message", .str "[]")])).map (fun ex => ex.structuredOutput)
      = .ok (.arr []) ∧
    storeOutput JSON.read (fun _ => "") twoTasks
        (.obj [("type", .str "output"), ("task_id", .str "A"), ("message", .str "\"hi\"")])
      = .ok { twoTasks with taskOutputs := [("A", .str "h")] } ∧
    (ChatInterface.extractContent JSON.read
        (.obj [("type", .str "output"), ("task_id", .str "A"),
          ("message", .str "\"hi\"")])).map (fun ex => ex.structuredOutput)
      = .ok (.str "hi") ∧
    storeOutput JSON.read (fun _ => "") twoTasks
        (.obj [("type", .str "output"), ("task_id", .str "A"), ("message", .str "null")])
      = .error .typeErr ∧
    (ChatInterface.extractContent JSON.read
        (.obj [("type", .str "output"), ("task_id", .str "A"),
          ("message", .str "null")])).map (fun ex => ex.structuredOutput)
      = .ok .null := by
  decide

theorem lookup_sizeOf_lt (k : String) (kvs : List (String × JsVal)) :
    sizeOf (JsVal.lookup k kvs) < 1 + sizeOf kvs := by
  induction kvs with
  | nil => simp [JsVal.lookup]
  | cons p rest ih =>
    obtain ⟨k1, v1⟩ := p
    by_cases hk : k1 = k
    · simp [JsVal.lookup, hk]
      omega
    · simp [JsVal.lookup, hk]
      omega

theorem lookup_ne_obj (k : String) (kvs : List (String × JsVal)) :
    JsVal.lookup k kvs ≠ .obj kvs := by
  intro h
  have h1 := lookup_sizeOf_lt k kvs
  rw [h] at h1
  simp at h1

theorem index0_eq_specPayload (decoded : JsVal) :
    decoded.index0 = .ok (ChatInterface.specPayload decoded) ↔
      ((∃ first others, decoded = .arr (first :: others)) ∨
        (∃ c, decoded = .str (String.mk [c]))) := by
  cases decoded with
  | undefined => simp [JsVal.index0]
  | null => simp [JsVal.index0]
  | bool b => simp [JsVal.index0, ChatInterface.specPayload]
  | num n => simp [JsVal.index0, ChatInterface.specPayload]
  | str t =>
    obtain ⟨data⟩ := t
    cases data with
    | nil => simp [JsVal.index0, ChatInterface.specPayload, String.ext_iff]
    | cons c rest =>
      simp only [JsVal.index0, ChatInterface.specPayload, Except.ok.injEq, JsVal.str.injEq,
        String.ext_iff, List.cons.injEq, true_and, reduceCtorEq, exists_false, false_or]
      constructor
      · intro h
        exact ⟨c, rfl, h.symm⟩
      · rintro ⟨c1, _, h2⟩
        exact h2.symm
  | arr xs =>
    cases xs with
    | nil => simp [JsVal.index0, ChatInterface.specPayload]
    | cons x rest => simp [JsVal.index0, ChatInterface.specPayload]
  | obj kvs =>
    simp only [JsVal.index0, ChatInterface.specPayload, Except.ok.injEq, reduceCtorEq,
      exists_false, or_self, iff_false]
    exact lookup_ne_obj "0" kvs

/-- C27 (amended): for every output message whose message field is valid JSON
(strings that begin with a character outside the Basic Multilingual Plane
apart), the chat view selects the structured payload (the first element of a
non-empty array, otherwise the decoded value itself), while the task view
stores `outputData[0]` under the message's task id whenever that read does not
throw (it throws for `null`).  The stored value equals the payload selected by
the chat view exactly when the decoded value is a non-empty array, where both
are its first element, or a string of one character; for every other decoded
value (an object, the empty array, another string, a number, a boolean) the
two differ. -/
theorem stored_output_agrees_on_nonempty_arrays (parse : String → Option JsVal)
    (errorText : String → String) (st : State) (latestMessage message taskId decoded : JsVal)
    (hmsg : latestMessage.get "message" = .ok message)
    (hid : latestMessage.get "task_id" = .ok taskId)
    (hparse : jsonParse parse message = .ok decoded)
    (_hbmp : ∀ (t : String) (c : Char) (others : List Char), decoded = .str t →
      t.data = c :: others → c.toNat < 65536) :
    (∃ ex, ChatInterface.extractContent parse latestMessage = .ok ex ∧
      ex.structuredOutput = ChatInterface.specPayload decoded) ∧
    (∀ first, decoded.index0 = .ok first →
      ∃ st1, storeOutput parse errorText st latestMessage = .ok st1 ∧
        st1.tasks = st.tasks ∧ st1.selectedTask = st.selectedTask ∧
        JsVal.lookup taskId.toStr st1.taskOutputs = first) ∧
    (decoded = .null → storeOutput parse errorText st latestMessage = .error .typeErr) ∧
    (decoded.index0 = .ok (ChatInterface.specPayload decoded) ↔
      ((∃ first others, decoded = .arr (first :: others)) ∨
        (∃ c, decoded = .str (String.mk [c])))) ∧
    (∀ first others, decoded = .arr (first :: others) →
      decoded.index0 = .ok first ∧ ChatInterface.specPayload decoded = first) := by
  refine ⟨?_, ?_, ?_, index0_eq_specPayload decoded, ?_⟩
  · simp only [ChatInterface.extractContent, hmsg, hparse, ChatInterface.selectStructured_eq,
      bind, Except.bind, pure, Except.pure]
    split <;> exact ⟨_, rfl, rfl⟩
  · intro first hfirst
    refine ⟨{ st with taskOutputs := JSON.setProp taskId.toStr first st.taskOutputs }, ?_, rfl,
      rfl, JSON.lookup_setProp _ _ _⟩
    simp [storeOutput, hmsg, hid, hparse, hfirst, bind, Except.bind, pure, Except.pure]
  · intro hnull
    subst hnull
    simp [storeOutput, hmsg, hid, hparse, JsVal.index0, bind, Except.bind]
  · intro first others hd
    subst hd
    exact ⟨rfl, rfl⟩

/-- Witness for C27 (amended): the message `[{"a":1},2]` of task `A`, and the
JSON string `"h"`, on which both views take `h`. -/
theorem stored_output_agrees_on_nonempty_arrays_witness :
    (JsVal.str "h").index0 = .ok (ChatInterface.specPayload (.str "h")) ∧
    (∃ ex, ChatInterface.extractContent JSON.read
        (.obj [("type", .str "output"), ("task_id", .str "A"),
          ("message", .str "[\x7b\"a\":1\x7d,2]")]) = .ok ex ∧
      ex.structuredOutput = .obj [("a", .num 1)]) ∧
    (∃ st1, storeOutput JSON.read (fun _ => "") twoTasks
        (.obj [("type", .str "output"), ("task_id", .str "A"),
          ("message", .str "[\x7b\"a\":1\x7d,2]")]) = .ok st1 ∧
      st1.tasks = twoTasks.tasks ∧ st1.selectedTask = twoTasks.selectedTask ∧
      JsVal.lookup "A" st1.taskOutputs = .obj [("a", .num 1)]) :=
  ⟨(stored_output_agrees_on_nonempty_arrays JSON.read (fun _ => "") twoTasks
      (.obj [("type", .str "output"), ("task_id", .str "A"), ("message", .str "\"h\"")])
      (.str "\"h\"") (.str "A") (.str "h") rfl rfl (by decide)
      (by
        intro t c others h1 h2
        cases h1
        cases h2
        decide)).2.2.2.1.mpr (Or.inr ⟨'h', rfl⟩),
   (stored_output_agrees_on_nonempty_arrays JSON.read (fun _ => "") twoTasks
      (.obj [("type", .str "output"), ("task_id", .str "A"),
        ("message", .str "[\x7b\"a\":1\x7d,2]")])
      (.str "[\x7b\"a\":1\x7d,2]") (.str "A") (.arr [.obj [("a", .num 1)], .num 2])
      rfl rfl (by decide) (by intro t c others h; cases h)).1,
   (stored_output_agrees_on_nonempty_arrays JSON.read (fun _ => "") twoTasks
      (.obj [("type", .str "output"), ("task_id", .str "A"),
        ("message", .str "[\x7b\"a\":1\x7d,2]")])
      (.str "[\x7b\"a\":1\x7d,2]") (.str "A") (.arr [.obj [("a", .num 1)], .num 2])
      rfl rfl (by decide) (by intro t c others h; cases h)).2.1 (.obj [("a", .num 1)]) rfl⟩

end TaskOrchestrator

/-! ## C28: output messages on which the update throws -/

namespace ChatInterface

/-- C28 (code defect): on the streaming turn of scenario A the update of an
output message of task `abc` throws a `TypeError` instead of completing when
the message has no `message` field, when the `message` field is a number, and
when the payload carries an `error`, an `explanatory_summary` or a `response`
that is not a string: in each case the content left by the `try`/`catch` is
not a string, and the preview `content.substring(0, 200)` that follows is
called on it. -/
theorem output_update_throws_on_non_string_content :
    handleLatest JSON.read scenarioA (.obj [("type", .str "output"), ("task_id", .str "abc")])
      = .error .typeErr ∧
    handleLatest JSON.read scenarioA
        (.obj [("type", .str "output"), ("task_id", .str "abc"), ("message", .num 5)])
      = .error .typeErr ∧
    handleLatest JSON.read scenarioA (outputFrame "\x7b\"error\":404\x7d") = .error .typeErr ∧
    handleLatest JSON.read scenarioA (outputFrame "\x7b\"error\":\x7b\"code\":500\x7d\x7d")
      = .error .typeErr ∧
    handleLatest JSON.read scenarioA (outputFrame "\x7b\"explanatory_summary\":[\"a\"]\x7d")
      = .error .typeErr ∧
    handleLatest JSON.read scenarioA (outputFrame "\x7b\"response\":\x7b\"text\":\"hi\"\x7d\x7d")
      = .error .typeErr ∧
    extractContent JSON.read (.obj [("type", .str "output"), ("task_id", .str "abc")])
      = .ok { content := .undefined, structuredOutput := .null } ∧
    extractContent JSON.read (outputFrame "\x7b\"error\":404\x7d")
      = .ok { content := .num 404, structuredOutput := .obj [("error", .num 404)] } ∧
    finishContent (outputFrame "\x7b\"error\":404\x7d") (.num 404) = .error .typeErr := by
  decide

end ChatInterface

/-! ## C29: the level at which a REST failure is logged -/

namespace Api

/-- C29 (code defect): a REST failure without an HTTP response (a network
error or a timeout) reaches `logApiCall` with the status `NETWORK_ERROR`, for
which both comparisons `status >= 400` and `status >= 300` are false: the
level is INFO, so on every logger nothing is uploaded to the backend, and on
the initial logger the failure is buffered as an INFO entry.  Numeric statuses
are classified as specified (ERROR from 400, WARN from 300 to 399, INFO
below), and a failure with the HTTP status 500 is logged at ERROR and
uploaded. -/
theorem network_failure_logged_at_info (now : Int) (host : Logger.Host) (message : JsVal)
    (config : Option RequestConfig) (lg : Logger.State) :
    Logger.apiLevel (.str "NETWORK_ERROR") = "INFO" ∧
    (responseError now host { message := message, config := config, response := none }
      lg).uploaded = [] ∧
    (responseError now host { message := message, config := config, response := none }
      Logger.initial).logger.logs.map (fun e => e.level) = ["INFO"] ∧
    (responseError 5000 Logger.sampleHost timedOut Logger.initial).logger.logs.map
        (fun e => (e.level, e.message))
      = [("INFO", .str "API GET /providers - NETWORK_ERROR (4000ms)")] ∧
    (responseError 5000 Logger.sampleHost timedOut Logger.initial).uploaded = [] ∧
    (∀ n : Int, Logger.apiLevel (.num n)
      = if 400 ≤ n then "ERROR" else if 300 ≤ n then "WARN" else "INFO") ∧
    (responseError 5000 Logger.sampleHost
        { timedOut with response := some { status := 500, data := .null } }
        Logger.initial).uploaded.map (fun e => (e.level, e.message))
      = [("ERROR", .str "API GET /providers - 500 (4000ms)")] := by
  have hlevel : Logger.apiLevel (.str "NETWORK_ERROR") = "INFO" := by decide
  refine ⟨hlevel, ?_, ?_, by decide, by decide, ?_, by decide⟩
  · simp only [responseError, Logger.logApiCall, hlevel, Logger.info, Logger.logAt]
    simp only [String.reduceEq, if_false]
    split <;> simp [Logger.output, Logger.createLogEntry, Logger.entryOf]
  · have hshould : Logger.shouldLog "INFO" Logger.initial = true := by decide
    simp only [responseError, Logger.logApiCall, hlevel, Logger.info, Logger.logAt, hshould]
    simp [Logger.createLogEntry, Logger.entryOf, Logger.pushCapped, Logger.initial]
  · intro n
    simp only [Logger.apiLevel, JsVal.geNum, JsVal.toNumber]
    by_cases h4 : 400 ≤ n
    · simp [h4]
    · by_cases h3 : 300 ≤ n <;> simp [h4, h3]

end Api

/-! ## C30: the current level of the logger -/

namespace Logger

theorem geLevel_inherited (v : Option LevelValue) (name : String) :
    geLevel v (some (.inherited name)) = false := by
  rcases v with _ | (j | other) <;> rfl

/-- C30 (code defect): `setLevel('constructor')` changes the current level
although `constructor` is none of DEBUG, INFO, WARN and ERROR: the test
`this.logLevels[level] !== undefined` is passed by the member that `logLevels`
inherits from `Object.prototype`, which becomes the current level; from then
on `_shouldLog` is false for each of the four levels, so no call is recorded
or uploaded any more, not even an ERROR call.  The rest holds: a call is recorded exactly
when `_shouldLog` holds for its level, which for a current level of rank `k`
means a rank of at least `k`; on the initial logger (INFO) a DEBUG call
records nothing; and `setLevel` leaves the level unchanged for every name that
is neither a level name nor a name of `Object.prototype`. -/
theorem setLevel_accepts_inherited_name (host : Host) (message data : JsVal) :
    logLevels "constructor" = some (.inherited "constructor") ∧
    (setLevel "constructor" initial).currentLevel = .inherited "constructor" ∧
    (setLevel "constructor" initial).currentLevel ≠ initial.currentLevel ∧
    shouldLog "DEBUG" (setLevel "constructor" initial) = false ∧
    shouldLog "INFO" (setLevel "constructor" initial) = false ∧
    shouldLog "WARN" (setLevel "constructor" initial) = false ∧
    shouldLog "ERROR" (setLevel "constructor" initial) = false ∧
    error host message data (setLevel "constructor" initial)
      = { logger := setLevel "constructor" initial, uploaded := [] } ∧
    (∀ level lg, (logAt level host message data lg).logger.logs
      = if shouldLog level lg then
          pushCapped lg.maxLogs lg.logs
            (entryOf host level message (if data = .undefined then .obj [] else data))
        else lg.logs) ∧
    (∀ (k : Nat) (lg : State),
      shouldLog "DEBUG" { lg with currentLevel := .rank k } = decide (k ≤ 0) ∧
      shouldLog "INFO" { lg with currentLevel := .rank k } = decide (k ≤ 1) ∧
      shouldLog "WARN" { lg with currentLevel := .rank k } = decide (k ≤ 2) ∧
      shouldLog "ERROR" { lg with currentLevel := .rank k } = decide (k ≤ 3)) ∧
    initial.currentLevel = .rank 1 ∧
    (debug host message data initial).logger.logs = [] ∧
    (∀ level lg, (setLevel level lg).currentLevel
      = if level = "DEBUG" then .rank 0
        else if level = "INFO" then .rank 1
        else if level = "WARN" then .rank 2
        else if level = "ERROR" then .rank 3
        else if level ∈ objectPrototypeNames then .inherited level
        else lg.currentLevel) := by
  have hset : setLevel "constructor" initial
      = { initial with currentLevel := .inherited "constructor" } := by decide
  have hshould : ∀ level, shouldLog level (setLevel "constructor" initial) = false := by
    intro level
    rw [hset]
    exact geLevel_inherited _ _
  refine ⟨by decide, by decide, by decide, hshould _, hshould _, hshould _, hshould _, ?_, ?_,
    ?_, rfl, ?_, ?_⟩
  · simp [error, logAt, hshould]
  · intro level lg
    simp only [logAt]
    split <;> simp [createLogEntry]
  · intro k lg
    simp [shouldLog, logLevels, geLevel]
  · have hdebug : shouldLog "DEBUG" initial = false := by decide
    simp only [debug, logAt, hdebug]
    simp [initial]
  · intro level lg
    simp only [setLevel, logLevels]
    split_ifs <;> rfl

end Logger

end FAI
